import Mathlib

/-!
# The CDP handler of auto-accept-agent

A shallow embedding of `src/main_scripts/cdp-handler.js` (class `CDPHandler`)
and the properties of it that the specification states.

Conventions of the embedding.

* A JavaScript value that came out of `JSON.parse` is a `JSON` term; the
  JavaScript `undefined` is `none` of `Option JSON`.  A number is an IEEE 754
  double (`JSNumber`): `+` rounds to the nearest double, ties to even, and the
  conversion to a string is `Number::toString` of ECMAScript.  The counter
  `msgId` and the handles of the sockets are natural numbers.
* `JSON.parse` is a function of the JavaScript runtime.  It is a parameter
  `parse : String → Option JSON` of every definition that calls it, `none`
  standing for the `SyntaxError` it throws.  An object is represented by its
  own properties, each key once, as `JSON.parse` leaves it.
* A synchronous computation that may throw is an `Except JSError`; the
  completion of an `async` function is an `Outcome`.
* The logger is a collaborator that returns normally; what it prints is not
  modelled, what the handler evaluates to build the printed line is.
* An awaited call runs to its settlement in one step: the frames of the peer
  (`Peer`), the end of a connection attempt (`Dialer`) and the end of an HTTP
  request are given by the environment, and the `close` event of a socket is
  a step of its own between such calls.
-/

namespace AutoAccept

/-! ## JavaScript numbers

A JavaScript number is an IEEE 754 double.  Every finite double is a whole
multiple of `2 ^ -1074`, the smallest positive double, and its magnitude is
kept as that multiple, its count of units: the sum of two doubles is then a sum
or difference of natural numbers, rounded once. -/

/-- The exponent of the unit: the smallest positive double is `2 ^ -1074`. -/
def unitExponent : Nat := 1074

/-- The number 1 in units: `2 ^ 1074`. -/
def unitsPerOne : Nat := 1 <<< unitExponent

/-- The number of binary digits of `n`, counted 32 at a time while there are
that many; `fuel` bounds the number of steps. -/
def bitLengthAux : Nat → Nat → Nat
  | 0, _ => 0
  | fuel + 1, n =>
    if n = 0 then 0
    else if n >>> 32 = 0 then bitLengthAux fuel (n >>> 1) + 1
    else bitLengthAux fuel (n >>> 32) + 32

/-- The number of binary digits of `n`: the least `b` with `n < 2 ^ b`. -/
def bitLength (n : Nat) : Nat :=
  bitLengthAux n n

/-- The integer nearest to `N / D`, the even one of the two when `N / D` lies
halfway between them. -/
def roundTiesEven (N D : Nat) : Nat :=
  if 2 * (N % D) < D then N / D
  else if D < 2 * (N % D) then N / D + 1
  else if N / D % 2 = 0 then N / D else N / D + 1

/-- Rounding to double precision, `roundTiesToEven` of IEEE 754: the number
with at most 53 significant binary digits that is nearest to `N / D`.  With
`b` the number of binary digits of the integer part of `N / D`, the result is
a multiple of `2 ^ (b - 53)`; below `2 ^ 53` it is an integer. -/
def roundRatio (N D : Nat) : Nat :=
  roundTiesEven N (D <<< (bitLength (N / D) - 53)) <<< (bitLength (N / D) - 53)

/-- Whether `n` units is the magnitude of a finite double: it has at most 53
significant binary digits, and it is below `2 ^ 1024`, that is, it has at most
`1074 + 1024` binary digits. -/
def isDoubleUnits (n : Nat) : Bool :=
  n % (1 <<< (bitLength n - 53)) == 0 && decide (bitLength n ≤ unitExponent + 1024)

/-- A JavaScript number: a finite double with its sign and its magnitude in
units of `2 ^ -1074` (the two zeros are the magnitude 0 with either sign), an
infinity, or `NaN`. -/
inductive JSNumber where
  | finite (negative : Bool) (units : Nat) (h : isDoubleUnits units = true)
  | infinity (negative : Bool)
  | nan
  deriving DecidableEq

/-- The double nearest to `N / D` units with the given sign: the infinity when
the rounded magnitude is `2 ^ 1024` or more. -/
def JSNumber.round (negative : Bool) (N D : Nat) : JSNumber :=
  if h : isDoubleUnits (roundRatio N D) = true then .finite negative (roundRatio N D) h
  else .infinity negative

/-- The double nearest to the fraction `N / D`. -/
def JSNumber.ofRatio (negative : Bool) (N D : Nat) : JSNumber :=
  .round negative (N * unitsPerOne) D

/-- The double nearest to a natural number. -/
def JSNumber.ofNat (n : Nat) : JSNumber :=
  .ofRatio false n 1

/-- The double nearest to an integer. -/
def JSNumber.ofInt (n : Int) : JSNumber :=
  .ofRatio (decide (n < 0)) n.natAbs 1

instance (n : Nat) : OfNat JSNumber n := ⟨.ofNat n⟩

/-- The power `10 ^ n`. -/
def pow10 : Nat → Nat
  | 0 => 1
  | n + 1 => 10 * pow10 n

/-- The double nearest to `c * 10 ^ e`, the value of the decimal literal with
the digits of `c` and the exponent `e`. -/
def JSNumber.ofDecimal (negative : Bool) (c : Nat) (e : Int) : JSNumber :=
  if 0 ≤ e then .ofRatio negative (c * pow10 e.toNat) 1
  else .ofRatio negative c (pow10 (-e).toNat)

/-- JavaScript `ToBoolean` on a number: the zeros and `NaN` are falsy. -/
def JSNumber.truthy : JSNumber → Bool
  | .finite _ units _ => units != 0
  | .infinity _ => true
  | .nan => false

/-- Whether a number is `-0`. -/
def JSNumber.isNegativeZero : JSNumber → Bool
  | .finite negative units _ => negative && units == 0
  | _ => false

/-- The comparison `x === y` of two numbers: `NaN` equals nothing and the two
zeros equal each other. -/
def JSNumber.strictEq : JSNumber → JSNumber → Bool
  | .finite sa a _, .finite sb b _ => a == b && (sa == sb || a == 0)
  | .infinity sa, .infinity sb => sa == sb
  | _, _ => false

/-- The integer a number is, when it is one; either zero is the integer 0. -/
def JSNumber.toInt? : JSNumber → Option Int
  | .finite negative units _ =>
    if units % unitsPerOne = 0 then
      some (if negative then -((units / unitsPerOne : Nat) : Int)
        else ((units / unitsPerOne : Nat) : Int))
    else none
  | _ => none

/-- The sum `x + y` of two numbers (`Number::add`): the exact sum of two finite
doubles, rounded to the nearest double.  An exact sum of zero is `+0`, unless
both operands are `-0`. -/
def addNumbers : JSNumber → JSNumber → JSNumber
  | .nan, _ => .nan
  | _, .nan => .nan
  | .infinity sa, .infinity sb => if sa = sb then .infinity sa else .nan
  | .infinity sa, .finite _ _ _ => .infinity sa
  | .finite _ _ _, .infinity sb => .infinity sb
  | .finite sa a _, .finite sb b _ =>
    if sa = sb then .round sa (a + b) 1
    else if a = b then .round false 0 1
    else if b < a then .round sa (a - b) 1
    else .round sb (b - a) 1

/-- Whether `N / D < 10 ^ n`. -/
def belowPow10 (N D : Nat) (n : Int) : Bool :=
  if 0 ≤ n then N < D * pow10 n.toNat else N * pow10 (-n).toNat < D

/-- The decimal exponent `n` of `N / D`, with `10 ^ (n - 1) ≤ N / D < 10 ^ n`,
searched for from the guess `n` in at most `fuel` steps. -/
def decimalExponentFrom : Nat → Int → Nat → Nat → Int
  | 0, n, _, _ => n
  | fuel + 1, n, N, D =>
    if belowPow10 N D (n - 1) then decimalExponentFrom fuel (n - 1) N D
    else if belowPow10 N D n then n
    else decimalExponentFrom fuel (n + 1) N D

/-- The decimal exponent `n` of a positive double of `m` units:
`10 ^ (n - 1) ≤ m * 2 ^ -1074 < 10 ^ n`.  The exponents of the doubles range
from -323 to 309; the guess is taken from the number of binary digits. -/
def decimalExponent (m : Nat) : Int :=
  decimalExponentFrom 700 (((bitLength m : Int) - (unitExponent + 1 : Nat)) * 301 / 1000) m
    unitsPerOne

/-- The magnitude, in units, of the double nearest to `c * 10 ^ e`. -/
def decimalRound (c : Nat) (e : Int) : Nat :=
  if 0 ≤ e then roundRatio (c * pow10 e.toNat * unitsPerOne) 1
  else roundRatio (c * unitsPerOne) (pow10 (-e).toNat)

/-- The integer `s` for which `s * 10 ^ e` converts back to the double of `m`
units, when there is one: only the two integers next to `m * 2 ^ -1074 / 10 ^ e`
can be; when both are, the nearer one, the even one at equal distance. -/
def digitsAt (m : Nat) (e : Int) : Option Nat :=
  let A := if 0 ≤ e then m else m * pow10 (-e).toNat
  let B := if 0 ≤ e then pow10 e.toNat * unitsPerOne else unitsPerOne
  if decimalRound (A / B) e == m then
    if decimalRound (A / B + 1) e == m then some (roundTiesEven A B) else some (A / B)
  else if decimalRound (A / B + 1) e == m then some (A / B + 1)
  else none

/-- The shortest decimal `s * 10 ^ e` that converts back to the double of `m`
units, searched for with `k`, `k + 1`, ... digits; `n` is the decimal exponent
of the double.  No double needs more than 17 digits. -/
def shortestFrom : Nat → Nat → Nat → Int → Nat × Int
  | 0, _, m, _ => (roundTiesEven m unitsPerOne, 0)
  | fuel + 1, k, m, n =>
    match digitsAt m (n - k) with
    | some s => (s, n - k)
    | none => shortestFrom fuel (k + 1) m n

/-- Drops the zeros at the end of the digits of `s` in `s * 10 ^ e`. -/
def stripZeros : Nat → Nat → Int → Nat × Int
  | 0, s, e => (s, e)
  | fuel + 1, s, e =>
    if s ≠ 0 ∧ s % 10 = 0 then stripZeros fuel (s / 10) (e + 1) else (s, e)

/-- The text of the decimal with the given `k` digits and the value
`0.digits * 10 ^ n`, as `Number::toString` lays it out: the digits with zeros
appended for `k ≤ n ≤ 21`, with a decimal point inside for `0 < n ≤ 21`, after
`0.` and zeros for `-6 < n ≤ 0`, and with an exponent otherwise. -/
def formatDecimal (digits : List Char) (n : Int) : String :=
  if (digits.length : Int) ≤ n ∧ n ≤ 21 then
    String.mk (digits ++ List.replicate (n.toNat - digits.length) '0')
  else if 0 < n ∧ n ≤ 21 then
    String.mk (digits.take n.toNat ++ '.' :: digits.drop n.toNat)
  else if -6 < n ∧ n ≤ 0 then
    String.mk ('0' :: '.' :: List.replicate (-n).toNat '0' ++ digits)
  else
    match digits with
    | [] => ""
    | [d] => String.mk [d] ++ "e" ++ (if n - 1 < 0 then "-" else "+") ++ toString (n - 1).natAbs
    | d :: rest =>
      String.mk (d :: '.' :: rest) ++ "e" ++ (if n - 1 < 0 then "-" else "+") ++
        toString (n - 1).natAbs

/-- The text of a positive double of `m` units: its shortest decimal that
converts back to it. -/
def magnitudeText (m : Nat) : String :=
  let found := shortestFrom 17 1 m (decimalExponent m)
  let stripped := stripZeros 400 found.1 found.2
  formatDecimal (Nat.toDigits 10 stripped.1)
    (stripped.2 + (Nat.toDigits 10 stripped.1).length)

/-- The conversion of a number to a string, `Number::toString` with radix 10. -/
def numberText : JSNumber → String
  | .nan => "NaN"
  | .infinity false => "Infinity"
  | .infinity true => "-Infinity"
  | .finite negative m _ =>
    if m = 0 then "0" else (if negative then "-" else "") ++ magnitudeText m

/-! ## JavaScript values -/

/-- A value produced by `JSON.parse`. -/
inductive JSON where
  | null
  | bool (b : Bool)
  | num (x : JSNumber)
  | str (s : String)
  | arr (items : List JSON)
  | obj (fields : List (String × JSON))

/-- The exceptions the handler can meet. -/
inductive JSError where
  | typeError
  | syntaxError
  | error (message : String)
  deriving DecidableEq, Repr

/-- Own-property lookup in the field list of a parsed object. -/
def lookupField (k : String) : List (String × JSON) → Option JSON
  | [] => none
  | (k', v) :: rest => if k' = k then some v else lookupField k rest

/-- Whether the field list has the own property `k`. -/
def hasField (k : String) : List (String × JSON) → Bool
  | [] => false
  | (k', _) :: rest => k' == k || hasField k rest

/-- JavaScript `ToBoolean` on a parsed value. -/
def truthy : JSON → Bool
  | .null => false
  | .bool b => b
  | .num x => x.truthy
  | .str s => s != ""
  | .arr _ => true
  | .obj _ => true

/-- JavaScript `ToBoolean` on a value that may be `undefined`. -/
def truthyOpt : Option JSON → Bool
  | none => false
  | some v => truthy v

/-- The property read `p.k` for a property name `k` that no built-in prototype
defines (every name the handler reads is such a name): reading a property of
`null` throws a `TypeError`, an object yields its own property, any other value
yields `undefined`. -/
def getProp (p : JSON) (k : String) : Except JSError (Option JSON) :=
  match p with
  | .null => .error .typeError
  | .obj fields => .ok (lookupField k fields)
  | _ => .ok none

/-- The property read `p.k` on a value that may be `undefined`. -/
def getPropOpt (p : Option JSON) (k : String) : Except JSError (Option JSON) :=
  match p with
  | none => .error .typeError
  | some v => getProp v k

/-- The optional chain `p?.k`. -/
def optChain (p : Option JSON) (k : String) : Option JSON :=
  match p with
  | none => none
  | some .null => none
  | some (.obj fields) => lookupField k fields
  | some _ => none

/-- The comparison `v === s` against a string literal. -/
def strictEqStr (v : Option JSON) (s : String) : Bool :=
  match v with
  | some (.str t) => t == s
  | _ => false

/-- The comparison `v === n` against the number of a counter. -/
def strictEqNum (v : Option JSON) (n : Nat) : Bool :=
  match v with
  | some (.num x) => x.strictEq (.ofNat n)
  | _ => false

/-- Whether the character list starts with the pattern. -/
def startsWithChars : List Char → List Char → Bool
  | _, [] => true
  | [], _ :: _ => false
  | c :: cs, p :: ps => c == p && startsWithChars cs ps

/-- Whether the pattern occurs in the character list as a contiguous block. -/
def includesChars : List Char → List Char → Bool
  | [], pat => startsWithChars [] pat
  | c :: cs, pat => startsWithChars (c :: cs) pat || includesChars cs pat

/-- The method `String.prototype.includes`. -/
def stringIncludes (s pat : String) : Bool :=
  includesChars s.data pat.data

/-- The method `Array.prototype.includes` searching for a string. -/
def arrayIncludesStr : List JSON → String → Bool
  | [], _ => false
  | .str t :: rest, s => t == s || arrayIncludesStr rest s
  | _ :: rest, s => arrayIncludesStr rest s

/-- The method call `v.includes(s)`: strings and arrays have the method, on any
other value `v.includes` is not a function and the call throws. -/
def callIncludes (v : Option JSON) (s : String) : Except JSError Bool :=
  match v with
  | some (.str t) => .ok (stringIncludes t s)
  | some (.arr items) => .ok (arrayIncludesStr items s)
  | _ => .error .typeError

mutual
/-- JavaScript `ToString`, `none` when it throws a `TypeError`: an object whose
own `toString` property shadows the inherited method cannot be converted. -/
def jsToString : JSON → Option String
  | .null => some "null"
  | .bool true => some "true"
  | .bool false => some "false"
  | .num x => some (numberText x)
  | .str s => some s
  | .arr items => jsJoin items
  | .obj fields => if hasField "toString" fields then none else some "[object Object]"
/-- The method `Array.prototype.join` with the separator `,`. -/
def jsJoin : List JSON → Option String
  | [] => some ""
  | [x] => jsJoinItem x
  | x :: y :: rest =>
    match jsJoinItem x, jsJoin (y :: rest) with
    | some a, some b => some (a ++ "," ++ b)
    | _, _ => none
/-- The text one array element contributes to a join: nothing for `null`. -/
def jsJoinItem : JSON → Option String
  | .null => some ""
  | .bool true => some "true"
  | .bool false => some "false"
  | .num x => some (numberText x)
  | .str s => some s
  | .arr items => jsJoin items
  | .obj fields => if hasField "toString" fields then none else some "[object Object]"
end

/-! ## Target discovery -/

/-- What the HTTP request of `_getPages` ends with. -/
inductive HttpResult where
  | response (body : String)
  | error
  | timeout

namespace CDPHandler

/-- The callback of `pages.filter` in `_getPages`:
`p.webSocketDebuggerUrl && (p.type === 'page' || p.type === 'webview') &&
 p.url && p.url.includes('workbench.html')`, as the boolean `filter` takes it
for. -/
def workbenchFilter (p : JSON) : Except JSError Bool :=
  match getProp p "webSocketDebuggerUrl" with
  | .error e => .error e
  | .ok ws =>
    if !truthyOpt ws then .ok false
    else
      match getProp p "type" with
      | .error e => .error e
      | .ok ty =>
        if !(strictEqStr ty "page" || strictEqStr ty "webview") then .ok false
        else
          match getProp p "url" with
          | .error e => .error e
          | .ok url =>
            if !truthyOpt url then .ok false
            else callIncludes url "workbench.html"

/-- The call `pages.filter(callback)` on an array: the first throw aborts it. -/
def filterPages : List JSON → Except JSError (List JSON)
  | [] => .ok []
  | p :: rest =>
    match workbenchFilter p with
    | .error e => .error e
    | .ok keep =>
      match filterPages rest with
      | .error e => .error e
      | .ok kept => .ok (if keep then p :: kept else kept)

/-- The body of the `try` block in the `end` handler of `_getPages`. -/
def parseAndFilter (parse : String → Option JSON) (body : String) :
    Except JSError (List JSON) :=
  match parse body with
  | none => .error .syntaxError
  | some (.arr pages) => filterPages pages
  | some _ => .error .typeError

/-- The function `_getPages(port)`, as a function of what the HTTP request to
the port ends with: the list the returned promise resolves with. -/
def _getPages (parse : String → Option JSON) (r : HttpResult) : List JSON :=
  match r with
  | .response body =>
    match parseAndFilter parse body with
    | .ok filtered => filtered
    | .error _ => []
  | .error => []
  | .timeout => []

/-! ## Sessions, sockets and pending calls -/

/-- The `readyState` of a WebSocket. -/
inductive ReadyState where
  | CONNECTING
  | OPEN
  | CLOSING
  | CLOSED
  deriving DecidableEq, Repr

/-- An entry `{ ws, injected }` of `this.connections`; `ws` is the handle of
the WebSocket object the entry holds. -/
structure Conn where
  ws : Nat
  injected : Bool
  deriving DecidableEq, Repr

/-- The frame `JSON.stringify({ id, method: 'Runtime.evaluate', params:
{ expression, userGesture: true, awaitPromise: true } })` sent on socket `ws`. -/
structure Request where
  ws : Nat
  id : Nat
  expression : String
  deriving DecidableEq, Repr

/-- How the promise of an `_evaluate` call was settled. -/
inductive Settlement where
  | resolved (result : Option JSON)
  | rejected (e : JSError)

/-- The closure state of one `_evaluate` call that got past the guard: the
socket it listens on, its `currentId`, whether its timer is armed, whether its
`onMessage` listener is attached, and the state of its promise. -/
structure Call where
  ws : Nat
  currentId : Nat
  timerArmed : Bool
  listening : Bool
  settled : Option Settlement

/-- The handler (`connections`, `isEnabled`, `msgId`) together with what it
holds on to outside itself: the ready state of every socket created so far
(a socket handle is an index into `readyState`), the frames sent, and the
`_evaluate` calls started, in the order they were started. -/
structure State where
  connections : List (String × Conn)
  isEnabled : Bool
  msgId : Nat
  readyState : List ReadyState
  sent : List Request
  calls : List Call

/-- How an `async` function completes: its promise is fulfilled, is rejected,
or is never settled. -/
inductive Outcome (α : Type) where
  | returned (a : α)
  | threw (e : JSError)
  | pending

/-- The handler of a `catch (e)` block around an awaited computation. -/
def Outcome.catchWith {α : Type} (o : Outcome α) (handler : JSError → Outcome α) : Outcome α :=
  match o with
  | .threw e => handler e
  | .returned a => .returned a
  | .pending => .pending

/-- The remote end of the sockets: the frames that arrive on socket `ws`, in
order, between the sending of the request `id` carrying `expression` and the
deadline of that request. -/
abbrev Peer := Nat → Nat → String → List String

/-- The call `Map.prototype.get`. -/
def mapGet (m : List (String × Conn)) (id : String) : Option Conn :=
  match m with
  | [] => none
  | (k, c) :: rest => if k = id then some c else mapGet rest id

/-- The call `Map.prototype.delete`. -/
def mapDelete (m : List (String × Conn)) (id : String) : List (String × Conn) :=
  m.filter (fun e => !(e.1 == id))

/-- The constructor `new CDPHandler()`, with no socket created yet. -/
def new : State :=
  { connections := [], isEnabled := false, msgId := 1, readyState := [], sent := [], calls := [] }

/-- The test `conn.ws.readyState === WebSocket.OPEN`. -/
def socketOpen (s : State) (ws : Nat) : Bool :=
  match s.readyState[ws]? with
  | some .OPEN => true
  | _ => false

/-- The guard of `_evaluate`: the entry under `id` when there is one and its
socket is open (`if (!conn || conn.ws.readyState !== WebSocket.OPEN) return`). -/
def openConn (s : State) (id : String) : Option Conn :=
  match mapGet s.connections id with
  | none => none
  | some conn => if socketOpen s conn.ws then some conn else none

/-- The executor of the promise of `_evaluate`, run synchronously past the
guard: `currentId = this.msgId++`, the timer is armed, the listener attached
and the request sent. -/
def sendEvaluate (s : State) (conn : Conn) (expression : String) : State :=
  { s with
    msgId := s.msgId + 1
    calls := s.calls ++ [{ ws := conn.ws, currentId := s.msgId, timerArmed := true,
                           listening := true, settled := none }]
    sent := s.sent ++ [{ ws := conn.ws, id := s.msgId, expression := expression }] }

/-- The synchronous part of `_evaluate(id, expression)`: the state it leaves
and the index of the call it started, `none` when the guard returned. -/
def evaluateStart (s : State) (id : String) (expression : String) : State × Option Nat :=
  match openConn s id with
  | none => (s, none)
  | some conn => (sendEvaluate s conn expression, some s.calls.length)

/-- The function `cleanup` of a call: `clearTimeout(timeout)` and
`conn.ws.off('message', onMessage)`. -/
def cleanup (c : Call) : Call :=
  { c with timerArmed := false, listening := false }

/-- Settling the promise of a call: only the first settlement takes effect. -/
def settle (c : Call) (how : Settlement) : Call :=
  match c.settled with
  | some _ => c
  | none => { c with settled := some how }

/-- The statement `if (msg.result?.exceptionDetails) this.log(...)` of
`onMessage`: it throws when the text to interpolate into the log line,
`msg.result.exceptionDetails.text || 'Unknown'`, cannot be converted to a
string. -/
def logEvaluationError (result : Option JSON) : Except JSError Unit :=
  if truthyOpt (optChain result "exceptionDetails") then
    match getPropOpt result "exceptionDetails" with
    | .error e => .error e
    | .ok details =>
      match getPropOpt details "text" with
      | .error e => .error e
      | .ok text =>
        match jsToString (if truthyOpt text then text.getD (.str "Unknown") else .str "Unknown") with
        | none => .error .typeError
        | some _ => .ok ()
  else .ok ()

/-- The own property `k` of a parsed value, `undefined` when it has none. -/
def field (p : JSON) (k : String) : Option JSON :=
  match p with
  | .obj fields => lookupField k fields
  | _ => none

/-- The listener `onMessage` of a call, run on one inbound frame: whatever its
`try` block throws is swallowed. -/
def onMessage (parse : String → Option JSON) (data : String) (c : Call) : Call :=
  match parse data with
  | none => c
  | some msg =>
    match getProp msg "id" with
    | .error _ => c
    | .ok msgId =>
      if strictEqNum msgId c.currentId then
        match logEvaluationError (field msg "result") with
        | .error _ => cleanup c
        | .ok _ => settle (cleanup c) (.resolved (field msg "result"))
      else c

/-- The event `message` on socket `ws`: every listener attached to it runs. -/
def deliver (parse : String → Option JSON) (ws : Nat) (data : String) (s : State) : State :=
  { s with calls := s.calls.map (fun c =>
      if c.listening && c.ws == ws then onMessage parse data c else c) }

/-- Several `message` events on socket `ws`, in order. -/
def deliverAll (parse : String → Option JSON) (ws : Nat) (frames : List String) (s : State) :
    State :=
  frames.foldl (fun s data => deliver parse ws data s) s

/-- The callback of the timer of a call: `cleanup(); reject(new Error('CDP
Timeout'))`.  A timer that was cleared does not run. -/
def onTimeout (c : Call) : Call :=
  if c.timerArmed then settle (cleanup c) (.rejected (.error "CDP Timeout")) else c

/-- Applies `f` to the call of index `i`. -/
def updateCall (f : Call → Call) : Nat → List Call → List Call
  | _, [] => []
  | 0, c :: cs => f c :: cs
  | i + 1, c :: cs => c :: updateCall f i cs

/-- The deadline of the call of index `i` passes. -/
def fireTimeout (i : Nat) (s : State) : State :=
  { s with calls := updateCall onTimeout i s.calls }

/-- An event the handler waits for while `_evaluate` calls are pending: a
frame arrives on a socket, or the deadline of the call of index `call` passes. -/
inductive Event where
  | message (ws : Nat) (data : String)
  | timeout (call : Nat)

/-- The handler reacts to one event. -/
def step (parse : String → Option JSON) (ev : Event) (s : State) : State :=
  match ev with
  | .message ws data => deliver parse ws data s
  | .timeout i => fireTimeout i s

/-- The handler reacts to a sequence of events. -/
def run (parse : String → Option JSON) (evs : List Event) (s : State) : State :=
  evs.foldl (fun s ev => step parse ev s) s

/-- What the awaiting caller of a call sees. -/
def callOutcome (c : Option Call) : Outcome (Option JSON) :=
  match c with
  | none => .pending
  | some c =>
    match c.settled with
    | none => .pending
    | some (.resolved result) => .returned result
    | some (.rejected e) => .threw e

/-- The function `_evaluate(id, expression)` as its caller awaits it: the guard
returns `undefined` at once; otherwise the request is sent, the frames of the
peer arrive, then the deadline passes, and the caller resumes with the
settlement of the promise. -/
def _evaluate (parse : String → Option JSON) (peer : Peer) (s : State) (id : String)
    (expression : String) : State × Outcome (Option JSON) :=
  match openConn s id with
  | none => (s, .returned none)
  | some conn =>
    let s1 := deliverAll parse conn.ws (peer conn.ws s.msgId expression)
      (sendEvaluate s conn expression)
    let s2 := fireTimeout s.calls.length s1
    (s2, callOutcome s2.calls[s.calls.length]?)

/-- The expression `_evaluateJson` sends in place of `expression`. -/
def wrapJson (expression : String) : String :=
  "(() => \x7b\n" ++
  "  try \x7b\n" ++
  "    const v = (" ++ expression ++ ");\n" ++
  "    return JSON.stringify(v);\n" ++
  "  \x7d catch (e) \x7b\n" ++
  "    return '';\n" ++
  "  \x7d\n" ++
  "\x7d)()"

/-- The value `res?.result?.value` that `_evaluateJson` reads from what
`_evaluate` returned. -/
def resultValue (res : Option JSON) : Option JSON :=
  optChain (optChain res "result") "value"

/-- The `try` block of `_evaluateJson` from the point where the awaited
`_evaluate` has completed with `o`. -/
def evaluateJsonBody (parse : String → Option JSON) (o : Outcome (Option JSON))
    (fallback : JSON) : Outcome JSON :=
  match o with
  | .pending => .pending
  | .threw e => .threw e
  | .returned res =>
    match resultValue res with
    | some (.str value) =>
      if value = "" then .returned fallback
      else
        match parse value with
        | none => .threw .syntaxError
        | some v => .returned v
    | _ => .returned fallback

/-- The function `_evaluateJson(id, expression, fallback)`. -/
def _evaluateJson (parse : String → Option JSON) (peer : Peer) (s : State) (id : String)
    (expression : String) (fallback : JSON) : State × Outcome JSON :=
  let r := _evaluate parse peer s id (wrapJson expression)
  (r.1, (evaluateJsonBody parse r.2 fallback).catchWith (fun _ => .returned fallback))

/-- The handler `_connect(id, url)` attaches to the `close` event of its
socket: `this.connections.delete(id)`. -/
def onClose (id : String) (s : State) : State :=
  { s with connections := mapDelete s.connections id }

/-! ## Injection -/

/-- The expression of the reconfigure call of `_inject`; `config` is the text
`JSON.stringify(config)`. -/
def startExpression (config : String) : String :=
  "if(window.__autoAcceptStart) window.__autoAcceptStart(" ++ config ++ ")"

/-- The assignment `conn.injected = true` on the entry object that `_inject`
read from the registry under `id`: the entry of that key that holds the socket
`ws`. -/
def markInjected (m : List (String × Conn)) (id : String) (ws : Nat) : List (String × Conn) :=
  m.map (fun e =>
    (e.1, if e.1 == id && e.2.ws == ws then { e.2 with injected := true } else e.2))

/-- The function `_inject(id, config)`.  `script` is the content of
`main_scripts/full_cdp_script.js`, which `readFileSync` returns; `config` is
the text `JSON.stringify(config)`.  The `catch` block logs and returns. -/
def _inject (parse : String → Option JSON) (peer : Peer) (script : String) (s : State)
    (id : String) (config : String) : State × Outcome Unit :=
  match mapGet s.connections id with
  | none => (s, .returned ())
  | some conn =>
    if conn.injected then
      match _evaluate parse peer s id (startExpression config) with
      | (s1, .pending) => (s1, .pending)
      | (s1, _) => (s1, .returned ())
    else
      match _evaluate parse peer s id script with
      | (s1, .pending) => (s1, .pending)
      | (s1, .threw _) => (s1, .returned ())
      | (s1, .returned _) =>
        match _evaluate parse peer
            { s1 with connections := markInjected s1.connections id conn.ws } id
            (startExpression config) with
        | (s2, .pending) => (s2, .pending)
        | (s2, _) => (s2, .returned ())

/-! ## Aggregate getters -/

/-- JavaScript `ToPrimitive` on a parsed value: arrays and objects convert to
their string. -/
def toPrimitive (v : JSON) : Except JSError JSON :=
  match v with
  | .arr items =>
    match jsToString (.arr items) with
    | some t => .ok (.str t)
    | none => .error .typeError
  | .obj fields =>
    match jsToString (.obj fields) with
    | some t => .ok (.str t)
    | none => .error .typeError
  | p => .ok p

/-- JavaScript `ToNumber` on `null`, a boolean or a number. -/
def primToNumber : JSON → JSNumber
  | .bool true => 1
  | .num x => x
  | _ => 0

/-- The JavaScript operator `+`: concatenation when either primitive is a
string, addition of doubles otherwise. -/
def jsAdd (a b : JSON) : Except JSError JSON :=
  match toPrimitive a with
  | .error e => .error e
  | .ok pa =>
    match toPrimitive b with
    | .error e => .error e
    | .ok pb =>
      match pa, pb with
      | .str x, _ => .ok (.str (x ++ (jsToString pb).getD ""))
      | _, .str y => .ok (.str ((jsToString pa).getD "" ++ y))
      | _, _ => .ok (.num (addNumbers (primToNumber pa) (primToNumber pb)))

/-- The expression `v || 0`. -/
def orZero (v : Option JSON) : JSON :=
  match v with
  | some x => if truthy x then x else .num 0
  | none => .num 0

/-- The right-hand side and sum of `acc += s.k || 0`: the new value of `acc`. -/
def addField (acc : JSON) (s : JSON) (k : String) : Except JSError JSON :=
  match getProp s k with
  | .error e => .error e
  | .ok v => jsAdd acc (orZero v)

/-- The object `{ clicks, blocked, fileEdits, terminalCommands }` that `getStats`
and `getSessionSummary` build. -/
structure Stats where
  clicks : JSON
  blocked : JSON
  fileEdits : JSON
  terminalCommands : JSON

/-- The object `{ clicks, blocked }` that `resetStats` builds. -/
structure ResetAggregate where
  clicks : JSON
  blocked : JSON

/-- The four statements `stats.k += s.k || 0` in order: the object as the
statements leave it, and the exception of the first one that throws. -/
def addStats (st : Stats) (s : JSON) : Stats × Except JSError Unit :=
  match addField st.clicks s "clicks" with
  | .error e => (st, .error e)
  | .ok c =>
    match addField st.blocked s "blocked" with
    | .error e => ({ st with clicks := c }, .error e)
    | .ok b =>
      match addField st.fileEdits s "fileEdits" with
      | .error e => ({ st with clicks := c, blocked := b }, .error e)
      | .ok f =>
        match addField st.terminalCommands s "terminalCommands" with
        | .error e => ({ st with clicks := c, blocked := b, fileEdits := f }, .error e)
        | .ok t => ({ clicks := c, blocked := b, fileEdits := f, terminalCommands := t }, .ok ())

/-- The two statements `aggregate.k += s.k || 0` of `resetStats` in order. -/
def addReset (agg : ResetAggregate) (s : JSON) : ResetAggregate × Except JSError Unit :=
  match addField agg.clicks s "clicks" with
  | .error e => (agg, .error e)
  | .ok c =>
    match addField agg.blocked s "blocked" with
    | .error e => ({ agg with clicks := c }, .error e)
    | .ok b => ({ clicks := c, blocked := b }, .ok ())

/-- The loop `for (const [id] of this.connections) body` over the keys of the
registry, which no getter changes while it runs: an exception or a promise
that never settles in `body` ends the loop. -/
def forEachSession {α : Type} (body : State → String → α → State × Outcome α) :
    List String → State → α → State × Outcome α
  | [], s, acc => (s, .returned acc)
  | id :: rest, s, acc =>
    match body s id acc with
    | (s1, .returned acc1) => forEachSession body rest s1 acc1
    | (s1, .threw e) => (s1, .threw e)
    | (s1, .pending) => (s1, .pending)

/-- The expression `getStats` evaluates in each page. -/
def statsExpression : String :=
  "window.__autoAcceptGetStats ? window.__autoAcceptGetStats() : \x7b\x7d"

/-- The expression `getSessionSummary` evaluates in each page. -/
def summaryExpression : String :=
  "window.__autoAcceptGetSessionSummary ? window.__autoAcceptGetSessionSummary() : " ++
  "(window.__autoAcceptGetStats ? window.__autoAcceptGetStats() : \x7b\x7d)"

/-- The expression `getAwayActions` evaluates in each page. -/
def awayExpression : String :=
  "window.__autoAcceptGetAwayActions ? window.__autoAcceptGetAwayActions() : 0"

/-- The expression `resetStats` evaluates in each page. -/
def resetExpression : String :=
  "window.__autoAcceptResetStats ? window.__autoAcceptResetStats() : " ++
  "\x7b clicks: 0, blocked: 0 \x7d"

/-- The object `{ clicks: 0, blocked: 0, fileEdits: 0, terminalCommands: 0 }`. -/
def zeroStats : Stats :=
  { clicks := .num 0, blocked := .num 0, fileEdits := .num 0, terminalCommands := .num 0 }

/-- The object `{ clicks: 0, blocked: 0 }` as an accumulator. -/
def zeroReset : ResetAggregate :=
  { clicks := .num 0, blocked := .num 0 }

/-- The function `getStats()`: the loop body is inside `try { } catch (e) { }`. -/
def getStats (parse : String → Option JSON) (peer : Peer) (s : State) : State × Outcome Stats :=
  forEachSession (fun s id st =>
      match _evaluateJson parse peer s id statsExpression (.obj []) with
      | (s1, .returned v) => (s1, .returned (addStats st v).1)
      | (s1, .threw _) => (s1, .returned st)
      | (s1, .pending) => (s1, .pending))
    (s.connections.map Prod.fst) s zeroStats

/-- The function `getSessionSummary()`: the loop body is not guarded. -/
def getSessionSummary (parse : String → Option JSON) (peer : Peer) (s : State) :
    State × Outcome Stats :=
  forEachSession (fun s id st =>
      match _evaluateJson parse peer s id summaryExpression (.obj []) with
      | (s1, .returned v) =>
        match addStats st v with
        | (st1, .ok _) => (s1, .returned st1)
        | (_, .error e) => (s1, .threw e)
      | (s1, .threw e) => (s1, .threw e)
      | (s1, .pending) => (s1, .pending))
    (s.connections.map Prod.fst) s zeroStats

/-- The fallback `{ clicks: 0, blocked: 0 }` of `resetStats`. -/
def resetFallback : JSON :=
  .obj [("clicks", .num 0), ("blocked", .num 0)]

/-- The function `resetStats()`: the loop body is not guarded. -/
def resetStats (parse : String → Option JSON) (peer : Peer) (s : State) :
    State × Outcome ResetAggregate :=
  forEachSession (fun s id agg =>
      match _evaluateJson parse peer s id resetExpression resetFallback with
      | (s1, .returned v) =>
        match addReset agg v with
        | (agg1, .ok _) => (s1, .returned agg1)
        | (_, .error e) => (s1, .threw e)
      | (s1, .threw e) => (s1, .threw e)
      | (s1, .pending) => (s1, .pending))
    (s.connections.map Prod.fst) s zeroReset

/-- The call `Number(v)`.  `stringToNumber` is the conversion of a string to a
number by the JavaScript runtime, `none` when the string is not a numeric
literal: the number is then `NaN`. -/
def jsNumber (stringToNumber : String → Option JSNumber) (v : JSON) : Except JSError JSNumber :=
  match toPrimitive v with
  | .error e => .error e
  | .ok (.str t) => .ok ((stringToNumber t).getD .nan)
  | .ok p => .ok (primToNumber p)

/-- The expression `x || 0` on a number. -/
def numberOrZero (x : JSNumber) : JSNumber :=
  if x.truthy then x else 0

/-- The function `getAwayActions()`: `total += Number(v) || 0`, not guarded. -/
def getAwayActions (parse : String → Option JSON) (stringToNumber : String → Option JSNumber)
    (peer : Peer) (s : State) : State × Outcome JSNumber :=
  forEachSession (fun s id total =>
      match _evaluateJson parse peer s id awayExpression (.num 0) with
      | (s1, .returned v) =>
        match jsNumber stringToNumber v with
        | .ok n => (s1, .returned (addNumbers total (numberOrZero n)))
        | .error e => (s1, .threw e)
      | (s1, .threw e) => (s1, .threw e)
      | (s1, .pending) => (s1, .pending))
    (s.connections.map Prod.fst) s 0

/-- The function `getConnectionCount()`. -/
def getConnectionCount (s : State) : Nat :=
  s.connections.length

/-! ## Connecting, starting and stopping -/

/-- The constant `BASE_PORT`. -/
def BASE_PORT : Nat := 9000

/-- The constant `PORT_RANGE`. -/
def PORT_RANGE : Nat := 3

/-- The ports the loops of `start` and `isCDPAvailable` visit, in order:
`BASE_PORT - PORT_RANGE` up to `BASE_PORT + PORT_RANGE`. -/
def scanPorts : List Nat :=
  (List.range (2 * PORT_RANGE + 1)).map (fun i => BASE_PORT - PORT_RANGE + i)

/-- The call `Map.prototype.set`: an existing key keeps its place. -/
def mapSet (m : List (String × Conn)) (id : String) (c : Conn) : List (String × Conn) :=
  match m with
  | [] => [(id, c)]
  | (k, v) :: rest => if k = id then (k, c) :: rest else (k, v) :: mapSet rest id c

/-- The handler and its sockets, together with what the `close` handler of
each socket holds on to: `socketKey[ws]` is the `id` of the call
`_connect(id, url)` that created the socket `ws`. -/
structure World where
  handler : State
  socketKey : List String

/-- A new handler in a world without sockets. -/
def World.new : World :=
  { handler := CDPHandler.new, socketKey := [] }

/-- How the attempt of `_connect` ends: `new WebSocket(url)` throws, the socket
emits `open`, the socket emits `error` first, or the timer of five seconds
runs first. -/
inductive ConnectResult where
  | raises
  | opens
  | fails
  | timesOut
  deriving DecidableEq, Repr

/-- The network: how the attempt to connect `id` to `url` ends, given the
number of sockets created before it. -/
abbrev Dialer := String → Option JSON → Nat → ConnectResult

/-- The function `_connect(id, url)` as its caller awaits it.  A throw of
`new WebSocket(url)` inside the executor rejects the promise.  On `open` the
entry `{ ws, injected: false }` is set and the promise resolves with `true`; on
`error` and on the timeout (`ws.terminate()`) it resolves with `false`, and the
socket is left closing.  The `close` handler stays attached to the socket. -/
def _connect (dial : Dialer) (w : World) (id : String) (url : Option JSON) :
    World × Outcome Bool :=
  match dial id url w.handler.readyState.length with
  | .raises => (w, .threw .syntaxError)
  | .opens =>
    ({ handler :=
        { w.handler with
          readyState := w.handler.readyState ++ [.OPEN]
          connections := mapSet w.handler.connections id
            { ws := w.handler.readyState.length, injected := false } }
       socketKey := w.socketKey ++ [id] }, .returned true)
  | .fails =>
    ({ handler := { w.handler with readyState := w.handler.readyState ++ [.CLOSING] }
       socketKey := w.socketKey ++ [id] }, .returned false)
  | .timesOut =>
    ({ handler := { w.handler with readyState := w.handler.readyState ++ [.CLOSING] }
       socketKey := w.socketKey ++ [id] }, .returned false)

/-- The event `close` of the socket `ws`, which a socket emits once: the socket
is closed and its handler deletes the key it was created for. -/
def socketCloses (ws : Nat) (w : World) : World :=
  match w.socketKey[ws]?, w.handler.readyState[ws]? with
  | some _, some .CLOSED => w
  | some id, some _ =>
    { w with
      handler :=
        onClose id { w.handler with readyState := w.handler.readyState.set ws .CLOSED } }
  | _, _ => w

/-- The remote end starts the closing handshake of the open socket `ws`. -/
def peerCloses (ws : Nat) (w : World) : World :=
  match w.handler.readyState[ws]? with
  | some .OPEN =>
    { w with handler := { w.handler with readyState := w.handler.readyState.set ws .CLOSING } }
  | _ => w

/-- The call `conn.ws.close()`: a socket that is connecting or open starts
closing. -/
def wsClose (ws : Nat) (s : State) : State :=
  match s.readyState[ws]? with
  | some .OPEN => { s with readyState := s.readyState.set ws .CLOSING }
  | some .CONNECTING => { s with readyState := s.readyState.set ws .CLOSING }
  | _ => s

/-- The expression `stop` evaluates in each page. -/
def stopExpression : String :=
  "if(window.__autoAcceptStop) window.__autoAcceptStop()"

/-- The loop of `stop()` over the entries of the registry:
`try { await this._evaluate(id, ...); conn.ws.close(); } catch (e) { }`. -/
def stopLoop (parse : String → Option JSON) (peer : Peer) :
    List (String × Conn) → State → State × Outcome Unit
  | [], s => (s, .returned ())
  | (id, conn) :: rest, s =>
    match _evaluate parse peer s id stopExpression with
    | (s1, .returned _) => stopLoop parse peer rest (wsClose conn.ws s1)
    | (s1, .threw _) => stopLoop parse peer rest s1
    | (s1, .pending) => (s1, .pending)

/-- The function `stop()`. -/
def stop (parse : String → Option JSON) (peer : Peer) (s : State) : State × Outcome Unit :=
  match stopLoop parse peer s.connections { s with isEnabled := false } with
  | (s1, .returned _) => ({ s1 with connections := [] }, .returned ())
  | (s1, .threw e) => (s1, .threw e)
  | (s1, .pending) => (s1, .pending)

/-- The template `${port}:${page.id}` of `start`. -/
def targetKey (port : Nat) (page : JSON) : Except JSError String :=
  match getProp page "id" with
  | .error e => .error e
  | .ok none => .ok (toString port ++ ":undefined")
  | .ok (some v) =>
    match jsToString v with
    | none => .error .typeError
    | some t => .ok (toString port ++ ":" ++ t)

/-- The body of the inner loop of `start` for one page:
`if (!this.connections.has(id)) await this._connect(id, page.webSocketDebuggerUrl);
 await this._inject(id, config);`. -/
def startTarget (parse : String → Option JSON) (peer : Peer) (dial : Dialer) (script : String)
    (config : String) (port : Nat) (w : World) (page : JSON) : World × Outcome Unit :=
  match targetKey port page with
  | .error e => (w, .threw e)
  | .ok id =>
    match mapGet w.handler.connections id with
    | some _ =>
      ({ w with handler := (_inject parse peer script w.handler id config).1 },
        (_inject parse peer script w.handler id config).2)
    | none =>
      match _connect dial w id (field page "webSocketDebuggerUrl") with
      | (w1, .threw e) => (w1, .threw e)
      | (w1, .pending) => (w1, .pending)
      | (w1, .returned _) =>
        ({ w1 with handler := (_inject parse peer script w1.handler id config).1 },
          (_inject parse peer script w1.handler id config).2)

/-- The inner loop `for (const page of pages)` of `start`. -/
def startPages (parse : String → Option JSON) (peer : Peer) (dial : Dialer) (script : String)
    (config : String) (port : Nat) : List JSON → World → World × Outcome Unit
  | [], w => (w, .returned ())
  | page :: rest, w =>
    match startTarget parse peer dial script config port w page with
    | (w1, .returned _) => startPages parse peer dial script config port rest w1
    | (w1, .threw e) => (w1, .threw e)
    | (w1, .pending) => (w1, .pending)

/-- The body of the outer loop of `start` for one port, with its
`try { } catch (e) { }`; `http port` is what the request to the port ends with. -/
def startPort (parse : String → Option JSON) (peer : Peer) (dial : Dialer) (script : String)
    (config : String) (http : Nat → HttpResult) (w : World) (port : Nat) : World × Outcome Unit :=
  match startPages parse peer dial script config port (_getPages parse (http port)) w with
  | (w1, .threw _) => (w1, .returned ())
  | (w1, .returned _) => (w1, .returned ())
  | (w1, .pending) => (w1, .pending)

/-- The outer loop of `start` over the ports. -/
def startPorts (parse : String → Option JSON) (peer : Peer) (dial : Dialer) (script : String)
    (config : String) (http : Nat → HttpResult) : List Nat → World → World × Outcome Unit
  | [], w => (w, .returned ())
  | port :: rest, w =>
    match startPort parse peer dial script config http w port with
    | (w1, .returned _) => startPorts parse peer dial script config http rest w1
    | (w1, .threw e) => (w1, .threw e)
    | (w1, .pending) => (w1, .pending)

/-- The function `start(config)`; `config` is the text `JSON.stringify(config)`. -/
def start (parse : String → Option JSON) (peer : Peer) (dial : Dialer) (script : String)
    (config : String) (http : Nat → HttpResult) (w : World) : World × Outcome Unit :=
  startPorts parse peer dial script config http scanPorts
    { w with handler := { w.handler with isEnabled := true } }

/-- The function `stop()` in a world: the sockets keep their keys. -/
def stopWorld (parse : String → Option JSON) (peer : Peer) (w : World) : World × Outcome Unit :=
  ({ w with handler := (stop parse peer w.handler).1 }, (stop parse peer w.handler).2)

/-! ## Notions the statements use -/

/-- A target descriptor of the listing endpoint: an object whose `url`, when it
has one, is a string. -/
def isTargetDescriptor (p : JSON) : Bool :=
  match p with
  | .obj fields =>
    match lookupField "url" fields with
    | none => true
    | some (.str _) => true
    | some _ => false
  | _ => false

/-- The three conditions of the prober on a descriptor, as a boolean. -/
def isWorkbenchTarget (p : JSON) : Bool :=
  truthyOpt (field p "webSocketDebuggerUrl") &&
  (strictEqStr (field p "type") "page" || strictEqStr (field p "type") "webview") &&
  (match field p "url" with
   | some (.str u) => stringIncludes u "workbench.html"
   | _ => false)

/-- The three conditions of the prober on a descriptor, as the specification
words them. -/
def IsWorkbenchTarget (p : JSON) : Prop :=
  (∃ v, field p "webSocketDebuggerUrl" = some v ∧ truthy v = true) ∧
  (field p "type" = some (.str "page") ∨ field p "type" = some (.str "webview")) ∧
  (∃ u, field p "url" = some (.str u) ∧ "workbench.html".data <:+: u.data)

/-- What one event does to the call of index `i`. -/
def callStep (parse : String → Option JSON) (i : Nat) (c : Call) (ev : Event) : Call :=
  match ev with
  | .message ws data => if c.listening && c.ws == ws then onMessage parse data c else c
  | .timeout j => if j = i then onTimeout c else c

/-- Whether the frame is a reply carrying the request identifier `n`: it parses
to a message whose `id` is `n`. -/
def isReplyTo (parse : String → Option JSON) (n : Nat) (data : String) : Bool :=
  match parse data with
  | some (.obj fields) => strictEqNum (lookupField "id" fields) n
  | _ => false

/-- The result payload `msg.result` of a frame, `undefined` when it has none. -/
def replyResult (parse : String → Option JSON) (data : String) : Option JSON :=
  match parse data with
  | some msg => field msg "result"
  | none => none

/-- The reply format of the protocol, `{ id, result: { value?,
exceptionDetails?: { text: string } } }`, as far as the exception text goes:
present only as a string.  On such a reply the log line can be built. -/
def exceptionTextIsString (result : Option JSON) : Bool :=
  match optChain (optChain result "exceptionDetails") "text" with
  | none => true
  | some (.str _) => true
  | some _ => false

/-- Whether the event leaves the call of index `i` with identifier `n` on
socket `ws` alone: it is neither the deadline of that call nor a reply to it. -/
def unrelatedTo (parse : String → Option JSON) (i ws n : Nat) (ev : Event) : Bool :=
  match ev with
  | .message ws' data => !(ws' == ws && isReplyTo parse n data)
  | .timeout j => !(j == i)

/-- What the first reply to the request `n` among the frames does to the call
that sent it: none leaves it pending, a reply resolves it with its result
payload, unless building the log line of `onMessage` throws. -/
def replyOutcome (parse : String → Option JSON) (n : Nat) (frames : List String) :
    Outcome (Option JSON) :=
  match frames.find? (isReplyTo parse n) with
  | none => .pending
  | some d =>
    match logEvaluationError (replyResult parse d) with
    | .ok _ => .returned (replyResult parse d)
    | .error _ => .pending

/-- The settlement the caller of `_evaluate` resumes with when the request `n`
was sent: the first reply among the frames of the peer decides, and without a
reply the deadline rejects. -/
def awaitedOutcome (parse : String → Option JSON) (n : Nat) (frames : List String) :
    Outcome (Option JSON) :=
  match frames.find? (isReplyTo parse n) with
  | none => .threw (.error "CDP Timeout")
  | some d =>
    match logEvaluationError (replyResult parse d) with
    | .ok _ => .returned (replyResult parse d)
    | .error _ => .pending

/-- The peer answers every request that carries `expression` on socket `ws`
with a reply whose value is the string `text` and on which `onMessage` gets to
`resolve`: the log line for its exception details, if it has any, can be
built. -/
def AnswersWith (parse : String → Option JSON) (peer : Peer) (ws : Nat) (expression : String)
    (text : String) : Prop :=
  ∀ n, ∃ d, (peer ws n expression).find? (isReplyTo parse n) = some d ∧
    logEvaluationError (replyResult parse d) = .ok () ∧
    optChain (optChain (replyResult parse d) "result") "value" = some (.str text)

/-- The page behind socket `ws` reports the object `o` for `expression`: the
wrapped expression is answered with the serialization of `o`.  A page whose
getter is absent evaluates the expression to `{}` and reports the object
without fields. -/
def Reports (parse : String → Option JSON) (peer : Peer) (ws : Nat) (expression : String)
    (o : List (String × JSON)) : Prop :=
  ∃ text, text ≠ "" ∧ parse text = some (.obj o) ∧
    AnswersWith parse peer ws (wrapJson expression) text

/-- No reply to a request that carries `expression` on socket `ws` arrives
before the deadline. -/
def NeverAnswers (parse : String → Option JSON) (peer : Peer) (ws : Nat) (expression : String) :
    Prop :=
  ∀ n, (peer ws n expression).find? (isReplyTo parse n) = none

/-- The field `k` of a reported object is a number or absent. -/
def numberOrAbsent (o : List (String × JSON)) (k : String) : Bool :=
  match lookupField k o with
  | none => true
  | some (.num _) => true
  | some _ => false

/-- The number that `acc += s.k || 0` adds for the field `k` of a reported
object whose field is a number or absent: the number in the field, 0 when the
field is absent or holds a zero. -/
def fieldNum (o : List (String × JSON)) (k : String) : JSNumber :=
  match lookupField k o with
  | some (.num x) => numberOrZero x
  | _ => 0

/-- The fields that `getStats` and `getSessionSummary` sum. -/
def statFields : List String :=
  ["clicks", "blocked", "fileEdits", "terminalCommands"]

/-- The sum of the numbers the sessions report in field `f` as the operator
`+` of JavaScript computes it: added one by one to 0 in the order of the keys,
each addition rounded to the nearest double. -/
def sumField (report : String → List (String × JSON)) (keys : List String) (f : String) :
    JSNumber :=
  keys.foldl (fun acc k => addNumbers acc (fieldNum (report k) f)) 0

/-- The object of the field-by-field sums of what the sessions report. -/
def sumStats (report : String → List (String × JSON)) (keys : List String) : Stats :=
  { clicks := .num (sumField report keys "clicks")
    blocked := .num (sumField report keys "blocked")
    fileEdits := .num (sumField report keys "fileEdits")
    terminalCommands := .num (sumField report keys "terminalCommands") }

/-- The integer in field `k` of a reported object: 0 when the field is absent,
nothing when the field holds anything but an integer. -/
def fieldInt (o : List (String × JSON)) (k : String) : Option Int :=
  match lookupField k o with
  | none => some 0
  | some (.num x) => x.toInt?
  | some _ => none

/-- The field `k` of a reported object is an integer or absent. -/
def integerOrAbsent (o : List (String × JSON)) (k : String) : Bool :=
  (fieldInt o k).isSome

/-- The sum over the sessions of the integer each reports in field `f`, an
absent field counting as 0. -/
def totalField (report : String → List (String × JSON)) (keys : List String) (f : String) : Int :=
  (keys.map (fun k => (fieldInt (report k) f).getD 0)).sum

/-- The sum over the sessions of the absolute value of the integer each reports
in field `f`. -/
def absTotalField (report : String → List (String × JSON)) (keys : List String) (f : String) :
    Nat :=
  (keys.map (fun k => ((fieldInt (report k) f).getD 0).natAbs)).sum

/-- The object of the field-by-field integer sums of what the sessions report. -/
def totalStats (report : String → List (String × JSON)) (keys : List String) : Stats :=
  { clicks := .num (.ofInt (totalField report keys "clicks"))
    blocked := .num (.ofInt (totalField report keys "blocked"))
    fileEdits := .num (.ofInt (totalField report keys "fileEdits"))
    terminalCommands := .num (.ofInt (totalField report keys "terminalCommands")) }

/-- What a session contributes to `resetStats`: what it reports, or nothing
when its remote call fails. -/
def contribution (report : String → Option (List (String × JSON))) (k : String) :
    List (String × JSON) :=
  (report k).getD []

/-- What `resetStats` adds for the session `k`: the object it reports, or the
fallback when its remote call fails. -/
def resetAddend (report : String → Option (List (String × JSON))) (k : String) : JSON :=
  match report k with
  | some o => .obj o
  | none => resetFallback

/-- Whether an accumulator of `getStats` holds numbers only. -/
def Stats.numeric (st : Stats) : Prop :=
  ∃ a b c d : JSNumber,
    st = { clicks := .num a, blocked := .num b, fileEdits := .num c, terminalCommands := .num d }

/-- Whether an accumulator of `resetStats` holds numbers only. -/
def ResetAggregate.numeric (agg : ResetAggregate) : Prop :=
  ∃ a b : JSNumber, agg = { clicks := .num a, blocked := .num b }

/-- Every request is answered, before its deadline, with a reply on which
`onMessage` gets to `resolve`: the log line for its exception details, if it
has any, can be built. -/
def AnswersAll (parse : String → Option JSON) (peer : Peer) : Prop :=
  ∀ ws n expression, ∃ d, (peer ws n expression).find? (isReplyTo parse n) = some d ∧
    logEvaluationError (replyResult parse d) = .ok ()

/-- The keys of the registry with the sockets their entries hold. -/
def sessions (m : List (String × Conn)) : List (String × Nat) :=
  m.map (fun e => (e.1, e.2.ws))

/-- A step of the handler that creates no socket, closes none, and adds no
session: the sessions it leaves are among those it found, in their order, and
a socket that was open or closing still is. -/
def Tame (s s' : State) : Prop :=
  (sessions s'.connections).Sublist (sessions s.connections) ∧
  s'.readyState.length = s.readyState.length ∧
  ∀ ws : Nat, (s.readyState[ws]? = some .OPEN ∨ s.readyState[ws]? = some .CLOSING) →
    (s'.readyState[ws]? = some .OPEN ∨ s'.readyState[ws]? = some .CLOSING)

/-- What the registry satisfies in every world the handler reaches: each key
once, a key for every socket, and every entry under the key its socket was
created for, on a socket that is open or closing. -/
def RegistryInv (w : World) : Prop :=
  (w.handler.connections.map Prod.fst).Nodup ∧
  w.socketKey.length = w.handler.readyState.length ∧
  ∀ k c, (k, c) ∈ w.handler.connections →
    w.socketKey[c.ws]? = some k ∧
    (w.handler.readyState[c.ws]? = some .OPEN ∨ w.handler.readyState[c.ws]? = some .CLOSING)

/-- The worlds reached from a new handler through `_connect`, the `close`
event of a socket, the remote end closing a socket, `_evaluate`, `_inject`,
`start` and `stop`, whatever the environment does in them. -/
inductive Reachable : World → Prop where
  | init : Reachable World.new
  | byConnect (w : World) (dial : Dialer) (id : String) (url : Option JSON) :
      Reachable w → Reachable (_connect dial w id url).1
  | byClose (w : World) (ws : Nat) : Reachable w → Reachable (socketCloses ws w)
  | byPeerClose (w : World) (ws : Nat) : Reachable w → Reachable (peerCloses ws w)
  | byEvaluate (w : World) (parse : String → Option JSON) (peer : Peer) (id expression : String) :
      Reachable w →
      Reachable { w with handler := (_evaluate parse peer w.handler id expression).1 }
  | byInject (w : World) (parse : String → Option JSON) (peer : Peer)
      (script id config : String) :
      Reachable w →
      Reachable { w with handler := (_inject parse peer script w.handler id config).1 }
  | byStart (w : World) (parse : String → Option JSON) (peer : Peer) (dial : Dialer)
      (script config : String) (http : Nat → HttpResult) :
      Reachable w → Reachable (start parse peer dial script config http w).1
  | byStop (w : World) (parse : String → Option JSON) (peer : Peer) :
      Reachable w → Reachable (stopWorld parse peer w).1

/-! ## Example data -/

/-- A parser given by a table of the texts it accepts, for examples. -/
def tableParse (table : List (String × JSON)) (text : String) : Option JSON :=
  lookupField text table

/-- A listing with a workbench page, a devtools page and a service worker. -/
def sampleListing : List JSON :=
  [ .obj [("id", .str "A"), ("type", .str "page"),
          ("url", .str "vscode-file://vscode-app/out/workbench.html"),
          ("webSocketDebuggerUrl", .str "ws://127.0.0.1:9000/devtools/page/A")],
    .obj [("id", .str "B"), ("type", .str "page"),
          ("url", .str "devtools://devtools/bundled/inspector.html"),
          ("webSocketDebuggerUrl", .str "ws://127.0.0.1:9000/devtools/page/B")],
    .obj [("id", .str "C"), ("type", .str "service_worker"),
          ("webSocketDebuggerUrl", .str "ws://127.0.0.1:9000/devtools/page/C")] ]

/-- The response body that `sampleListing` is the parse of. -/
def sampleBody : String :=
  "[\x7b\"id\":\"A\",\"type\":\"page\"," ++
  "\"url\":\"vscode-file://vscode-app/out/workbench.html\"," ++
  "\"webSocketDebuggerUrl\":\"ws://127.0.0.1:9000/devtools/page/A\"\x7d," ++
  "\x7b\"id\":\"B\",\"type\":\"page\"," ++
  "\"url\":\"devtools://devtools/bundled/inspector.html\"," ++
  "\"webSocketDebuggerUrl\":\"ws://127.0.0.1:9000/devtools/page/B\"\x7d," ++
  "\x7b\"id\":\"C\",\"type\":\"service_worker\"," ++
  "\"webSocketDebuggerUrl\":\"ws://127.0.0.1:9000/devtools/page/C\"\x7d]"

/-- A parser that knows `sampleBody`. -/
def listingParse (text : String) : Option JSON :=
  if text = sampleBody then some (.arr sampleListing) else none

/-- A handler with one session, registered under `9000:A` on the open socket 0. -/
def oneSession : State :=
  { connections := [("9000:A", { ws := 0, injected := false })], isEnabled := true, msgId := 1,
    readyState := [.OPEN], sent := [], calls := [] }

/-- The reply `{"id": n, "result": {"result": {"type": "string", "value": text}}}`. -/
def stringReply (n : Nat) (text : String) : JSON :=
  .obj [("id", .num (.ofNat n)),
        ("result", .obj [("result", .obj [("type", .str "string"), ("value", .str text)])])]

/-- A parser that knows two replies and an event notification. -/
def sampleParse : String → Option JSON :=
  tableParse
    [("reply-1", stringReply 1 "one"), ("reply-2", stringReply 2 "two"),
     ("event", .obj [("method", .str "Runtime.consoleAPICalled")])]

/-- A parser that knows the reply to request 1 with the text `{"clicks":2}`,
that text, and the reply to request 1 with a text that is not JSON. -/
def jsonParse : String → Option JSON :=
  tableParse
    [("good-reply", stringReply 1 "\x7b\"clicks\":2\x7d"),
     ("\x7b\"clicks\":2\x7d", .obj [("clicks", .num 2)]),
     ("bad-reply", stringReply 1 "oops")]

/-- A stand-in for the content of `main_scripts/full_cdp_script.js`. -/
def sampleScript : String :=
  "window.__autoAcceptStart = function (config) \x7b \x7d;"

/-- The frame text the example pages use for the reply to request `n` with the
string value `text`: `n` strokes, a colon, and the text. -/
def tickFrame (n : Nat) (text : String) : String :=
  String.mk (List.replicate n 'i' ++ ':' :: text.data)

/-- Splits the leading strokes off a frame text of the example pages. -/
def countTicks : List Char → Nat × List Char
  | [] => (0, [])
  | c :: cs => if c = 'i' then ((countTicks cs).1 + 1, (countTicks cs).2) else (0, c :: cs)

/-- The parser of the examples: a frame of strokes is a reply, any other text
is looked up in the table. -/
def pageParse (table : List (String × JSON)) (text : String) : Option JSON :=
  match countTicks text.data with
  | (n, ':' :: rest) => some (stringReply n (String.mk rest))
  | _ => lookupField text table

/-- The texts the example pages serialize their reports to. -/
def reportTable : List (String × JSON) :=
  [("\x7b\"clicks\":2\x7d", .obj [("clicks", .num 2)]),
   ("\x7b\"clicks\":5,\"blocked\":1\x7d", .obj [("clicks", .num 5), ("blocked", .num 1)]),
   ("\x7b\"clicks\":0\x7d", .obj [("clicks", .num 0)]),
   ("null", .null)]

/-- Three sessions on open sockets. -/
def threeSessions : State :=
  { connections := [("9000:A", { ws := 0, injected := true }),
                    ("9000:B", { ws := 1, injected := true }),
                    ("9001:C", { ws := 2, injected := true })],
    isEnabled := true, msgId := 1, readyState := [.OPEN, .OPEN, .OPEN], sent := [], calls := [] }

/-- The text each example page answers every request with. -/
def pageText (ws : Nat) : String :=
  match ws with
  | 0 => "\x7b\"clicks\":2\x7d"
  | 1 => "\x7b\"clicks\":5,\"blocked\":1\x7d"
  | _ => "\x7b\"clicks\":0\x7d"

/-- The example pages: each answers every request with its text. -/
def pagePeer : Peer :=
  fun ws n _ => [tickFrame n (pageText ws)]

/-- What the example pages report, by session key. -/
def pageReport (k : String) : List (String × JSON) :=
  if k = "9000:A" then [("clicks", .num 2)]
  else if k = "9000:B" then [("clicks", .num 5), ("blocked", .num 1)]
  else [("clicks", .num 0)]

/-- Example pages of which the first answers, the second is silent and the
third answers with the empty string of a remote expression that threw. -/
def failingPeer : Peer :=
  fun ws n _ =>
    match ws with
    | 0 => [tickFrame n (pageText 0)]
    | 1 => []
    | _ => [tickFrame n ""]

/-- What the pages of `failingPeer` report, by session key. -/
def failingReport (k : String) : Option (List (String × JSON)) :=
  if k = "9000:A" then some [("clicks", .num 2)] else none

/-- Example pages whose getters return `null`. -/
def nullPeer : Peer :=
  fun _ n _ => [tickFrame n "null"]

/-- A parser that knows the frame
`{"id":1,"result":{"exceptionDetails":{"text":{"toString":1}}}}`, whose
exception text is an object with an own `toString` property, and the reply to
request 2 with the text `two`. -/
def unprintableParse : String → Option JSON :=
  tableParse
    [("odd-reply",
      .obj [("id", .num 1),
            ("result", .obj [("exceptionDetails",
              .obj [("text", .obj [("toString", .num 1)])])])]),
     ("reply-2", stringReply 2 "two")]

/-- A workbench page `A`, as the listing of port 9000 describes it. -/
def pageA : JSON :=
  .obj [("id", .str "A"), ("type", .str "page"),
        ("url", .str "vscode-file://vscode-app/out/workbench.html"),
        ("webSocketDebuggerUrl", .str "ws://127.0.0.1:9000/devtools/page/A")]

/-- A workbench page `B` on port 9000. -/
def pageB : JSON :=
  .obj [("id", .str "B"), ("type", .str "page"),
        ("url", .str "vscode-file://vscode-app/out/workbench.html"),
        ("webSocketDebuggerUrl", .str "ws://127.0.0.1:9000/devtools/page/B")]

/-- A workbench page `C` on port 9001. -/
def pageC : JSON :=
  .obj [("id", .str "C"), ("type", .str "page"),
        ("url", .str "vscode-file://vscode-app/out/workbench.html"),
        ("webSocketDebuggerUrl", .str "ws://127.0.0.1:9001/devtools/page/C")]

/-- A workbench page `X` whose debugger URL is not a URL. -/
def pageX : JSON :=
  .obj [("id", .str "X"), ("type", .str "page"),
        ("url", .str "vscode-file://vscode-app/out/workbench.html"),
        ("webSocketDebuggerUrl", .str "not a url")]

/-- The text of a descriptor of a workbench page. -/
def descriptorText (id url : String) : String :=
  "\x7b\"id\":\"" ++ id ++ "\",\"type\":\"page\"," ++
  "\"url\":\"vscode-file://vscode-app/out/workbench.html\"," ++
  "\"webSocketDebuggerUrl\":\"" ++ url ++ "\"\x7d"

/-- The listing body with the page `A`. -/
def bodyA : String :=
  "[" ++ descriptorText "A" "ws://127.0.0.1:9000/devtools/page/A" ++ "]"

/-- The listing body with the pages `X` and `B`. -/
def bodyXB : String :=
  "[" ++ descriptorText "X" "not a url" ++ "," ++
    descriptorText "B" "ws://127.0.0.1:9000/devtools/page/B" ++ "]"

/-- The listing body with the page `C`. -/
def bodyC : String :=
  "[" ++ descriptorText "C" "ws://127.0.0.1:9001/devtools/page/C" ++ "]"

/-- The listing bodies of the examples with what they parse to. -/
def listingTable : List (String × JSON) :=
  [(bodyA, .arr [pageA]), (bodyXB, .arr [pageX, pageB]), (bodyC, .arr [pageC]),
   ("[null]", .arr [.null]), ("\x7b\x7d", .obj [])]

/-- The parser of the examples with the listing bodies. -/
def worldParse : String → Option JSON :=
  pageParse listingTable

/-- Only port 9000 answers, with the page `A`. -/
def httpA (port : Nat) : HttpResult :=
  if port = 9000 then .response bodyA else .error

/-- Port 9000 lists the pages `X` and `B`, port 9001 the page `C`. -/
def httpXBC (port : Nat) : HttpResult :=
  if port = 9000 then .response bodyXB else if port = 9001 then .response bodyC else .error

/-- Only port 9000 answers, with the pages `X` and `B`. -/
def httpXB (port : Nat) : HttpResult :=
  if port = 9000 then .response bodyXB else .error

/-- The texts of reports with `2 ^ 53`, `2 ^ 52`, one and one half clicks. -/
def edgeTable : List (String × JSON) :=
  [("\x7b\"clicks\":9007199254740992\x7d", .obj [("clicks", .num 9007199254740992)]),
   ("\x7b\"clicks\":4503599627370496\x7d", .obj [("clicks", .num 4503599627370496)]),
   ("\x7b\"clicks\":1\x7d", .obj [("clicks", .num 1)]),
   ("\x7b\"clicks\":0.5\x7d", .obj [("clicks", .num (.ofDecimal false 5 (-1)))])]

/-- Example pages of which the first reports `2 ^ 53` clicks and the others one
click each. -/
def largePeer : Peer :=
  fun ws n _ =>
    match ws with
    | 0 => [tickFrame n "\x7b\"clicks\":9007199254740992\x7d"]
    | _ => [tickFrame n "\x7b\"clicks\":1\x7d"]

/-- Example pages of which the first reports `2 ^ 52` clicks and the others one
half each. -/
def halfPeer : Peer :=
  fun ws n _ =>
    match ws with
    | 0 => [tickFrame n "\x7b\"clicks\":4503599627370496\x7d"]
    | _ => [tickFrame n "\x7b\"clicks\":0.5\x7d"]

/-- Four sessions on open sockets. -/
def fourSessions : State :=
  { connections := [("9000:A", { ws := 0, injected := true }),
                    ("9000:B", { ws := 1, injected := true }),
                    ("9001:C", { ws := 2, injected := true }),
                    ("9001:D", { ws := 3, injected := true })],
    isEnabled := true, msgId := 1, readyState := [.OPEN, .OPEN, .OPEN, .OPEN], sent := [],
    calls := [] }

/-- Example pages of which the first reports `2 ^ 53` clicks, the second never
answers and the others report one click each. -/
def largeFailingPeer : Peer :=
  fun ws n _ =>
    match ws with
    | 0 => [tickFrame n "\x7b\"clicks\":9007199254740992\x7d"]
    | 1 => []
    | _ => [tickFrame n "\x7b\"clicks\":1\x7d"]

/-- Example pages of which the first reports `2 ^ 52` clicks, the second never
answers and the others report one half each. -/
def halfFailingPeer : Peer :=
  fun ws n _ =>
    match ws with
    | 0 => [tickFrame n "\x7b\"clicks\":4503599627370496\x7d"]
    | 1 => []
    | _ => [tickFrame n "\x7b\"clicks\":0.5\x7d"]

/-- Every connection attempt opens. -/
def openDial : Dialer :=
  fun _ _ _ => .opens

/-- The attempt on the URL of page `X` raises, every other attempt opens. -/
def raisingDial : Dialer :=
  fun id _ _ => if id = "9000:X" then .raises else .opens

/-- The attempt on the URL of page `X` ends with an `error` event, every other
attempt opens. -/
def failingDial : Dialer :=
  fun id _ _ => if id = "9000:X" then .fails else .opens

/-- Pages that never answer. -/
def silentPeer : Peer :=
  fun _ _ _ => []

/-- A registered session whose socket is closing. -/
def closingSession : State :=
  { connections := [("9000:A", { ws := 0, injected := false })], isEnabled := true, msgId := 1,
    readyState := [.CLOSING], sent := [], calls := [] }

end CDPHandler

/-! ## Theorems -/

/-! ### JavaScript numbers -/

theorem bitLengthAux_le_iff (fuel n k : Nat) (h : n ≤ fuel) :
    bitLengthAux fuel n ≤ k ↔ n < 2 ^ k := by
  induction fuel generalizing n k with
  | zero =>
    have : n = 0 := by omega
    subst this
    simp [bitLengthAux]
  | succ fuel ih =>
    unfold bitLengthAux
    by_cases h0 : n = 0
    · subst h0; simp
    · simp only [h0, if_false]
      have hpos : 0 < n := Nat.pos_of_ne_zero h0
      by_cases h32 : n >>> 32 = 0
      · simp only [h32, if_true]
        have hle : n >>> 1 ≤ fuel := by
          rw [Nat.shiftRight_eq_div_pow]
          have : n / 2 ^ 1 < n := Nat.div_lt_self hpos (by norm_num)
          omega
        cases k with
        | zero => simp; omega
        | succ k =>
          rw [Nat.add_le_add_iff_right, ih _ _ hle, Nat.shiftRight_eq_div_pow, pow_succ,
            Nat.div_lt_iff_lt_mul (by norm_num)]
          norm_num [pow_succ]
      · simp only [h32, if_false]
        have hge : 2 ^ 32 ≤ n := by
          by_contra hlt
          apply h32
          rw [Nat.shiftRight_eq_div_pow]
          exact Nat.div_eq_of_lt (by omega)
        have hle : n >>> 32 ≤ fuel := by
          rw [Nat.shiftRight_eq_div_pow]
          have : n / 2 ^ 32 < n := Nat.div_lt_self hpos (by norm_num)
          omega
        by_cases hk : 32 ≤ k
        · obtain ⟨j, rfl⟩ := Nat.exists_eq_add_of_le hk
          rw [show 32 + j = j + 32 by omega, Nat.add_le_add_iff_right, ih _ _ hle,
            Nat.shiftRight_eq_div_pow, pow_add, Nat.div_lt_iff_lt_mul (by norm_num)]
        · have hlt : 2 ^ k < 2 ^ 32 := Nat.pow_lt_pow_right (by norm_num) (by omega)
          constructor
          · intro h'; omega
          · intro h'; omega

theorem bitLength_le_iff (n k : Nat) : bitLength n ≤ k ↔ n < 2 ^ k :=
  bitLengthAux_le_iff n n k (le_refl n)

theorem lt_two_pow_bitLength (n : Nat) : n < 2 ^ bitLength n :=
  (bitLength_le_iff n _).1 (le_refl _)

theorem two_pow_le_of_lt_bitLength (n k : Nat) (h : k < bitLength n) : 2 ^ k ≤ n := by
  by_contra hlt
  have := (bitLength_le_iff n k).2 (by omega)
  omega

theorem bitLength_eq_iff (n b : Nat) :
    bitLength n = b + 1 ↔ 2 ^ b ≤ n ∧ n < 2 ^ (b + 1) := by
  constructor
  · intro h
    exact ⟨two_pow_le_of_lt_bitLength n b (by omega), by rw [← h]; exact lt_two_pow_bitLength n⟩
  · intro ⟨h1, h2⟩
    have hle := (bitLength_le_iff n (b + 1)).2 h2
    have : ¬ bitLength n ≤ b := fun h => by
      have := (bitLength_le_iff n b).1 h
      omega
    omega

theorem bitLength_pos (n : Nat) (hn : 0 < n) : 0 < bitLength n := by
  by_contra h
  have h0 : bitLength n ≤ 0 := by omega
  have := (bitLength_le_iff n 0).1 h0
  simp at this
  omega

theorem bitLength_mul_two_pow (n s : Nat) (hn : 0 < n) :
    bitLength (n * 2 ^ s) = bitLength n + s := by
  obtain ⟨b, hb⟩ := Nat.exists_eq_succ_of_ne_zero (Nat.pos_iff_ne_zero.1 (bitLength_pos n hn))
  have hb' := (bitLength_eq_iff n b).1 hb
  rw [hb, show b + 1 + s = (b + s) + 1 by omega]
  rw [bitLength_eq_iff]
  constructor
  · rw [pow_add]; exact Nat.mul_le_mul_right _ hb'.1
  · rw [show b + s + 1 = (b + 1) + s by omega, pow_add]
    exact Nat.mul_lt_mul_of_pos_right hb'.2 (by positivity)

theorem roundTiesEven_of_dvd (N D : Nat) (hD : 0 < D) (h : D ∣ N) :
    roundTiesEven N D = N / D := by
  unfold roundTiesEven
  simp [Nat.mod_eq_zero_of_dvd h, hD]

theorem roundTiesEven_le (N D : Nat) : roundTiesEven N D ≤ N / D + 1 := by
  unfold roundTiesEven
  split_ifs <;> omega

/-- A number of at most 53 binary digits, or `2 ^ 53`, shifted to the left has
at most 53 significant binary digits. -/
theorem two_pow_dvd_of_le (q s : Nat) (hq : q ≤ 2 ^ 53) :
    2 ^ (bitLength (q * 2 ^ s) - 53) ∣ q * 2 ^ s := by
  rcases Nat.eq_zero_or_pos q with rfl | hpos
  · simp
  · rw [bitLength_mul_two_pow q s hpos]
    rcases Nat.lt_or_ge q (2 ^ 53) with hlt | hge
    · have hb : bitLength q ≤ 53 := (bitLength_le_iff q 53).2 hlt
      exact Dvd.dvd.mul_left (pow_dvd_pow 2 (by omega)) q
    · have hq' : q = 2 ^ 53 := le_antisymm hq hge
      have hb : bitLength q = 53 + 1 := by
        rw [bitLength_eq_iff, hq']
        exact ⟨le_refl _, Nat.pow_lt_pow_right (by norm_num) (by norm_num)⟩
      rw [hb, hq', ← pow_add]
      exact pow_dvd_pow 2 (by omega)

/-- Rounding to double precision gives a magnitude of at most 53 significant
binary digits: the result of `JSNumber.round` is an infinity only when the
rounded magnitude is `2 ^ 2098` units or more. -/
theorem isDoubleUnits_roundRatio (N D : Nat) :
    isDoubleUnits (roundRatio N D) = decide (roundRatio N D < 2 ^ (unitExponent + 1024)) := by
  have hq : roundTiesEven N (D <<< (bitLength (N / D) - 53)) ≤ 2 ^ 53 := by
    refine le_trans (roundTiesEven_le _ _) ?_
    rw [Nat.shiftLeft_eq, ← Nat.div_div_eq_div_mul]
    have hlt := lt_two_pow_bitLength (N / D)
    rcases Nat.lt_or_ge 53 (bitLength (N / D)) with hb | hb
    · have : N / D / 2 ^ (bitLength (N / D) - 53) < 2 ^ 53 := by
        rw [Nat.div_lt_iff_lt_mul (by positivity), ← pow_add]
        rwa [show 53 + (bitLength (N / D) - 53) = bitLength (N / D) by omega]
      omega
    · have h0 : bitLength (N / D) - 53 = 0 := by omega
      rw [h0, pow_zero, Nat.div_one]
      have : N / D < 2 ^ 53 := lt_of_lt_of_le hlt (Nat.pow_le_pow_right (by norm_num) hb)
      omega
  have hdvd := two_pow_dvd_of_le _ (bitLength (N / D) - 53) hq
  have hr : roundRatio N D =
      roundTiesEven N (D <<< (bitLength (N / D) - 53)) * 2 ^ (bitLength (N / D) - 53) := by
    rw [roundRatio, Nat.shiftLeft_eq]
  rw [← hr] at hdvd
  unfold isDoubleUnits
  rw [Nat.shiftLeft_eq, one_mul, Nat.mod_eq_zero_of_dvd hdvd]
  simp only [beq_self_eq_true, Bool.true_and, bitLength_le_iff]

/-- Rounding leaves the magnitude of a double as it is. -/
theorem roundRatio_of_isDoubleUnits (n : Nat) (h : isDoubleUnits n = true) :
    roundRatio n 1 = n := by
  unfold isDoubleUnits at h
  simp only [Bool.and_eq_true, beq_iff_eq, decide_eq_true_eq] at h
  have hdvd : 1 <<< (bitLength n - 53) ∣ n := Nat.dvd_of_mod_eq_zero h.1
  unfold roundRatio
  simp only [Nat.div_one, Nat.shiftLeft_eq, one_mul] at hdvd ⊢
  rw [roundTiesEven_of_dvd n _ (by positivity) hdvd]
  exact Nat.div_mul_cancel hdvd

theorem unitsPerOne_eq : unitsPerOne = 2 ^ unitExponent := by
  rw [unitsPerOne, Nat.shiftLeft_eq, one_mul]

theorem unitsPerOne_pos : 0 < unitsPerOne := by
  rw [unitsPerOne_eq]
  positivity

/-- The integers up to `2 ^ 53` are doubles. -/
theorem isDoubleUnits_mul_unitsPerOne (n : Nat) (hn : n ≤ 2 ^ 53) :
    isDoubleUnits (n * unitsPerOne) = true := by
  rw [unitsPerOne_eq]
  have hdvd := two_pow_dvd_of_le n unitExponent hn
  unfold isDoubleUnits
  rw [Nat.shiftLeft_eq, one_mul, Nat.mod_eq_zero_of_dvd hdvd,
    beq_self_eq_true, Bool.true_and, decide_eq_true_eq, bitLength_le_iff]
  calc n * 2 ^ unitExponent ≤ 2 ^ 53 * 2 ^ unitExponent := Nat.mul_le_mul_right _ hn
    _ < 2 ^ (unitExponent + 1024) := by
      rw [← pow_add]
      exact Nat.pow_lt_pow_right (by norm_num) (by unfold unitExponent; omega)

theorem JSNumber.finite_congr (s : Bool) (a b : Nat) (ha : isDoubleUnits a = true)
    (hb : isDoubleUnits b = true) (hab : a = b) : JSNumber.finite s a ha = .finite s b hb := by
  subst hab
  rfl

/-- Rounding the magnitude of a double gives that double. -/
theorem JSNumber.round_of_isDoubleUnits (s : Bool) (n : Nat) (h : isDoubleUnits n = true) :
    JSNumber.round s n 1 = .finite s n h := by
  have hr := roundRatio_of_isDoubleUnits n h
  unfold JSNumber.round
  rw [dif_pos (by rw [hr]; exact h)]
  exact JSNumber.finite_congr s _ _ _ _ hr

/-- The double of an integer up to `2 ^ 53` in absolute value is that integer. -/
theorem JSNumber.ofInt_eq (n : Int) (hn : n.natAbs ≤ 2 ^ 53) :
    JSNumber.ofInt n =
      .finite (decide (n < 0)) (n.natAbs * unitsPerOne) (isDoubleUnits_mul_unitsPerOne _ hn) := by
  unfold JSNumber.ofInt JSNumber.ofRatio
  exact JSNumber.round_of_isDoubleUnits _ _ _

theorem JSNumber.round_mul_unitsPerOne (s s' : Bool) (X m : Nat) (hm : m ≤ 2 ^ 53) (hs : s = s')
    (hX : X = m * unitsPerOne) :
    JSNumber.round s X 1 =
      .finite s' (m * unitsPerOne) (isDoubleUnits_mul_unitsPerOne m hm) := by
  subst hs hX
  exact JSNumber.round_of_isDoubleUnits _ _ _

theorem addNumbers_finite (sa sb : Bool) (a b : Nat) (ha : isDoubleUnits a = true)
    (hb : isDoubleUnits b = true) :
    addNumbers (.finite sa a ha) (.finite sb b hb) =
      if sa = sb then .round sa (a + b) 1
      else if a = b then .round false 0 1
      else if b < a then .round sa (a - b) 1
      else .round sb (b - a) 1 := rfl

/-- On integers whose sum is at most `2 ^ 53` in absolute value, the addition
of doubles is the addition of integers. -/
theorem addNumbers_ofInt (a b : Int) (ha : a.natAbs ≤ 2 ^ 53) (hb : b.natAbs ≤ 2 ^ 53)
    (hab : (a + b).natAbs ≤ 2 ^ 53) :
    addNumbers (.ofInt a) (.ofInt b) = .ofInt (a + b) := by
  rw [JSNumber.ofInt_eq a ha, JSNumber.ofInt_eq b hb, JSNumber.ofInt_eq (a + b) hab]
  have hpos := unitsPerOne_pos
  rw [addNumbers_finite]
  split_ifs with h1 h2 h3
  · rw [decide_eq_decide] at h1
    refine JSNumber.round_mul_unitsPerOne _ _ _ _ hab ?_ ?_
    · rw [decide_eq_decide]; omega
    · rw [← add_mul]
      congr 1
      omega
  · rw [decide_eq_decide] at h1
    rw [Nat.mul_left_inj (by omega)] at h2
    refine JSNumber.round_mul_unitsPerOne _ _ _ _ hab ?_ ?_
    · symm; rw [decide_eq_false_iff_not]; omega
    · have : (a + b).natAbs = 0 := by omega
      rw [this, Nat.zero_mul]
  · rw [decide_eq_decide] at h1
    rw [Nat.mul_lt_mul_right hpos] at h3
    refine JSNumber.round_mul_unitsPerOne _ _ _ _ hab ?_ ?_
    · rw [decide_eq_decide]; omega
    · rw [← Nat.sub_mul]
      congr 1
      omega
  · rw [decide_eq_decide] at h1
    rw [Nat.mul_left_inj (by omega)] at h2
    rw [Nat.mul_lt_mul_right hpos] at h3
    refine JSNumber.round_mul_unitsPerOne _ _ _ _ hab ?_ ?_
    · rw [decide_eq_decide]; omega
    · rw [← Nat.sub_mul]
      congr 1
      omega

theorem JSNumber.ofInt_zero : JSNumber.ofInt 0 = 0 := rfl

/-- A number that is an integer is the double of that integer, the zeros
apart, which `x || 0` turns into `0`. -/
theorem numberOrZero_of_toInt (x : JSNumber) (n : Int) (h : x.toInt? = some n) :
    CDPHandler.numberOrZero x = .ofInt n := by
  cases x with
  | nan => simp [JSNumber.toInt?] at h
  | infinity s => simp [JSNumber.toInt?] at h
  | finite s m hm =>
    by_cases hmod : m % unitsPerOne = 0
    · simp only [JSNumber.toInt?, hmod, if_true, Option.some.injEq] at h
      have hdiv : m / unitsPerOne * unitsPerOne = m :=
        Nat.div_mul_cancel (Nat.dvd_of_mod_eq_zero hmod)
      have hpos := unitsPerOne_pos
      rcases Nat.eq_zero_or_pos m with h0 | hmpos
      · subst h0
        have hn : n = 0 := by
          cases s <;> simp at h <;> omega
        subst hn
        simp [CDPHandler.numberOrZero, JSNumber.truthy, JSNumber.ofInt_zero]
      · have hq : 0 < m / unitsPerOne := by
          rcases Nat.eq_zero_or_pos (m / unitsPerOne) with hz | hz
          · rw [hz, Nat.zero_mul] at hdiv; omega
          · exact hz
        have habs : n.natAbs = m / unitsPerOne := by
          cases s <;> simp at h <;> omega
        have hsign : decide (n < 0) = s := by
          cases s <;> simp at h ⊢ <;> omega
        have htruthy : (JSNumber.finite s m hm).truthy = true := by
          simp [JSNumber.truthy]; omega
        rw [CDPHandler.numberOrZero, if_pos htruthy]
        unfold JSNumber.ofInt JSNumber.ofRatio
        rw [habs, hsign]
        rw [show JSNumber.round s (m / unitsPerOne * unitsPerOne) 1 = JSNumber.round s m 1 by
          rw [hdiv]]
        exact (JSNumber.round_of_isDoubleUnits s m hm).symm
    · simp [JSNumber.toInt?, hmod] at h

theorem roundTiesEven_ge (N D : Nat) : N / D ≤ roundTiesEven N D := by
  unfold roundTiesEven
  split_ifs <;> omega

/-- Rounding a positive number of units does not give zero. -/
theorem roundRatio_pos (n : Nat) (hn : 0 < n) : 0 < roundRatio n 1 := by
  unfold roundRatio
  simp only [Nat.div_one, Nat.shiftLeft_eq, one_mul]
  have hle : 2 ^ (bitLength n - 53) ≤ n :=
    two_pow_le_of_lt_bitLength n _ (by have := bitLength_pos n hn; omega)
  have hq : 0 < n / 2 ^ (bitLength n - 53) := Nat.div_pos hle (by positivity)
  exact Nat.mul_pos (lt_of_lt_of_le hq (roundTiesEven_ge _ _)) (by positivity)

theorem JSNumber.zero_eq : (0 : JSNumber) = .finite false 0 (by decide) := rfl

theorem JSNumber.round_isNegativeZero (s : Bool) (n : Nat) (h : s = false ∨ 0 < n) :
    (JSNumber.round s n 1).isNegativeZero = false := by
  unfold JSNumber.round
  split
  · simp only [JSNumber.isNegativeZero, Bool.and_eq_false_iff, beq_eq_false_iff_ne]
    rcases h with h | h
    · exact Or.inl h
    · exact Or.inr (Nat.pos_iff_ne_zero.1 (roundRatio_pos n h))
  · rfl

/-- Adding `0` leaves a number as it is, `-0` apart. -/
theorem addNumbers_zero (x : JSNumber) (hx : x.isNegativeZero = false) : addNumbers x 0 = x := by
  rw [JSNumber.zero_eq]
  cases x with
  | nan => rfl
  | infinity s => rfl
  | finite s m h =>
    rw [addNumbers_finite]
    cases s with
    | false =>
      simp only [if_true, Nat.add_zero]
      exact JSNumber.round_of_isDoubleUnits false m h
    | true =>
      have hm : 0 < m := by
        simp only [JSNumber.isNegativeZero, Bool.true_and, beq_eq_false_iff_ne] at hx
        omega
      rw [if_neg (by simp), if_neg (by omega), if_pos hm, Nat.sub_zero]
      exact JSNumber.round_of_isDoubleUnits true m h

/-- A sum is `-0` only when its first operand is. -/
theorem addNumbers_isNegativeZero (x y : JSNumber) (hx : x.isNegativeZero = false) :
    (addNumbers x y).isNegativeZero = false := by
  cases x with
  | nan => cases y <;> rfl
  | infinity s =>
    cases y with
    | nan => rfl
    | infinity t =>
      simp only [addNumbers]
      split <;> rfl
    | finite t b hb => rfl
  | finite s a ha =>
    cases y with
    | nan => rfl
    | infinity t => rfl
    | finite t b hb =>
      rw [addNumbers_finite]
      split_ifs with h1 h2 h3
      · apply JSNumber.round_isNegativeZero
        cases s with
        | false => exact Or.inl rfl
        | true =>
          simp only [JSNumber.isNegativeZero, Bool.true_and, beq_eq_false_iff_ne] at hx
          exact Or.inr (by omega)
      · exact JSNumber.round_isNegativeZero _ _ (Or.inl rfl)
      · exact JSNumber.round_isNegativeZero _ _ (Or.inr (by omega))
      · exact JSNumber.round_isNegativeZero _ _ (Or.inr (by omega))

theorem numberOrZero_isNegativeZero (x : JSNumber) :
    (CDPHandler.numberOrZero x).isNegativeZero = false := by
  unfold CDPHandler.numberOrZero
  split
  next h =>
    cases x with
    | nan => rfl
    | infinity s => rfl
    | finite s m hm =>
      simp only [JSNumber.truthy, bne_iff_ne] at h
      simp [JSNumber.isNegativeZero, h]
  next => rfl

/-- Addends that are `0` can be left out of a sum that starts from a number
other than `-0`. -/
theorem foldl_addNumbers_filter (keys : List String) (p : String → Bool) (g : String → JSNumber)
    (hg : ∀ k ∈ keys, p k = false → g k = 0) (acc : JSNumber)
    (hacc : acc.isNegativeZero = false) :
    keys.foldl (fun acc k => addNumbers acc (g k)) acc =
      (keys.filter p).foldl (fun acc k => addNumbers acc (g k)) acc := by
  induction keys generalizing acc with
  | nil => rfl
  | cons k rest ih =>
    have hrest := fun acc hacc => ih (fun k' hk' => hg k' (List.mem_cons_of_mem _ hk')) acc hacc
    cases hp : p k with
    | true =>
      rw [List.filter_cons_of_pos hp, List.foldl_cons, List.foldl_cons]
      exact hrest _ (addNumbers_isNegativeZero acc (g k) hacc)
    | false =>
      rw [List.filter_cons_of_neg (by simp [hp]), List.foldl_cons,
        hg k (List.mem_cons_self _ _) hp, addNumbers_zero acc hacc]
      exact hrest acc hacc

theorem JSNumber.round_ne_nan (s : Bool) (N D : Nat) : JSNumber.round s N D ≠ .nan := by
  unfold JSNumber.round
  split <;> simp

theorem JSNumber.strictEq_self (x : JSNumber) (hx : x ≠ .nan) : x.strictEq x = true := by
  cases x with
  | nan => exact absurd rfl hx
  | infinity s => simp [JSNumber.strictEq]
  | finite s m h => simp [JSNumber.strictEq]

/-- A counter value is strictly equal to itself. -/
theorem JSNumber.strictEq_ofNat_self (n : Nat) :
    (JSNumber.ofNat n).strictEq (.ofNat n) = true :=
  JSNumber.strictEq_self _ (JSNumber.round_ne_nan _ _ _)

set_option maxRecDepth 100000 in
/-- The addition of doubles at some values: small integers add exactly,
`2 ^ 53 + 1` is `2 ^ 53`, `2 ^ 52 + 0.5` is `2 ^ 52` (the tie goes to the even
neighbour), the two infinities add up to `NaN`, and the largest double added to
itself is the infinity. -/
theorem addNumbers_examples :
    addNumbers 2 5 = 7 ∧
    addNumbers 9007199254740992 1 = 9007199254740992 ∧
    addNumbers 9007199254740992 2 = 9007199254740994 ∧
    addNumbers 4503599627370496 (.ofDecimal false 5 (-1)) = 4503599627370496 ∧
    addNumbers 7 (.ofInt (-7)) = 0 ∧
    addNumbers (.infinity false) (.infinity true) = .nan ∧
    addNumbers (.ofDecimal false 17976931348623157 292) (.ofDecimal false 17976931348623157 292) =
      .infinity false := by
  decide

set_option maxRecDepth 100000 in
/-- The text of some numbers, as `Number::toString` gives it. -/
theorem numberText_examples :
    numberText 9000 = "9000" ∧
    numberText 9007199254740992 = "9007199254740992" ∧
    numberText 100000000000000000000 = "100000000000000000000" ∧
    numberText 1000000000000000000000 = "1e+21" ∧
    numberText 123456789012345678901 = "123456789012345680000" ∧
    numberText (.ofInt (-42)) = "-42" ∧
    numberText (.ofDecimal false 5 (-1)) = "0.5" ∧
    numberText (.ofDecimal false 1 (-6)) = "0.000001" ∧
    numberText (.ofDecimal false 1 (-7)) = "1e-7" ∧
    numberText (addNumbers (.ofDecimal false 1 (-1)) (.ofDecimal false 2 (-1))) =
      "0.30000000000000004" ∧
    numberText (.ofDecimal false 17976931348623157 292) = "1.7976931348623157e+308" ∧
    numberText (.ofDecimal false 5 (-324)) = "5e-324" ∧
    numberText (.finite true 0 (by decide)) = "0" ∧
    numberText (.infinity true) = "-Infinity" ∧
    numberText .nan = "NaN" := by
  decide

/-- The key `start` builds for a target whose `id` is a number. -/
theorem targetKey_of_numeric_id :
    CDPHandler.targetKey 9000 (.obj [("id", .num 7)]) = .ok "9000:7" ∧
    CDPHandler.targetKey 9000 (.obj [("id", .num 1000000000000000000000)]) = .ok "9000:1e+21" :=
  ⟨rfl, rfl⟩

/-! ### Target discovery -/

theorem startsWithChars_iff (l p : List Char) : startsWithChars l p = true ↔ p <+: l := by
  induction p generalizing l with
  | nil => simp [startsWithChars]
  | cons a p ih =>
    cases l with
    | nil => simp [startsWithChars]
    | cons c cs =>
      rw [startsWithChars, Bool.and_eq_true, ih, List.cons_prefix_cons, beq_iff_eq, eq_comm]

theorem includesChars_iff (l p : List Char) : includesChars l p = true ↔ p <:+: l := by
  induction l with
  | nil =>
    simp [includesChars, startsWithChars_iff]
  | cons c cs ih =>
    simp only [includesChars, Bool.or_eq_true, startsWithChars_iff, ih]
    rw [List.infix_cons_iff]

namespace CDPHandler

theorem isWorkbenchTarget_iff (p : JSON) : isWorkbenchTarget p = true ↔ IsWorkbenchTarget p := by
  unfold isWorkbenchTarget IsWorkbenchTarget
  simp only [Bool.and_eq_true, Bool.or_eq_true, and_assoc]
  refine and_congr ?_ (and_congr ?_ ?_)
  · cases h : field p "webSocketDebuggerUrl" <;> simp [truthyOpt]
  · cases h : field p "type" with
    | none => simp [strictEqStr]
    | some v => cases v <;> simp [strictEqStr]
  · cases h : field p "url" with
    | none => simp
    | some v => cases v <;> simp [stringIncludes, includesChars_iff]

theorem workbenchFilter_descriptor (p : JSON) (h : isTargetDescriptor p = true) :
    workbenchFilter p = .ok (isWorkbenchTarget p) := by
  cases p with
  | obj fields =>
    simp only [isTargetDescriptor] at h
    simp only [workbenchFilter, getProp, isWorkbenchTarget, field]
    cases hw : truthyOpt (lookupField "webSocketDebuggerUrl" fields)
    · rfl
    · cases ht : (strictEqStr (lookupField "type" fields) "page" ||
          strictEqStr (lookupField "type" fields) "webview")
      · rfl
      · cases hu : lookupField "url" fields with
        | none => rfl
        | some u =>
          rw [hu] at h
          cases u with
          | str s =>
            by_cases hs : s = ""
            · subst hs; rfl
            · have : truthyOpt (some (JSON.str s)) = true := by
                simp [truthyOpt, truthy, hs]
              simp [this, callIncludes]
          | _ => simp at h
  | _ => simp [isTargetDescriptor] at h

theorem filterPages_descriptors (pages : List JSON)
    (h : ∀ p ∈ pages, isTargetDescriptor p = true) :
    filterPages pages = .ok (pages.filter isWorkbenchTarget) := by
  induction pages with
  | nil => rfl
  | cons p rest ih =>
    have hp := workbenchFilter_descriptor p (h p (List.mem_cons_self _ _))
    have hr := ih (fun q hq => h q (List.mem_cons_of_mem _ hq))
    simp only [filterPages, hp, hr, List.filter_cons]

/-- C1: on a listing that parses to a list of target descriptors, `_getPages`
resolves with exactly the entries, in their order, that have a truthy
`webSocketDebuggerUrl`, type `page` or `webview`, and a `url` containing
`workbench.html`. -/
theorem getPages_returns_workbench_targets (parse : String → Option JSON) (body : String)
    (pages : List JSON) (hparse : parse body = some (.arr pages))
    (hdesc : ∀ p ∈ pages, isTargetDescriptor p = true) :
    _getPages parse (.response body) = pages.filter isWorkbenchTarget ∧
    (_getPages parse (.response body)).Sublist pages ∧
    (∀ p, p ∈ _getPages parse (.response body) ↔ p ∈ pages ∧ IsWorkbenchTarget p) := by
  have hres : _getPages parse (.response body) = pages.filter isWorkbenchTarget := by
    simp only [_getPages, parseAndFilter, hparse, filterPages_descriptors pages hdesc]
  rw [hres]
  refine ⟨rfl, List.filter_sublist _, fun p => ?_⟩
  rw [List.mem_filter, isWorkbenchTarget_iff]

theorem listingParse_sampleBody : listingParse sampleBody = some (.arr sampleListing) :=
  if_pos rfl

theorem getPages_returns_workbench_targets_witness :
    listingParse sampleBody = some (.arr sampleListing) ∧
    _getPages listingParse (.response sampleBody) = sampleListing.take 1 ∧
    (∀ p, p ∈ _getPages listingParse (.response sampleBody) ↔
      p ∈ sampleListing ∧ IsWorkbenchTarget p) :=
  ⟨listingParse_sampleBody,
   (getPages_returns_workbench_targets listingParse sampleBody sampleListing
      listingParse_sampleBody
      (by intro p hp; simp [sampleListing] at hp; rcases hp with rfl | rfl | rfl <;> rfl)).1,
   (getPages_returns_workbench_targets listingParse sampleBody sampleListing
      listingParse_sampleBody
      (by intro p hp; simp [sampleListing] at hp; rcases hp with rfl | rfl | rfl <;> rfl)).2.2⟩

/-! ### The evolution of one call -/

theorem getElem?_updateCall (f : Call → Call) (i j : Nat) (cs : List Call) :
    (updateCall f i cs)[j]? = (cs[j]?).map (fun c => if i = j then f c else c) := by
  induction cs generalizing i j with
  | nil => simp [updateCall]
  | cons c cs ih =>
    cases i with
    | zero =>
      cases j with
      | zero => simp [updateCall]
      | succ j => simp [updateCall]
    | succ i =>
      cases j with
      | zero => simp [updateCall]
      | succ j => simp [updateCall, ih]

theorem step_calls (parse : String → Option JSON) (ev : Event) (s : State) (i : Nat) :
    (step parse ev s).calls[i]? = (s.calls[i]?).map (fun c => callStep parse i c ev) := by
  cases ev with
  | message ws data =>
    simp only [step, deliver, callStep, List.getElem?_map]
  | timeout j =>
    simp only [step, fireTimeout, callStep, getElem?_updateCall]

theorem run_calls (parse : String → Option JSON) (evs : List Event) (s : State) (i : Nat) :
    (run parse evs s).calls[i]? = (s.calls[i]?).map (fun c => evs.foldl (callStep parse i) c) := by
  induction evs generalizing s with
  | nil => simp [run]
  | cons ev evs ih =>
    have := ih (step parse ev s)
    simp only [run, List.foldl_cons] at this ⊢
    rw [this, step_calls, Option.map_map]
    rfl

theorem deliverAll_eq_run (parse : String → Option JSON) (ws : Nat) (frames : List String)
    (s : State) :
    deliverAll parse ws frames s = run parse (frames.map (Event.message ws)) s := by
  simp [deliverAll, run, List.foldl_map, step]

/-- A call whose listener is detached and whose timer is disarmed ignores
every event. -/
theorem callStep_quiescent (parse : String → Option JSON) (i : Nat) (c : Call) (ev : Event)
    (hl : c.listening = false) (ht : c.timerArmed = false) : callStep parse i c ev = c := by
  cases ev with
  | message ws data => simp [callStep, hl]
  | timeout j => simp [callStep, onTimeout, ht]

theorem foldl_callStep_quiescent (parse : String → Option JSON) (i : Nat) (c : Call)
    (evs : List Event) (hl : c.listening = false) (ht : c.timerArmed = false) :
    evs.foldl (callStep parse i) c = c := by
  induction evs with
  | nil => rfl
  | cons ev evs ih => rw [List.foldl_cons, callStep_quiescent parse i c ev hl ht, ih]

/-- The listener ignores a frame that is not a reply to its call. -/
theorem onMessage_unrelated (parse : String → Option JSON) (data : String) (c : Call)
    (h : isReplyTo parse c.currentId data = false) : onMessage parse data c = c := by
  unfold onMessage
  unfold isReplyTo at h
  cases hp : parse data with
  | none => rfl
  | some msg =>
    rw [hp] at h
    cases msg <;> simp [getProp, strictEqNum] at h ⊢
    simp [h]

theorem logEvaluationError_ok (result : Option JSON) (h : exceptionTextIsString result = true) :
    logEvaluationError result = .ok () := by
  unfold logEvaluationError
  split
  next ht =>
    cases result with
    | none => simp [optChain, truthyOpt] at ht
    | some v =>
      cases v with
      | obj fields =>
        simp only [optChain] at ht h
        simp only [exceptionTextIsString, optChain] at h
        cases hd : lookupField "exceptionDetails" fields with
        | none => rw [hd] at ht; simp [truthyOpt] at ht
        | some details =>
          rw [hd] at ht h
          simp only [getPropOpt, getProp, hd]
          cases details with
          | null => simp [truthyOpt, truthy] at ht
          | obj inner =>
            simp only [optChain] at h
            simp only [getProp]
            cases hx : lookupField "text" inner with
            | none => simp [truthyOpt, jsToString]
            | some text =>
              rw [hx] at h
              cases text <;> simp at h
              simp only [Option.getD]
              by_cases hb : truthyOpt (some (JSON.str ‹String›)) = true <;> simp [hb, jsToString]
          | _ => simp [getProp, truthyOpt, jsToString]
      | _ => simp [optChain, truthyOpt] at ht
  next => rfl

/-- The listener on a reply to its call: it cleans up, and resolves unless
building the log line throws. -/
theorem onMessage_reply (parse : String → Option JSON) (data : String) (c : Call)
    (h : isReplyTo parse c.currentId data = true) :
    onMessage parse data c =
      match logEvaluationError (replyResult parse data) with
      | .ok _ => settle (cleanup c) (.resolved (replyResult parse data))
      | .error _ => cleanup c := by
  unfold onMessage
  unfold isReplyTo at h
  unfold replyResult
  cases hp : parse data with
  | none => rw [hp] at h; simp at h
  | some msg =>
    rw [hp] at h
    cases msg <;> simp [getProp] at h ⊢
    simp only [h, if_true]
    cases logEvaluationError (field (JSON.obj ‹_›) "result") <;> rfl

@[simp] theorem settle_listening (c : Call) (how : Settlement) :
    (settle c how).listening = c.listening := by
  unfold settle; split <;> rfl

@[simp] theorem settle_timerArmed (c : Call) (how : Settlement) :
    (settle c how).timerArmed = c.timerArmed := by
  unfold settle; split <;> rfl

/-- What a call that is listening on `ws` has become after a sequence of frames
on `ws`: the first reply to it decides, the other frames do nothing. -/
theorem foldl_frames_listening (parse : String → Option JSON) (i : Nat) (c : Call)
    (hl : c.listening = true) (frames : List String) :
    (frames.map (Event.message c.ws)).foldl (callStep parse i) c =
      match frames.find? (isReplyTo parse c.currentId) with
      | none => c
      | some d =>
        match logEvaluationError (replyResult parse d) with
        | .ok _ => settle (cleanup c) (.resolved (replyResult parse d))
        | .error _ => cleanup c := by
  induction frames with
  | nil => rfl
  | cons d ds ih =>
    rw [List.map_cons, List.foldl_cons, List.find?_cons]
    cases hr : isReplyTo parse c.currentId d with
    | false =>
      have : callStep parse i c (Event.message c.ws d) = c := by
        simp [callStep, hl, onMessage_unrelated parse d c hr]
      rw [this]
      exact ih
    | true =>
      have : callStep parse i c (Event.message c.ws d) = onMessage parse d c := by
        simp [callStep, hl]
      rw [this, onMessage_reply parse d c hr]
      cases hlog : logEvaluationError (replyResult parse d) with
      | ok u =>
        simp only [hlog]
        exact foldl_callStep_quiescent parse i
          (settle (cleanup c) (.resolved (replyResult parse d))) _
          (by simp [cleanup]) (by simp [cleanup])
      | error e =>
        simp only [hlog]
        exact foldl_callStep_quiescent parse i (cleanup c) _ (by simp [cleanup])
          (by simp [cleanup])

theorem openConn_sendEvaluate (s : State) (conn : Conn) (e : String) (id : String) :
    openConn (sendEvaluate s conn e) id = openConn s id := rfl


theorem getElem?_append_add {α : Type} (l r : List α) (j : Nat) :
    (l ++ r)[l.length + j]? = r[j]? := by
  rw [List.getElem?_append_right (by omega)]
  simp

theorem evaluateStart_of_open (s : State) (k : String) (conn : Conn) (e : String)
    (h : openConn s k = some conn) :
    evaluateStart s k e = (sendEvaluate s conn e, some s.calls.length) := by
  simp [evaluateStart, h]

/-- The call of index `i`, listening on `ws`, after frames on `ws`. -/
theorem callOutcome_after_frames (parse : String → Option JSON) (s : State) (i : Nat) (c : Call)
    (frames : List String) (hc : s.calls[i]? = some c) (hl : c.listening = true)
    (hs : c.settled = none) :
    callOutcome (deliverAll parse c.ws frames s).calls[i]? =
      replyOutcome parse c.currentId frames := by
  rw [deliverAll_eq_run, run_calls, hc, Option.map_some', foldl_frames_listening parse i c hl]
  unfold replyOutcome
  cases frames.find? (isReplyTo parse c.currentId) with
  | none => simp [callOutcome, hs]
  | some d =>
    cases hlog : logEvaluationError (replyResult parse d) with
    | ok u => simp [hlog, callOutcome, settle, cleanup, hs]
    | error e => simp [hlog, callOutcome, cleanup, hs]

theorem replyOutcome_wellFormed (parse : String → Option JSON) (n : Nat) (frames : List String)
    (d : String) (hd : frames.find? (isReplyTo parse n) = some d)
    (hwf : logEvaluationError (replyResult parse d) = .ok ()) :
    replyOutcome parse n frames = .returned (replyResult parse d) := by
  simp [replyOutcome, hd, hwf]

/-- Two `_evaluate` calls started on one open session are sent with distinct
identifiers taken from the counter, which only grows; whatever frames then
arrive on the connection and in whatever order, each call is settled by the
first frame that carries its own identifier and by no other frame, and it
resolves with the result payload of that frame when the log line of the frame
can be built.  The identifiers are not reused: when every request sent so far
carries an identifier below the counter, the two new identifiers differ from
all of them, and every request sent is again below the counter. -/
theorem evaluate_concurrent_replies_paired (parse : String → Option JSON) (s : State)
    (k : String) (conn : Conn) (e1 e2 : String) (frames : List String)
    (hopen : openConn s k = some conn) :
    (evaluateStart (evaluateStart s k e1).1 k e2).1.sent =
        s.sent ++ [{ ws := conn.ws, id := s.msgId, expression := e1 },
                   { ws := conn.ws, id := s.msgId + 1, expression := e2 }] ∧
    s.msgId ≠ s.msgId + 1 ∧
    s.msgId < (evaluateStart s k e1).1.msgId ∧
    (evaluateStart s k e1).1.msgId < (evaluateStart (evaluateStart s k e1).1 k e2).1.msgId ∧
    callOutcome (deliverAll parse conn.ws frames
        (evaluateStart (evaluateStart s k e1).1 k e2).1).calls[s.calls.length]? =
      replyOutcome parse s.msgId frames ∧
    callOutcome (deliverAll parse conn.ws frames
        (evaluateStart (evaluateStart s k e1).1 k e2).1).calls[s.calls.length + 1]? =
      replyOutcome parse (s.msgId + 1) frames ∧
    (∀ d, frames.find? (isReplyTo parse s.msgId) = some d →
      logEvaluationError (replyResult parse d) = .ok () →
      callOutcome (deliverAll parse conn.ws frames
        (evaluateStart (evaluateStart s k e1).1 k e2).1).calls[s.calls.length]? =
        .returned (replyResult parse d)) ∧
    (∀ d, frames.find? (isReplyTo parse (s.msgId + 1)) = some d →
      logEvaluationError (replyResult parse d) = .ok () →
      callOutcome (deliverAll parse conn.ws frames
        (evaluateStart (evaluateStart s k e1).1 k e2).1).calls[s.calls.length + 1]? =
        .returned (replyResult parse d)) ∧
    ((∀ r ∈ s.sent, r.id < s.msgId) →
      (∀ r ∈ s.sent, r.id ≠ s.msgId ∧ r.id ≠ s.msgId + 1) ∧
      ∀ r ∈ (evaluateStart (evaluateStart s k e1).1 k e2).1.sent,
        r.id < (evaluateStart (evaluateStart s k e1).1 k e2).1.msgId) := by
  have h1 := evaluateStart_of_open s k conn e1 hopen
  have h2 := evaluateStart_of_open (sendEvaluate s conn e1) k conn e2 hopen
  rw [h1, h2]
  have hc1 : (sendEvaluate (sendEvaluate s conn e1) conn e2).calls[s.calls.length]? =
      some { ws := conn.ws, currentId := s.msgId, timerArmed := true, listening := true,
             settled := none } := by
    have := getElem?_append_add s.calls
      [({ ws := conn.ws, currentId := s.msgId, timerArmed := true, listening := true,
          settled := none } : Call),
        { ws := conn.ws, currentId := s.msgId + 1, timerArmed := true, listening := true,
          settled := none }] 0
    simpa [sendEvaluate] using this
  have hc2 : (sendEvaluate (sendEvaluate s conn e1) conn e2).calls[s.calls.length + 1]? =
      some { ws := conn.ws, currentId := s.msgId + 1, timerArmed := true, listening := true,
             settled := none } := by
    have := getElem?_append_add s.calls
      [({ ws := conn.ws, currentId := s.msgId, timerArmed := true, listening := true,
          settled := none } : Call),
        { ws := conn.ws, currentId := s.msgId + 1, timerArmed := true, listening := true,
          settled := none }] 1
    simpa [sendEvaluate] using this
  have o1 := callOutcome_after_frames parse _ _ _ frames hc1 rfl rfl
  have o2 := callOutcome_after_frames parse _ _ _ frames hc2 rfl rfl
  simp only at o1 o2
  refine ⟨by simp [sendEvaluate], by omega, by simp [sendEvaluate], by simp [sendEvaluate],
    o1, o2, ?_, ?_, ?_⟩
  · intro d hd hwf
    rw [o1, replyOutcome_wellFormed parse _ frames d hd hwf]
  · intro d hd hwf
    rw [o2, replyOutcome_wellFormed parse _ frames d hd hwf]
  · intro hbelow
    refine ⟨fun r hr => ?_, fun r hr => ?_⟩
    · have := hbelow r hr
      omega
    · simp only [sendEvaluate, List.append_assoc, List.mem_append, List.mem_cons,
        List.mem_singleton, List.not_mem_nil, or_false] at hr
      rcases hr with hr | hr | hr
      · have := hbelow r hr
        simp only [sendEvaluate]
        omega
      · subst hr
        simp only [sendEvaluate]
        omega
      · subst hr
        simp only [sendEvaluate]
        omega

theorem evaluate_concurrent_replies_paired_witness :
    openConn oneSession "9000:A" = some { ws := 0, injected := false } ∧
    callOutcome (deliverAll sampleParse 0 ["event", "reply-2", "junk", "reply-1"]
        (evaluateStart (evaluateStart oneSession "9000:A" "1+1").1 "9000:A" "2+2").1).calls[0]? =
      .returned (replyResult sampleParse "reply-1") ∧
    callOutcome (deliverAll sampleParse 0 ["event", "reply-2", "junk", "reply-1"]
        (evaluateStart (evaluateStart oneSession "9000:A" "1+1").1 "9000:A" "2+2").1).calls[1]? =
      .returned (replyResult sampleParse "reply-2") :=
  ⟨rfl,
   (evaluate_concurrent_replies_paired sampleParse oneSession "9000:A" { ws := 0, injected := false }
      "1+1" "2+2" ["event", "reply-2", "junk", "reply-1"] rfl).2.2.2.2.2.2.1 "reply-1" rfl rfl,
   (evaluate_concurrent_replies_paired sampleParse oneSession "9000:A" { ws := 0, injected := false }
      "1+1" "2+2" ["event", "reply-2", "junk", "reply-1"] rfl).2.2.2.2.2.2.2.1 "reply-2" rfl rfl⟩

theorem callStep_unrelated (parse : String → Option JSON) (i : Nat) (c : Call) (ev : Event)
    (h : unrelatedTo parse i c.ws c.currentId ev = true) : callStep parse i c ev = c := by
  cases ev with
  | message ws data =>
    simp only [unrelatedTo, Bool.not_eq_true', Bool.and_eq_false_iff] at h
    simp only [callStep]
    split
    next hcond =>
      simp only [Bool.and_eq_true, beq_iff_eq] at hcond
      rcases h with h | h
      · simp [hcond.2] at h
      · exact onMessage_unrelated parse data c h
    next => rfl
  | timeout j =>
    simp only [unrelatedTo, Bool.not_eq_true', beq_eq_false_iff_ne] at h
    simp [callStep, h]

theorem foldl_callStep_unrelated (parse : String → Option JSON) (i : Nat) (c : Call)
    (evs : List Event) (h : ∀ ev ∈ evs, unrelatedTo parse i c.ws c.currentId ev = true) :
    evs.foldl (callStep parse i) c = c := by
  induction evs with
  | nil => rfl
  | cons ev evs ih =>
    rw [List.foldl_cons, callStep_unrelated parse i c ev (h ev (List.mem_cons_self _ _))]
    exact ih (fun ev' hev => h ev' (List.mem_cons_of_mem _ hev))

theorem callStep_settled (parse : String → Option JSON) (i : Nat) (c : Call) (ev : Event)
    (how : Settlement) (h : c.settled = some how) :
    (callStep parse i c ev).settled = some how := by
  have hsettle : ∀ (c' : Call) (x : Settlement), c'.settled = some how →
      (settle c' x).settled = some how := by
    intro c' x hc'
    simp [settle, hc']
  cases ev with
  | message ws data =>
    simp only [callStep]
    split
    · unfold onMessage
      split
      · exact h
      · split
        · exact h
        · split
          · split
            · exact h
            · exact hsettle _ _ h
          · exact h
    · exact h
  | timeout j =>
    simp only [callStep, onTimeout]
    split
    · split
      · exact hsettle _ _ h
      · exact h
    · exact h

/-- A pending `_evaluate` call is settled at most once.  Events that are
neither its deadline nor a reply to it leave it pending.  If its deadline
passes first it rejects with `CDP Timeout`, its listener is detached, and no
later event, a frame with its identifier included, changes it.  If a reply to
it whose log line can be built arrives first, it resolves with the result
payload, its timer is cancelled and its listener detached, and no later event
changes it.  A settled promise keeps its settlement. -/
theorem evaluate_settled_at_most_once (parse : String → Option JSON) (s : State) (k : String)
    (conn : Conn) (e : String) (before after : List Event)
    (hopen : openConn s k = some conn)
    (hbefore : ∀ ev ∈ before, unrelatedTo parse s.calls.length conn.ws s.msgId ev = true) :
    (run parse before (evaluateStart s k e).1).calls[s.calls.length]? =
      some { ws := conn.ws, currentId := s.msgId, timerArmed := true, listening := true,
             settled := none } ∧
    (run parse after (fireTimeout s.calls.length
        (run parse before (evaluateStart s k e).1))).calls[s.calls.length]? =
      some { ws := conn.ws, currentId := s.msgId, timerArmed := false, listening := false,
             settled := some (.rejected (.error "CDP Timeout")) } ∧
    (∀ d, isReplyTo parse s.msgId d = true →
      logEvaluationError (replyResult parse d) = .ok () →
      (run parse after (deliver parse conn.ws d
          (run parse before (evaluateStart s k e).1))).calls[s.calls.length]? =
        some { ws := conn.ws, currentId := s.msgId, timerArmed := false, listening := false,
               settled := some (.resolved (replyResult parse d)) }) ∧
    (∀ (i : Nat) (c : Call) (ev : Event) (how : Settlement), c.settled = some how →
      (callStep parse i c ev).settled = some how) := by
  rw [evaluateStart_of_open s k conn e hopen]
  have hc : (sendEvaluate s conn e).calls[s.calls.length]? =
      some { ws := conn.ws, currentId := s.msgId, timerArmed := true, listening := true,
             settled := none } := by
    simp [sendEvaluate]
  have hpending : (run parse before (sendEvaluate s conn e)).calls[s.calls.length]? =
      some { ws := conn.ws, currentId := s.msgId, timerArmed := true, listening := true,
             settled := none } := by
    rw [run_calls, hc, Option.map_some', foldl_callStep_unrelated parse _ _ before hbefore]
  refine ⟨hpending, ?_, ?_, fun i c ev how h => callStep_settled parse i c ev how h⟩
  · rw [run_calls]
    have := step_calls parse (.timeout s.calls.length) (run parse before (sendEvaluate s conn e))
      s.calls.length
    simp only [step] at this
    rw [this, hpending, Option.map_some', Option.map_some']
    rw [foldl_callStep_quiescent parse _ _ after (by simp [callStep, onTimeout, cleanup])
      (by simp [callStep, onTimeout, cleanup])]
    simp [callStep, onTimeout, cleanup, settle]
  · intro d hd hwf
    rw [run_calls]
    have := step_calls parse (.message conn.ws d) (run parse before (sendEvaluate s conn e))
      s.calls.length
    simp only [step] at this
    rw [this, hpending, Option.map_some', Option.map_some']
    have hstep : callStep parse s.calls.length
        { ws := conn.ws, currentId := s.msgId, timerArmed := true, listening := true,
          settled := none } (.message conn.ws d) =
        { ws := conn.ws, currentId := s.msgId, timerArmed := false, listening := false,
          settled := some (.resolved (replyResult parse d)) } := by
      simp only [callStep, Bool.true_and, beq_self_eq_true, if_true]
      rw [onMessage_reply parse d
        { ws := conn.ws, currentId := s.msgId, timerArmed := true, listening := true,
          settled := none } hd, hwf]
      simp [cleanup, settle]
    rw [hstep, foldl_callStep_quiescent parse _ _ after rfl rfl]

theorem evaluate_settled_at_most_once_witness :
    openConn oneSession "9000:A" = some { ws := 0, injected := false } ∧
    (run sampleParse [.message 0 "reply-1", .timeout 0, .message 0 "reply-2"]
        (fireTimeout 0 (run sampleParse [.message 0 "event", .message 0 "reply-2", .timeout 3]
          (evaluateStart oneSession "9000:A" "1+1").1))).calls[0]? =
      some { ws := 0, currentId := 1, timerArmed := false, listening := false,
             settled := some (.rejected (.error "CDP Timeout")) } ∧
    (run sampleParse [.message 0 "reply-1", .timeout 0, .message 0 "reply-2"]
        (deliver sampleParse 0 "reply-1"
          (run sampleParse [.message 0 "event", .message 0 "reply-2", .timeout 3]
            (evaluateStart oneSession "9000:A" "1+1").1))).calls[0]? =
      some { ws := 0, currentId := 1, timerArmed := false, listening := false,
             settled := some (.resolved (replyResult sampleParse "reply-1")) } :=
  ⟨rfl,
   (evaluate_settled_at_most_once sampleParse oneSession "9000:A" { ws := 0, injected := false }
      "1+1" [.message 0 "event", .message 0 "reply-2", .timeout 3]
      [.message 0 "reply-1", .timeout 0, .message 0 "reply-2"] rfl
      (by intro ev hev; simp at hev; rcases hev with rfl | rfl | rfl <;> rfl)).2.1,
   (evaluate_settled_at_most_once sampleParse oneSession "9000:A" { ws := 0, injected := false }
      "1+1" [.message 0 "event", .message 0 "reply-2", .timeout 3]
      [.message 0 "reply-1", .timeout 0, .message 0 "reply-2"] rfl
      (by intro ev hev; simp at hev; rcases hev with rfl | rfl | rfl <;> rfl)).2.2.1
      "reply-1" rfl rfl⟩

/-- C3 at a failing input: a pending call with the identifier 1 receives the
frame `{"id":1,"result":{"exceptionDetails":{"text":{"toString":1}}}}`.  The
frame is a reply to the call; `onMessage` runs `cleanup()`, the interpolation of
the log line throws inside the `try` block, the `catch` block swallows the
exception, and `resolve` is not reached.  The call is left unsettled with its
timer cancelled and its listener detached: no later event, its deadline
included, settles it, and the caller of `_evaluate` never resumes. -/
theorem evaluate_unprintable_exception_text_never_settles :
    isReplyTo unprintableParse 1 "odd-reply" = true ∧
    (run unprintableParse [.message 0 "odd-reply"]
        (evaluateStart oneSession "9000:A" "1+1").1).calls[0]? =
      some { ws := 0, currentId := 1, timerArmed := false, listening := false,
             settled := none } ∧
    (∀ after : List Event,
      (run unprintableParse after (run unprintableParse [.message 0 "odd-reply"]
        (evaluateStart oneSession "9000:A" "1+1").1)).calls[0]? =
      some { ws := 0, currentId := 1, timerArmed := false, listening := false,
             settled := none }) ∧
    (_evaluate unprintableParse (fun _ _ _ => ["odd-reply"]) oneSession "9000:A" "1+1").2 =
      .pending := by
  have h0 : (run unprintableParse [.message 0 "odd-reply"]
      (evaluateStart oneSession "9000:A" "1+1").1).calls[0]? =
      some { ws := 0, currentId := 1, timerArmed := false, listening := false,
             settled := none } := rfl
  refine ⟨rfl, h0, fun after => ?_, rfl⟩
  rw [run_calls, h0, Option.map_some', foldl_callStep_quiescent unprintableParse 0 _ after rfl rfl]

/-- C2 at a failing input: two concurrent calls on one session are sent with
the identifiers 1 and 2; the reply to the second arrives, then the frame
`{"id":1,"result":{"exceptionDetails":{"text":{"toString":1}}}}`, which carries
the identifier of the first.  The second call resolves with its own payload;
the first does not resolve with the payload of the reply that carries its
identifier: it stays pending, also when its deadline has passed. -/
theorem concurrent_call_not_resolved_by_its_reply :
    (evaluateStart (evaluateStart oneSession "9000:A" "1+1").1 "9000:A" "2+2").1.sent =
      [{ ws := 0, id := 1, expression := "1+1" }, { ws := 0, id := 2, expression := "2+2" }] ∧
    isReplyTo unprintableParse 1 "odd-reply" = true ∧
    isReplyTo unprintableParse 2 "reply-2" = true ∧
    callOutcome (deliverAll unprintableParse 0 ["reply-2", "odd-reply"]
        (evaluateStart (evaluateStart oneSession "9000:A" "1+1").1 "9000:A" "2+2").1).calls[1]? =
      .returned (replyResult unprintableParse "reply-2") ∧
    callOutcome (deliverAll unprintableParse 0 ["reply-2", "odd-reply"]
        (evaluateStart (evaluateStart oneSession "9000:A" "1+1").1 "9000:A" "2+2").1).calls[0]? =
      .pending ∧
    callOutcome (fireTimeout 0 (deliverAll unprintableParse 0 ["reply-2", "odd-reply"]
        (evaluateStart (evaluateStart oneSession "9000:A" "1+1").1 "9000:A"
          "2+2").1)).calls[0]? =
      .pending :=
  ⟨by decide, rfl, rfl, rfl, rfl, rfl⟩

theorem openConn_eq_none_iff (s : State) (id : String) :
    openConn s id = none ↔
      mapGet s.connections id = none ∨
      ∃ conn, mapGet s.connections id = some conn ∧ socketOpen s conn.ws = false := by
  unfold openConn
  cases h : mapGet s.connections id with
  | none => simp
  | some conn => cases ho : socketOpen s conn.ws <;> simp [ho]

/-- C4, as the code has it: for a key that is absent from the registry, or
whose connection is not in the open state, `_evaluate` completes at once with
`undefined` and raises nothing; the state is left as it was. -/
theorem evaluate_no_session_returns_undefined (parse : String → Option JSON) (peer : Peer)
    (s : State) (id expression : String)
    (h : mapGet s.connections id = none ∨
      ∃ conn, mapGet s.connections id = some conn ∧ socketOpen s conn.ws = false) :
    _evaluate parse peer s id expression = (s, .returned none) ∧
    evaluateStart s id expression = (s, none) := by
  have hnone := (openConn_eq_none_iff s id).2 h
  simp [_evaluate, evaluateStart, hnone]

theorem evaluate_no_session_returns_undefined_witness :
    (mapGet CDPHandler.new.connections "9000:A" = none ∨
      ∃ conn, mapGet CDPHandler.new.connections "9000:A" = some conn ∧
        socketOpen CDPHandler.new conn.ws = false) ∧
    _evaluate sampleParse (fun _ _ _ => []) CDPHandler.new "9000:A" "1+1" =
      (CDPHandler.new, .returned none) ∧
    evaluateStart CDPHandler.new "9000:A" "1+1" = (CDPHandler.new, none) :=
  ⟨Or.inl rfl,
   evaluate_no_session_returns_undefined sampleParse (fun _ _ _ => []) CDPHandler.new "9000:A" "1+1"
     (Or.inl rfl)⟩

/-- C4 fails as stated: on a handler with an empty registry `_evaluate` does
not fail, it completes successfully with `undefined`. -/
theorem evaluate_no_session_does_not_fail :
    mapGet CDPHandler.new.connections "9000:A" = none ∧
    (_evaluate sampleParse (fun _ _ _ => []) CDPHandler.new "9000:A" "1+1").2 = .returned none ∧
    ¬ ∃ e, (_evaluate sampleParse (fun _ _ _ => []) CDPHandler.new "9000:A" "1+1").2 = .threw e :=
  ⟨rfl, rfl, fun ⟨_, h⟩ => by
    have h' : (Outcome.returned none : Outcome (Option JSON)) = .threw _ := h
    cases h'⟩

theorem mapGet_mapDelete (m : List (String × Conn)) (id : String) :
    mapGet (mapDelete m id) id = none := by
  induction m with
  | nil => rfl
  | cons e rest ih =>
    obtain ⟨k, c⟩ := e
    by_cases hk : k = id
    · simpa [mapDelete, List.filter_cons, hk] using ih
    · simpa [mapDelete, List.filter_cons, hk, mapGet] using ih

/-- C5: once the close handler of the connection registered under `k` has run,
`k` is absent from the registry, and `_evaluate(k, expression)` completes at
once and leaves the state as it is: no frame is sent, no request identifier
allocated, no listener registered and no timer armed. -/
theorem evaluate_after_close_is_noop (parse : String → Option JSON) (peer : Peer) (s : State)
    (k expression : String) :
    mapGet (onClose k s).connections k = none ∧
    _evaluate parse peer (onClose k s) k expression = (onClose k s, .returned none) ∧
    evaluateStart (onClose k s) k expression = (onClose k s, none) ∧
    (_evaluate parse peer (onClose k s) k expression).1.sent = s.sent ∧
    (_evaluate parse peer (onClose k s) k expression).1.msgId = s.msgId ∧
    (_evaluate parse peer (onClose k s) k expression).1.calls = s.calls := by
  have hget : mapGet (onClose k s).connections k = none := mapGet_mapDelete s.connections k
  have hnone : openConn (onClose k s) k = none := by simp [openConn, hget]
  have hev : _evaluate parse peer (onClose k s) k expression = (onClose k s, .returned none) := by
    simp [_evaluate, hnone]
  refine ⟨hget, hev, by simp [evaluateStart, hnone], ?_, ?_, ?_⟩ <;> rw [hev] <;> rfl

/-! ### The awaited `_evaluate` -/

theorem deliverAll_fields (parse : String → Option JSON) (ws : Nat) (frames : List String)
    (s : State) :
    (deliverAll parse ws frames s).connections = s.connections ∧
    (deliverAll parse ws frames s).readyState = s.readyState ∧
    (deliverAll parse ws frames s).msgId = s.msgId ∧
    (deliverAll parse ws frames s).sent = s.sent ∧
    (deliverAll parse ws frames s).isEnabled = s.isEnabled := by
  induction frames generalizing s with
  | nil => simp [deliverAll]
  | cons d ds ih =>
    have := ih (deliver parse ws d s)
    simpa [deliverAll, deliver] using this

theorem evaluate_of_open (parse : String → Option JSON) (peer : Peer) (s : State) (id : String)
    (conn : Conn) (e : String) (h : openConn s id = some conn) :
    (_evaluate parse peer s id e).2 = awaitedOutcome parse s.msgId (peer conn.ws s.msgId e) ∧
    (_evaluate parse peer s id e).1.connections = s.connections ∧
    (_evaluate parse peer s id e).1.readyState = s.readyState ∧
    (_evaluate parse peer s id e).1.msgId = s.msgId + 1 ∧
    (_evaluate parse peer s id e).1.sent =
      s.sent ++ [{ ws := conn.ws, id := s.msgId, expression := e }] := by
  have hf := deliverAll_fields parse conn.ws (peer conn.ws s.msgId e) (sendEvaluate s conn e)
  simp only [_evaluate, h]
  refine ⟨?_, ?_, ?_, ?_, ?_⟩
  · have hc : (sendEvaluate s conn e).calls[s.calls.length]? =
        some { ws := conn.ws, currentId := s.msgId, timerArmed := true, listening := true,
               settled := none } := by
      simp [sendEvaluate]
    have ht := step_calls parse (.timeout s.calls.length)
      (deliverAll parse conn.ws (peer conn.ws s.msgId e) (sendEvaluate s conn e)) s.calls.length
    simp only [step] at ht
    rw [ht, deliverAll_eq_run, run_calls, hc, Option.map_some', Option.map_some']
    have hl := foldl_frames_listening parse s.calls.length
      { ws := conn.ws, currentId := s.msgId, timerArmed := true, listening := true,
        settled := none } rfl (peer conn.ws s.msgId e)
    simp only at hl
    rw [hl]
    unfold awaitedOutcome
    cases (peer conn.ws s.msgId e).find? (isReplyTo parse s.msgId) with
    | none => simp [callStep, onTimeout, cleanup, settle, callOutcome]
    | some d =>
      cases hlog : logEvaluationError (replyResult parse d) with
      | ok u => simp [hlog, callStep, onTimeout, cleanup, settle, callOutcome]
      | error err => simp [hlog, callStep, onTimeout, cleanup, settle, callOutcome]
  · simpa [fireTimeout, sendEvaluate] using hf.1
  · simpa [fireTimeout, sendEvaluate] using hf.2.1
  · simpa [fireTimeout, sendEvaluate] using hf.2.2.1
  · simpa [fireTimeout, sendEvaluate] using hf.2.2.2.1

theorem evaluate_of_not_open (parse : String → Option JSON) (peer : Peer) (s : State)
    (id : String) (e : String) (h : openConn s id = none) :
    _evaluate parse peer s id e = (s, .returned none) := by
  simp [_evaluate, h]

theorem evaluate_fields (parse : String → Option JSON) (peer : Peer) (s : State) (id : String)
    (e : String) :
    (_evaluate parse peer s id e).1.connections = s.connections ∧
    (_evaluate parse peer s id e).1.readyState = s.readyState ∧
    s.msgId ≤ (_evaluate parse peer s id e).1.msgId := by
  cases h : openConn s id with
  | none => simp [evaluate_of_not_open parse peer s id e h]
  | some conn =>
    have := evaluate_of_open parse peer s id conn e h
    exact ⟨this.2.1, this.2.2.1, by omega⟩

/-- The function `_evaluateJson` never rejects.  When the underlying `_evaluate`
rejects (the timeout) or finds no open session, or when it resolves with a
reply whose value is missing, empty, not a string, or a string that is not
valid JSON, `_evaluateJson` resolves with the fallback; when `_evaluate`
resolves with a value that is a non-empty string of valid JSON, it resolves
with what the string deserializes to. -/
theorem evaluateJson_never_rejects (parse : String → Option JSON) (peer : Peer) (s : State)
    (id expression : String) (fallback : JSON) :
    (∀ e, (_evaluateJson parse peer s id expression fallback).2 ≠ .threw e) ∧
    (∀ e, (_evaluate parse peer s id (wrapJson expression)).2 = .threw e →
      (_evaluateJson parse peer s id expression fallback).2 = .returned fallback) ∧
    (∀ conn, openConn s id = some conn →
      (peer conn.ws s.msgId (wrapJson expression)).find? (isReplyTo parse s.msgId) = none →
      (_evaluateJson parse peer s id expression fallback).2 = .returned fallback) ∧
    (openConn s id = none →
      _evaluateJson parse peer s id expression fallback = (s, .returned fallback)) ∧
    (∀ res, (_evaluate parse peer s id (wrapJson expression)).2 = .returned res →
      (∀ v, resultValue res = some (.str v) → v = "" ∨ parse v = none) →
      (_evaluateJson parse peer s id expression fallback).2 = .returned fallback) ∧
    (∀ res v j, (_evaluate parse peer s id (wrapJson expression)).2 = .returned res →
      resultValue res = some (.str v) → v ≠ "" → parse v = some j →
      (_evaluateJson parse peer s id expression fallback).2 = .returned j) := by
  have hthrew : ∀ e, (_evaluate parse peer s id (wrapJson expression)).2 = .threw e →
      (_evaluateJson parse peer s id expression fallback).2 = .returned fallback := by
    intro e he
    simp [_evaluateJson, he, evaluateJsonBody, Outcome.catchWith]
  refine ⟨?_, hthrew, ?_, ?_, ?_, ?_⟩
  · intro e
    simp only [_evaluateJson]
    cases (_evaluate parse peer s id (wrapJson expression)).2 with
    | pending => simp [evaluateJsonBody, Outcome.catchWith]
    | threw e' => simp [evaluateJsonBody, Outcome.catchWith]
    | returned res =>
      simp only [evaluateJsonBody]
      split
      · split
        · simp [Outcome.catchWith]
        · split <;> simp [Outcome.catchWith]
      · simp [Outcome.catchWith]
  · intro conn hconn hnone
    apply hthrew (.error "CDP Timeout")
    rw [(evaluate_of_open parse peer s id conn _ hconn).1]
    simp [awaitedOutcome, hnone]
  · intro hnone
    simp [_evaluateJson, evaluate_of_not_open parse peer s id _ hnone, evaluateJsonBody,
      resultValue, optChain, Outcome.catchWith]
  · intro res hres hval
    simp only [_evaluateJson, hres, evaluateJsonBody]
    split
    next value hv =>
      rcases hval value hv with h | h
      · simp [h, Outcome.catchWith]
      · by_cases hempty : value = ""
        · simp [hempty, Outcome.catchWith]
        · simp [hempty, h, Outcome.catchWith]
    next => simp [Outcome.catchWith]
  · intro res v j hres hv hne hparse
    simp [_evaluateJson, hres, evaluateJsonBody, hv, hne, hparse, Outcome.catchWith]

theorem evaluateJson_never_rejects_witness :
    (_evaluate jsonParse (fun _ _ _ => ["good-reply"]) oneSession "9000:A"
        (wrapJson statsExpression)).2 =
      .returned (field (stringReply 1 "\x7b\"clicks\":2\x7d") "result") ∧
    (_evaluateJson jsonParse (fun _ _ _ => ["good-reply"]) oneSession "9000:A" statsExpression
        (.obj [])).2 = .returned (.obj [("clicks", .num 2)]) ∧
    (_evaluateJson jsonParse (fun _ _ _ => ["bad-reply"]) oneSession "9000:A" statsExpression
        (.obj [])).2 = .returned (.obj []) ∧
    (_evaluateJson jsonParse (fun _ _ _ => []) oneSession "9000:A" statsExpression
        (.obj [])).2 = .returned (.obj []) :=
  ⟨rfl,
   (evaluateJson_never_rejects jsonParse (fun _ _ _ => ["good-reply"]) oneSession "9000:A"
      statsExpression (.obj [])).2.2.2.2.2 _ "\x7b\"clicks\":2\x7d" (.obj [("clicks", .num 2)])
      rfl rfl (by decide) rfl,
   (evaluateJson_never_rejects jsonParse (fun _ _ _ => ["bad-reply"]) oneSession "9000:A"
      statsExpression (.obj [])).2.2.2.2.1 (field (stringReply 1 "oops") "result") rfl
      (by
        intro v hv
        have hv' : some (JSON.str "oops") = some (JSON.str v) := hv
        have : v = "oops" := by injection hv' with h1; injection h1 with h2; exact h2.symm
        subst this
        exact Or.inr rfl),
   (evaluateJson_never_rejects jsonParse (fun _ _ _ => []) oneSession "9000:A"
      statsExpression (.obj [])).2.2.1 { ws := 0, injected := false } rfl rfl⟩

/-- C6 at a failing input: the request of `_evaluateJson` is answered with the
frame `{"id":1,"result":{"exceptionDetails":{"text":{"toString":1}}}}`, a reply
whose value is missing.  The underlying `_evaluate` call is left unsettled, so
`_evaluateJson` does not resolve with the fallback: it never resolves, and
`getStats`, which awaits it, never returns. -/
theorem evaluateJson_unprintable_reply_never_resolves :
    isReplyTo unprintableParse 1 "odd-reply" = true ∧
    resultValue (replyResult unprintableParse "odd-reply") = none ∧
    (_evaluateJson unprintableParse (fun _ _ _ => ["odd-reply"]) oneSession "9000:A"
        statsExpression (.obj [])).2 = .pending ∧
    (getStats unprintableParse (fun _ _ _ => ["odd-reply"]) oneSession).2 = .pending :=
  ⟨rfl, rfl, rfl, rfl⟩

/-! ### Injection -/

theorem mapGet_markInjected (m : List (String × Conn)) (id : String) (conn : Conn)
    (h : mapGet m id = some conn) :
    mapGet (markInjected m id conn.ws) id = some { conn with injected := true } := by
  induction m with
  | nil => simp [mapGet] at h
  | cons e rest ih =>
    obtain ⟨k, c⟩ := e
    by_cases hk : k = id
    · simp only [mapGet, hk, if_true, Option.some.injEq] at h
      subst h
      simp [markInjected, mapGet, hk]
    · simp only [mapGet, hk, if_false] at h
      have := ih h
      simpa [markInjected, mapGet, hk] using this

theorem openConn_of_mapGet (s : State) (id : String) (conn : Conn)
    (hget : mapGet s.connections id = some conn) (hopen : socketOpen s conn.ws = true) :
    openConn s id = some conn := by
  simp [openConn, hget, hopen]

theorem awaitedOutcome_answered (parse : String → Option JSON) (n : Nat) (frames : List String)
    (d : String) (hd : frames.find? (isReplyTo parse n) = some d)
    (hwf : logEvaluationError (replyResult parse d) = .ok ()) :
    awaitedOutcome parse n frames = .returned (replyResult parse d) := by
  simp [awaitedOutcome, hd, hwf]

theorem inject_injected (parse : String → Option JSON) (peer : Peer) (script : String)
    (s : State) (id : String) (conn : Conn) (config : String)
    (hget : mapGet s.connections id = some conn) (hinj : conn.injected = true) :
    (_inject parse peer script s id config).1 =
      (_evaluate parse peer s id (startExpression config)).1 := by
  simp only [_inject, hget, hinj, if_true]
  split <;> simp_all

theorem inject_fresh_answered (parse : String → Option JSON) (peer : Peer) (script : String)
    (s : State) (id : String) (conn : Conn) (config : String) (res : Option JSON)
    (hget : mapGet s.connections id = some conn) (hinj : conn.injected = false)
    (hres : (_evaluate parse peer s id script).2 = .returned res) :
    (_inject parse peer script s id config).1 =
      (_evaluate parse peer
        { (_evaluate parse peer s id script).1 with
          connections := markInjected (_evaluate parse peer s id script).1.connections id conn.ws }
        id (startExpression config)).1 := by
  simp only [_inject, hget, hinj]
  rcases h : _evaluate parse peer s id script with ⟨s1, o⟩
  rw [h] at hres
  simp only at hres
  subst hres
  simp only [Bool.false_eq_true, if_false]
  split <;> simp_all

/-- C7, as the code has it: on a registered session that is not yet injected,
whose connection is open and whose script evaluation call resolves, two calls
of `_inject` send the script body once: the first call sends the script and
then the reconfigure call and sets the flag, the second call sends only the
reconfigure call. -/
theorem inject_twice_sends_script_once (parse : String → Option JSON) (peer : Peer)
    (script : String) (s : State) (id : String) (conn : Conn) (config1 config2 : String)
    (hget : mapGet s.connections id = some conn) (hopen : socketOpen s conn.ws = true)
    (hfresh : conn.injected = false)
    (hresolves : ∃ res, (_evaluate parse peer s id script).2 = .returned res) :
    (_inject parse peer script s id config1).1.sent =
      s.sent ++ [{ ws := conn.ws, id := s.msgId, expression := script },
                 { ws := conn.ws, id := s.msgId + 1, expression := startExpression config1 }] ∧
    mapGet (_inject parse peer script s id config1).1.connections id =
      some { conn with injected := true } ∧
    (_inject parse peer script (_inject parse peer script s id config1).1 id config2).1.sent =
      (_inject parse peer script s id config1).1.sent ++
        [{ ws := conn.ws, id := s.msgId + 2, expression := startExpression config2 }] := by
  obtain ⟨res, hres⟩ := hresolves
  have ho := openConn_of_mapGet s id conn hget hopen
  have e1 := evaluate_of_open parse peer s id conn script ho
  have hfirst := inject_fresh_answered parse peer script s id conn config1 _ hget hfresh hres
  -- the state in which the reconfigure call of the first `_inject` is made
  have hget1 : mapGet (markInjected (_evaluate parse peer s id script).1.connections id conn.ws) id
      = some { conn with injected := true } := by
    rw [e1.2.1]
    exact mapGet_markInjected s.connections id conn hget
  have ho1 : openConn
      { (_evaluate parse peer s id script).1 with
        connections := markInjected (_evaluate parse peer s id script).1.connections id conn.ws }
      id = some { conn with injected := true } := by
    apply openConn_of_mapGet _ _ _ hget1
    simpa [socketOpen, e1.2.2.1] using hopen
  have e2 := evaluate_of_open parse peer _ id _ (startExpression config1) ho1
  rw [← hfirst] at e2
  simp only [e1.2.2.2.1, e1.2.2.2.2] at e2
  have hsent1 : (_inject parse peer script s id config1).1.sent =
      s.sent ++ [{ ws := conn.ws, id := s.msgId, expression := script },
                 { ws := conn.ws, id := s.msgId + 1, expression := startExpression config1 }] := by
    rw [e2.2.2.2.2]
    simp
  have hget2 : mapGet (_inject parse peer script s id config1).1.connections id =
      some { conn with injected := true } := by
    rw [e2.2.1]
    exact hget1
  refine ⟨hsent1, hget2, ?_⟩
  have ho2 : openConn (_inject parse peer script s id config1).1 id =
      some { conn with injected := true } := by
    apply openConn_of_mapGet _ _ _ hget2
    simpa [socketOpen, e2.2.2.1, e1.2.2.1] using hopen
  rw [inject_injected parse peer script _ id _ config2 hget2 rfl]
  have e3 := evaluate_of_open parse peer _ id _ (startExpression config2) ho2
  rw [e3.2.2.2.2, e2.2.2.2.1]

theorem inject_twice_sends_script_once_witness :
    (_inject sampleParse (fun _ _ _ => ["reply-1", "reply-2"]) sampleScript oneSession "9000:A"
        "null").1.sent =
      [{ ws := 0, id := 1, expression := sampleScript },
       { ws := 0, id := 2, expression := startExpression "null" }] ∧
    (_inject sampleParse (fun _ _ _ => ["reply-1", "reply-2"]) sampleScript
        (_inject sampleParse (fun _ _ _ => ["reply-1", "reply-2"]) sampleScript oneSession "9000:A"
          "null").1 "9000:A" "null").1.sent =
      (_inject sampleParse (fun _ _ _ => ["reply-1", "reply-2"]) sampleScript oneSession "9000:A"
        "null").1.sent ++ [{ ws := 0, id := 3, expression := startExpression "null" }] :=
  ⟨(inject_twice_sends_script_once sampleParse (fun _ _ _ => ["reply-1", "reply-2"]) sampleScript
      oneSession "9000:A" { ws := 0, injected := false } "null" "null" rfl rfl rfl
      ⟨_, rfl⟩).1,
   (inject_twice_sends_script_once sampleParse (fun _ _ _ => ["reply-1", "reply-2"]) sampleScript
      oneSession "9000:A" { ws := 0, injected := false } "null" "null" rfl rfl rfl
      ⟨_, rfl⟩).2.2⟩

/-- C7 fails as stated: on a registered session with an open connection whose
peer never answers, the script evaluation of the first `_inject` times out, the
flag stays false, and the second `_inject` sends the script body again: two
requests carry it. -/
theorem inject_twice_resends_script_after_timeout :
    mapGet oneSession.connections "9000:A" = some { ws := 0, injected := false } ∧
    (_inject sampleParse (fun _ _ _ => []) sampleScript
        (_inject sampleParse (fun _ _ _ => []) sampleScript oneSession "9000:A" "null").1
        "9000:A" "null").1.sent =
      [{ ws := 0, id := 1, expression := sampleScript },
       { ws := 0, id := 2, expression := sampleScript }] ∧
    ((_inject sampleParse (fun _ _ _ => []) sampleScript
        (_inject sampleParse (fun _ _ _ => []) sampleScript oneSession "9000:A" "null").1
        "9000:A" "null").1.sent.filter (fun r => r.expression == sampleScript)).length = 2 := by
  refine ⟨rfl, ?_, ?_⟩ <;> decide

/-! ### Aggregation over the sessions -/

theorem openConn_congr (s s' : State) (id : String) (hc : s'.connections = s.connections)
    (hr : s'.readyState = s.readyState) : openConn s' id = openConn s id := by
  simp [openConn, socketOpen, hc, hr]

theorem evaluateJson_fields (parse : String → Option JSON) (peer : Peer) (s : State)
    (id expression : String) (fallback : JSON) :
    (_evaluateJson parse peer s id expression fallback).1.connections = s.connections ∧
    (_evaluateJson parse peer s id expression fallback).1.readyState = s.readyState := by
  have := evaluate_fields parse peer s id (wrapJson expression)
  exact ⟨this.1, this.2.1⟩

/-- A session that reports the object `o` makes `_evaluateJson` return it. -/
theorem evaluateJson_reports (parse : String → Option JSON) (peer : Peer) (s : State)
    (id expression : String) (fallback : JSON) (conn : Conn) (o : List (String × JSON))
    (hopen : openConn s id = some conn) (hrep : Reports parse peer conn.ws expression o) :
    (_evaluateJson parse peer s id expression fallback).2 = .returned (.obj o) := by
  obtain ⟨text, hne, hparse, hans⟩ := hrep
  obtain ⟨d, hd, hwf, hval⟩ := hans s.msgId
  have e1 := (evaluate_of_open parse peer s id conn (wrapJson expression) hopen).1
  rw [awaitedOutcome_answered parse _ _ d hd hwf] at e1
  simp [_evaluateJson, e1, evaluateJsonBody, resultValue, hval, hne, hparse, Outcome.catchWith]

/-- A session whose remote call fails makes `_evaluateJson` return the
fallback: its socket is not open, no reply arrives, or the remote expression
throws and the wrapper returns the empty string. -/
theorem evaluateJson_failing (parse : String → Option JSON) (peer : Peer) (s : State)
    (id expression : String) (fallback : JSON) (conn : Conn)
    (hget : mapGet s.connections id = some conn)
    (hfail : socketOpen s conn.ws = false ∨
      NeverAnswers parse peer conn.ws (wrapJson expression) ∨
      AnswersWith parse peer conn.ws (wrapJson expression) "") :
    (_evaluateJson parse peer s id expression fallback).2 = .returned fallback := by
  cases hopen : socketOpen s conn.ws with
  | false =>
    have hnone : openConn s id = none := by simp [openConn, hget, hopen]
    simp [_evaluateJson, evaluate_of_not_open parse peer s id _ hnone, evaluateJsonBody,
      resultValue, optChain, Outcome.catchWith]
  | true =>
    have ho := openConn_of_mapGet s id conn hget hopen
    have e1 := (evaluate_of_open parse peer s id conn (wrapJson expression) ho).1
    rcases hfail with h | h | h
    · rw [hopen] at h; cases h
    · simp [_evaluateJson, e1, awaitedOutcome, h s.msgId, evaluateJsonBody, Outcome.catchWith]
    · obtain ⟨d, hd, hwf, hval⟩ := h s.msgId
      rw [awaitedOutcome_answered parse _ _ d hd hwf] at e1
      simp [_evaluateJson, e1, evaluateJsonBody, resultValue, hval, Outcome.catchWith]

theorem addField_number (a : JSNumber) (o : List (String × JSON)) (k : String)
    (h : numberOrAbsent o k = true) :
    addField (.num a) (.obj o) k = .ok (.num (addNumbers a (fieldNum o k))) := by
  unfold numberOrAbsent at h
  unfold addField fieldNum
  simp only [getProp]
  cases hl : lookupField k o with
  | none => rfl
  | some v =>
    rw [hl] at h
    cases v <;> simp at h
    rename_i x
    by_cases hx : x.truthy = true
    · simp [orZero, truthy, hx, jsAdd, toPrimitive, primToNumber, numberOrZero]
    · simp [orZero, truthy, hx, jsAdd, toPrimitive, primToNumber, numberOrZero]

theorem addStats_numbers (a b c d : JSNumber) (o : List (String × JSON))
    (h : ∀ f ∈ ["clicks", "blocked", "fileEdits", "terminalCommands"],
      numberOrAbsent o f = true) :
    addStats { clicks := .num a, blocked := .num b, fileEdits := .num c,
               terminalCommands := .num d } (.obj o) =
      ({ clicks := .num (addNumbers a (fieldNum o "clicks")),
         blocked := .num (addNumbers b (fieldNum o "blocked")),
         fileEdits := .num (addNumbers c (fieldNum o "fileEdits")),
         terminalCommands := .num (addNumbers d (fieldNum o "terminalCommands")) }, .ok ()) := by
  simp [addStats, addField_number _ o _ (h _ _)]

theorem addReset_numbers (a b : JSNumber) (o : List (String × JSON))
    (h : ∀ f ∈ ["clicks", "blocked"], numberOrAbsent o f = true) :
    addReset { clicks := .num a, blocked := .num b } (.obj o) =
      ({ clicks := .num (addNumbers a (fieldNum o "clicks")),
         blocked := .num (addNumbers b (fieldNum o "blocked")) }, .ok ()) := by
  simp [addReset, addField_number _ o _ (h _ _)]

theorem mapGet_of_mem_keys (m : List (String × Conn)) (k : String)
    (h : k ∈ m.map Prod.fst) : ∃ conn, mapGet m k = some conn := by
  induction m with
  | nil => simp at h
  | cons e rest ih =>
    obtain ⟨k', c⟩ := e
    by_cases hk : k' = k
    · exact ⟨c, by simp [mapGet, hk]⟩
    · have : k ∈ rest.map Prod.fst := by
        simp only [List.map_cons, List.mem_cons] at h
        rcases h with h | h
        · exact absurd h.symm hk
        · exact h
      obtain ⟨conn, hconn⟩ := ih this
      exact ⟨conn, by simp [mapGet, hk, hconn]⟩

/-- A loop whose body always returns runs through all the keys. -/
theorem forEachSession_returned {α : Type} (body : State → String → α → State × Outcome α)
    (next : String → α → α) (inv : State → α → Prop) (keys : List String) (s : State) (acc : α)
    (hinv : inv s acc)
    (hbody : ∀ s k acc, inv s acc → k ∈ keys →
      (body s k acc).2 = .returned (next k acc) ∧ inv (body s k acc).1 (next k acc)) :
    (forEachSession body keys s acc).2 = .returned (keys.foldl (fun acc k => next k acc) acc) := by
  induction keys generalizing s acc with
  | nil => rfl
  | cons k rest ih =>
    have hb := hbody s k acc hinv (List.mem_cons_self _ _)
    rcases hbk : body s k acc with ⟨s1, o⟩
    rw [hbk] at hb
    simp only at hb
    obtain ⟨ho, hinv1⟩ := hb
    subst ho
    simp only [forEachSession, hbk, List.foldl_cons]
    exact ih s1 (next k acc) hinv1 (fun s' k' acc' hi hk' =>
      hbody s' k' acc' hi (List.mem_cons_of_mem _ hk'))

theorem foldl_addStats (report : String → List (String × JSON)) (keys : List String)
    (a b c d : JSNumber)
    (h : ∀ k ∈ keys, ∀ f ∈ ["clicks", "blocked", "fileEdits", "terminalCommands"],
      numberOrAbsent (report k) f = true) :
    keys.foldl (fun st k => (addStats st (.obj (report k))).1)
        { clicks := .num a, blocked := .num b, fileEdits := .num c, terminalCommands := .num d } =
      { clicks := .num (keys.foldl (fun acc k => addNumbers acc (fieldNum (report k) "clicks")) a),
        blocked :=
          .num (keys.foldl (fun acc k => addNumbers acc (fieldNum (report k) "blocked")) b),
        fileEdits :=
          .num (keys.foldl (fun acc k => addNumbers acc (fieldNum (report k) "fileEdits")) c),
        terminalCommands :=
          .num (keys.foldl
            (fun acc k => addNumbers acc (fieldNum (report k) "terminalCommands")) d) } := by
  induction keys generalizing a b c d with
  | nil => rfl
  | cons k rest ih =>
    rw [List.foldl_cons, addStats_numbers a b c d (report k) (h k (List.mem_cons_self _ _))]
    rw [ih _ _ _ _ (fun k' hk' => h k' (List.mem_cons_of_mem _ hk'))]
    rfl

theorem addStats_numeric (st : Stats) (o : List (String × JSON)) (hst : st.numeric)
    (h : ∀ f ∈ ["clicks", "blocked", "fileEdits", "terminalCommands"],
      numberOrAbsent o f = true) :
    (addStats st (.obj o)).2 = .ok () ∧ (addStats st (.obj o)).1.numeric := by
  obtain ⟨a, b, c, d, rfl⟩ := hst
  rw [addStats_numbers a b c d o h]
  exact ⟨rfl, _, _, _, _, rfl⟩

/-- The sessions of the registry all report numbers for `expression`. -/
theorem getStats_sum (parse : String → Option JSON) (peer : Peer) (s : State)
    (report : String → List (String × JSON))
    (h : ∀ k conn, mapGet s.connections k = some conn →
      socketOpen s conn.ws = true ∧ Reports parse peer conn.ws statsExpression (report k) ∧
      ∀ f ∈ ["clicks", "blocked", "fileEdits", "terminalCommands"],
        numberOrAbsent (report k) f = true) :
    (getStats parse peer s).2 = .returned (sumStats report (s.connections.map Prod.fst)) := by
  unfold getStats
  rw [forEachSession_returned _ (fun k st => (addStats st (.obj (report k))).1)
    (fun s' st => s'.connections = s.connections ∧ s'.readyState = s.readyState ∧ st.numeric)
    _ s zeroStats ⟨rfl, rfl, 0, 0, 0, 0, rfl⟩]
  · have hnum : ∀ k ∈ s.connections.map Prod.fst,
        ∀ f ∈ ["clicks", "blocked", "fileEdits", "terminalCommands"],
          numberOrAbsent (report k) f = true := by
      intro k hk
      obtain ⟨conn, hconn⟩ := mapGet_of_mem_keys _ k hk
      exact (h k conn hconn).2.2
    rw [zeroStats, foldl_addStats report (s.connections.map Prod.fst) 0 0 0 0 hnum]
    rfl
  · intro s' k st ⟨hc, hr, hst⟩ hk
    obtain ⟨conn, hconn⟩ := mapGet_of_mem_keys _ k hk
    obtain ⟨hopen, hrep, hnum⟩ := h k conn hconn
    have ho : openConn s' k = some conn := by
      rw [openConn_congr s s' k hc hr]
      exact openConn_of_mapGet s k conn hconn hopen
    have hj := evaluateJson_reports parse peer s' k statsExpression (.obj []) conn _ ho hrep
    have hf := evaluateJson_fields parse peer s' k statsExpression (.obj [])
    rcases hev : _evaluateJson parse peer s' k statsExpression (.obj []) with ⟨s1, o⟩
    rw [hev] at hj hf
    simp only at hj hf
    subst hj
    simp only
    exact ⟨trivial, hf.1.trans hc, hf.2.trans hr, (addStats_numeric st _ hst hnum).2⟩

theorem getSessionSummary_sum (parse : String → Option JSON) (peer : Peer) (s : State)
    (report : String → List (String × JSON))
    (h : ∀ k conn, mapGet s.connections k = some conn →
      socketOpen s conn.ws = true ∧ Reports parse peer conn.ws summaryExpression (report k) ∧
      ∀ f ∈ ["clicks", "blocked", "fileEdits", "terminalCommands"],
        numberOrAbsent (report k) f = true) :
    (getSessionSummary parse peer s).2 =
      .returned (sumStats report (s.connections.map Prod.fst)) := by
  unfold getSessionSummary
  rw [forEachSession_returned _ (fun k st => (addStats st (.obj (report k))).1)
    (fun s' st => s'.connections = s.connections ∧ s'.readyState = s.readyState ∧ st.numeric)
    _ s zeroStats ⟨rfl, rfl, 0, 0, 0, 0, rfl⟩]
  · have hnum : ∀ k ∈ s.connections.map Prod.fst,
        ∀ f ∈ ["clicks", "blocked", "fileEdits", "terminalCommands"],
          numberOrAbsent (report k) f = true := by
      intro k hk
      obtain ⟨conn, hconn⟩ := mapGet_of_mem_keys _ k hk
      exact (h k conn hconn).2.2
    rw [zeroStats, foldl_addStats report (s.connections.map Prod.fst) 0 0 0 0 hnum]
    rfl
  · intro s' k st ⟨hc, hr, hst⟩ hk
    obtain ⟨conn, hconn⟩ := mapGet_of_mem_keys _ k hk
    obtain ⟨hopen, hrep, hnum⟩ := h k conn hconn
    have ho : openConn s' k = some conn := by
      rw [openConn_congr s s' k hc hr]
      exact openConn_of_mapGet s k conn hconn hopen
    have hj := evaluateJson_reports parse peer s' k summaryExpression (.obj []) conn _ ho hrep
    have hf := evaluateJson_fields parse peer s' k summaryExpression (.obj [])
    have hadd := addStats_numeric st _ hst hnum
    rcases hev : _evaluateJson parse peer s' k summaryExpression (.obj []) with ⟨s1, o⟩
    rw [hev] at hj hf
    simp only at hj hf
    subst hj
    rcases hst1 : addStats st (.obj (report k)) with ⟨st1, r⟩
    rw [hst1] at hadd
    simp only at hadd
    obtain ⟨hr1, hn1⟩ := hadd
    subst hr1
    simp only [hst1]
    exact ⟨trivial, hf.1.trans hc, hf.2.trans hr, hn1⟩

theorem mem_of_mapGet (m : List (String × Conn)) (k : String) (conn : Conn)
    (h : mapGet m k = some conn) : (k, conn) ∈ m := by
  induction m with
  | nil => simp [mapGet] at h
  | cons e rest ih =>
    obtain ⟨k', c⟩ := e
    by_cases hk : k' = k
    · simp only [mapGet, hk, if_true, Option.some.injEq] at h
      simp [hk, h]
    · simp only [mapGet, hk, if_false] at h
      exact List.mem_cons_of_mem _ (ih h)

theorem mapGet_of_mem (m : List (String × Conn)) (k : String) (conn : Conn)
    (hmap : (m.map Prod.fst).Nodup) (h : (k, conn) ∈ m) : mapGet m k = some conn := by
  induction m with
  | nil => simp at h
  | cons e rest ih =>
    obtain ⟨k', c⟩ := e
    simp only [List.map_cons, List.nodup_cons] at hmap
    simp only [List.mem_cons, Prod.mk.injEq] at h
    rcases h with ⟨hk, hc⟩ | h
    · simp [mapGet, hk, hc]
    · have hne : k' ≠ k := by
        intro heq
        apply hmap.1
        rw [heq]
        exact List.mem_map_of_mem Prod.fst h
      simp only [mapGet, hne, if_false]
      exact ih hmap.2 h

theorem numberOrAbsent_of_integerOrAbsent (o : List (String × JSON)) (k : String)
    (h : integerOrAbsent o k = true) : numberOrAbsent o k = true := by
  unfold integerOrAbsent fieldInt at h
  unfold numberOrAbsent
  cases hl : lookupField k o with
  | none => rfl
  | some v =>
    rw [hl] at h
    cases v <;> simp at h ⊢

/-- What `acc += s.k || 0` adds for a field that is an integer or absent is
the double of that integer. -/
theorem fieldNum_of_integerOrAbsent (o : List (String × JSON)) (k : String)
    (h : integerOrAbsent o k = true) :
    fieldNum o k = .ofInt ((fieldInt o k).getD 0) := by
  unfold integerOrAbsent at h
  unfold fieldInt at h ⊢
  unfold fieldNum
  cases hl : lookupField k o with
  | none => rfl
  | some v =>
    rw [hl] at h
    cases v with
    | num x =>
      simp only at h ⊢
      obtain ⟨n, hn⟩ := Option.isSome_iff_exists.1 h
      rw [hn]
      exact numberOrZero_of_toInt x n hn
    | _ => simp at h

/-- While the absolute values add up to at most `2 ^ 53`, the additions of
doubles are exact: the sum of the reports is the sum of the integers. -/
theorem foldl_addNumbers_ofInt (report : String → List (String × JSON)) (keys : List String)
    (f : String) (a : Int)
    (hint : ∀ k ∈ keys, integerOrAbsent (report k) f = true)
    (hbound : a.natAbs + absTotalField report keys f ≤ 2 ^ 53) :
    keys.foldl (fun acc k => addNumbers acc (fieldNum (report k) f)) (.ofInt a) =
      .ofInt (a + totalField report keys f) := by
  induction keys generalizing a with
  | nil => simp [totalField]
  | cons k rest ih =>
    simp only [absTotalField, totalField, List.map_cons, List.sum_cons] at hbound ⊢
    rw [List.foldl_cons, fieldNum_of_integerOrAbsent _ _ (hint k (List.mem_cons_self _ _))]
    rw [addNumbers_ofInt _ _ (by omega) (by omega) (by omega)]
    have := ih (a + (fieldInt (report k) f).getD 0)
      (fun k' hk' => hint k' (List.mem_cons_of_mem _ hk')) (by unfold absTotalField; omega)
    rw [this, totalField, add_assoc]

theorem sumField_of_integers (report : String → List (String × JSON)) (keys : List String)
    (f : String) (hint : ∀ k ∈ keys, integerOrAbsent (report k) f = true)
    (hbound : absTotalField report keys f ≤ 2 ^ 53) :
    sumField report keys f = .ofInt (totalField report keys f) := by
  have := foldl_addNumbers_ofInt report keys f 0 hint (by simpa using hbound)
  rw [zero_add, JSNumber.ofInt_zero] at this
  exact this

theorem sumStats_of_integers (report : String → List (String × JSON)) (keys : List String)
    (hint : ∀ k ∈ keys, ∀ f ∈ statFields, integerOrAbsent (report k) f = true)
    (hbound : ∀ f ∈ statFields, absTotalField report keys f ≤ 2 ^ 53) :
    sumStats report keys = totalStats report keys := by
  unfold sumStats totalStats
  rw [sumField_of_integers report keys "clicks"
      (fun k hk => hint k hk _ (by simp [statFields])) (hbound _ (by simp [statFields])),
    sumField_of_integers report keys "blocked"
      (fun k hk => hint k hk _ (by simp [statFields])) (hbound _ (by simp [statFields])),
    sumField_of_integers report keys "fileEdits"
      (fun k hk => hint k hk _ (by simp [statFields])) (hbound _ (by simp [statFields])),
    sumField_of_integers report keys "terminalCommands"
      (fun k hk => hint k hk _ (by simp [statFields])) (hbound _ (by simp [statFields]))]

theorem totalField_perm (report : String → List (String × JSON)) (keys keys' : List String)
    (f : String) (h : keys'.Perm keys) : totalField report keys' f = totalField report keys f :=
  (h.map (fun k => (fieldInt (report k) f).getD 0)).sum_eq

theorem absTotalField_perm (report : String → List (String × JSON)) (keys keys' : List String)
    (f : String) (h : keys'.Perm keys) :
    absTotalField report keys' f = absTotalField report keys f :=
  (h.map (fun k => ((fieldInt (report k) f).getD 0).natAbs)).sum_eq

theorem totalStats_perm (report : String → List (String × JSON)) (keys keys' : List String)
    (h : keys'.Perm keys) : totalStats report keys' = totalStats report keys := by
  simp [totalStats, totalField_perm report keys keys' _ h]

/-- C8, as the code has it: when every registered session reports, for the
expression of the getter, an object whose fields `clicks`, `blocked`,
`fileEdits` and `terminalCommands` are integers or absent (a page without the
getter reports the object without fields), and the absolute values of each
field add up to at most `2 ^ 53` over the sessions, `getStats` and
`getSessionSummary` return the field-by-field sums over the sessions, an absent
field counting as 0, and the result is the same for every order of the
sessions in the registry. -/
theorem stats_sum_of_bounded_integers (parse : String → Option JSON) (peer : Peer) (s : State)
    (stats summary : String → List (String × JSON))
    (hmap : (s.connections.map Prod.fst).Nodup)
    (hsessions : ∀ k conn, mapGet s.connections k = some conn →
      socketOpen s conn.ws = true ∧
      Reports parse peer conn.ws statsExpression (stats k) ∧
      Reports parse peer conn.ws summaryExpression (summary k) ∧
      ∀ f ∈ statFields, integerOrAbsent (stats k) f = true ∧
        integerOrAbsent (summary k) f = true)
    (hbound : ∀ f ∈ statFields,
      absTotalField stats (s.connections.map Prod.fst) f ≤ 2 ^ 53 ∧
      absTotalField summary (s.connections.map Prod.fst) f ≤ 2 ^ 53) :
    (getStats parse peer s).2 = .returned (totalStats stats (s.connections.map Prod.fst)) ∧
    (getSessionSummary parse peer s).2 =
      .returned (totalStats summary (s.connections.map Prod.fst)) ∧
    (∀ conns, conns.Perm s.connections →
      (getStats parse peer { s with connections := conns }).2 = (getStats parse peer s).2 ∧
      (getSessionSummary parse peer { s with connections := conns }).2 =
        (getSessionSummary parse peer s).2) := by
  have hkeys : ∀ (conns : List (String × Conn)) (k : String), k ∈ conns.map Prod.fst →
      (∀ k conn, mapGet conns k = some conn → mapGet s.connections k = some conn) →
      ∀ f ∈ statFields, integerOrAbsent (stats k) f = true ∧
        integerOrAbsent (summary k) f = true := by
    intro conns k hk hsub
    obtain ⟨conn, hconn⟩ := mapGet_of_mem_keys _ k hk
    exact (hsessions k conn (hsub k conn hconn)).2.2.2
  have hgen : ∀ conns : List (String × Conn), conns.Perm s.connections →
      (∀ k conn, mapGet conns k = some conn → mapGet s.connections k = some conn) →
      (getStats parse peer { s with connections := conns }).2 =
        .returned (totalStats stats (s.connections.map Prod.fst)) ∧
      (getSessionSummary parse peer { s with connections := conns }).2 =
        .returned (totalStats summary (s.connections.map Prod.fst)) := by
    intro conns hperm hsub
    have h1 := getStats_sum parse peer { s with connections := conns } stats (fun k conn hk =>
      ⟨(hsessions k conn (hsub k conn hk)).1, (hsessions k conn (hsub k conn hk)).2.1,
        fun f hf => numberOrAbsent_of_integerOrAbsent _ _
          ((hsessions k conn (hsub k conn hk)).2.2.2 f hf).1⟩)
    have h2 := getSessionSummary_sum parse peer { s with connections := conns } summary
      (fun k conn hk =>
      ⟨(hsessions k conn (hsub k conn hk)).1, (hsessions k conn (hsub k conn hk)).2.2.1,
        fun f hf => numberOrAbsent_of_integerOrAbsent _ _
          ((hsessions k conn (hsub k conn hk)).2.2.2 f hf).2⟩)
    have hp := hperm.map Prod.fst
    rw [h1, h2]
    rw [sumStats_of_integers stats _ (fun k hk f hf => (hkeys conns k hk hsub f hf).1)
        (fun f hf => by rw [absTotalField_perm stats _ _ f hp]; exact (hbound f hf).1),
      sumStats_of_integers summary _ (fun k hk f hf => (hkeys conns k hk hsub f hf).2)
        (fun f hf => by rw [absTotalField_perm summary _ _ f hp]; exact (hbound f hf).2),
      totalStats_perm stats _ _ hp, totalStats_perm summary _ _ hp]
    exact ⟨rfl, rfl⟩
  have hself := hgen s.connections (List.Perm.refl _) (fun _ _ h => h)
  refine ⟨hself.1, hself.2, fun conns hperm => ?_⟩
  have hsub : ∀ k conn, mapGet conns k = some conn → mapGet s.connections k = some conn :=
    fun k conn hk =>
      mapGet_of_mem s.connections k conn hmap (hperm.mem_iff.1 (mem_of_mapGet conns k conn hk))
  have hc := hgen conns hperm hsub
  rw [hc.1, hc.2, hself.1, hself.2]
  exact ⟨rfl, rfl⟩

/-! ### The example pages -/

theorem countTicks_replicate (n : Nat) (rest : List Char) :
    countTicks (List.replicate n 'i' ++ ':' :: rest) = (n, ':' :: rest) := by
  induction n with
  | zero => simp [countTicks]
  | succ n ih => simp [List.replicate_succ, countTicks, ih]

theorem pageParse_tickFrame (table : List (String × JSON)) (n : Nat) (text : String) :
    pageParse table (tickFrame n text) = some (stringReply n text) := by
  simp [pageParse, tickFrame, countTicks_replicate]

theorem tickFrame_answers (table : List (String × JSON)) (peer : Peer) (ws : Nat)
    (expression text : String) (h : ∀ n, peer ws n expression = [tickFrame n text]) :
    AnswersWith (pageParse table) peer ws expression text := by
  intro n
  refine ⟨tickFrame n text, ?_, ?_, ?_⟩
  · simp [h n, isReplyTo, pageParse_tickFrame, stringReply, lookupField, strictEqNum,
      JSNumber.strictEq_ofNat_self]
  · exact logEvaluationError_ok _ (by
      simp [replyResult, pageParse_tickFrame, stringReply, field, lookupField,
        exceptionTextIsString, optChain])
  · simp [replyResult, pageParse_tickFrame, stringReply, field, lookupField, optChain]

theorem pagePeer_reports (k : String) (conn : Conn) (expression : String)
    (h : mapGet threeSessions.connections k = some conn) :
    socketOpen threeSessions conn.ws = true ∧
    Reports (pageParse reportTable) pagePeer conn.ws expression (pageReport k) ∧
    ∀ f ∈ statFields, integerOrAbsent (pageReport k) f = true := by
  simp only [threeSessions, mapGet] at h
  split at h
  next hk =>
    cases h; subst hk
    exact ⟨rfl, ⟨pageText 0, by decide, rfl, tickFrame_answers _ _ _ _ _ (fun _ => rfl)⟩,
      by decide⟩
  next =>
    split at h
    next hk =>
      cases h; subst hk
      exact ⟨rfl, ⟨pageText 1, by decide, rfl, tickFrame_answers _ _ _ _ _ (fun _ => rfl)⟩,
        by decide⟩
    next =>
      split at h
      next hk =>
        cases h; subst hk
        exact ⟨rfl, ⟨pageText 2, by decide, rfl, tickFrame_answers _ _ _ _ _ (fun _ => rfl)⟩,
          by decide⟩
      next => cases h

theorem stats_sum_of_bounded_integers_witness :
    (threeSessions.connections.map Prod.fst).Nodup ∧
    (getStats (pageParse reportTable) pagePeer threeSessions).2 =
      .returned { clicks := .num 7, blocked := .num 1, fileEdits := .num 0,
                  terminalCommands := .num 0 } ∧
    (getSessionSummary (pageParse reportTable) pagePeer threeSessions).2 =
      .returned { clicks := .num 7, blocked := .num 1, fileEdits := .num 0,
                  terminalCommands := .num 0 } :=
  ⟨by decide,
   (stats_sum_of_bounded_integers (pageParse reportTable) pagePeer threeSessions pageReport
      pageReport (by decide) (fun k conn hk =>
        ⟨(pagePeer_reports k conn statsExpression hk).1,
          (pagePeer_reports k conn statsExpression hk).2.1,
          (pagePeer_reports k conn summaryExpression hk).2.1,
          fun f hf => ⟨(pagePeer_reports k conn statsExpression hk).2.2 f hf,
            (pagePeer_reports k conn statsExpression hk).2.2 f hf⟩⟩) (by decide)).1,
   (stats_sum_of_bounded_integers (pageParse reportTable) pagePeer threeSessions pageReport
      pageReport (by decide) (fun k conn hk =>
        ⟨(pagePeer_reports k conn statsExpression hk).1,
          (pagePeer_reports k conn statsExpression hk).2.1,
          (pagePeer_reports k conn summaryExpression hk).2.1,
          fun f hf => ⟨(pagePeer_reports k conn statsExpression hk).2.2 f hf,
            (pagePeer_reports k conn statsExpression hk).2.2 f hf⟩⟩) (by decide)).2.1⟩

/-- C8 fails as stated.  With three sessions that report `2 ^ 53`, 1 and 1
clicks, `getStats` returns `2 ^ 53` clicks, which is not their sum, when the
session with `2 ^ 53` comes first in the registry, and `2 ^ 53 + 2` when it
comes last.  With three sessions that report `2 ^ 52`, one half and one half,
`getSessionSummary` returns `2 ^ 52` in the first order and `2 ^ 52 + 1` in the
other: each `+=` rounds to the nearest double. -/
theorem stats_depend_on_session_order :
    threeSessions.connections.reverse.Perm threeSessions.connections ∧
    (getStats (pageParse edgeTable) largePeer threeSessions).2 =
      .returned { clicks := .num 9007199254740992, blocked := .num 0, fileEdits := .num 0,
                  terminalCommands := .num 0 } ∧
    (getStats (pageParse edgeTable) largePeer
        { threeSessions with connections := threeSessions.connections.reverse }).2 =
      .returned { clicks := .num 9007199254740994, blocked := .num 0, fileEdits := .num 0,
                  terminalCommands := .num 0 } ∧
    (getSessionSummary (pageParse edgeTable) halfPeer threeSessions).2 =
      .returned { clicks := .num 4503599627370496, blocked := .num 0, fileEdits := .num 0,
                  terminalCommands := .num 0 } ∧
    (getSessionSummary (pageParse edgeTable) halfPeer
        { threeSessions with connections := threeSessions.connections.reverse }).2 =
      .returned { clicks := .num 4503599627370497, blocked := .num 0, fileEdits := .num 0,
                  terminalCommands := .num 0 } ∧
    (9007199254740992 : JSNumber) ≠ 9007199254740994 ∧
    (4503599627370496 : JSNumber) ≠ 4503599627370497 :=
  ⟨List.reverse_perm _, rfl, rfl, rfl, rfl, by decide, by decide⟩

/-! ### `resetStats` -/

theorem addReset_numeric (agg : ResetAggregate) (o : List (String × JSON)) (hagg : agg.numeric)
    (h : ∀ f ∈ ["clicks", "blocked"], numberOrAbsent o f = true) :
    (addReset agg (.obj o)).2 = .ok () ∧ (addReset agg (.obj o)).1.numeric := by
  obtain ⟨a, b, rfl⟩ := hagg
  rw [addReset_numbers a b o h]
  exact ⟨rfl, _, _, rfl⟩

theorem foldl_addReset (report : String → Option (List (String × JSON))) (keys : List String)
    (a b : JSNumber)
    (h : ∀ k ∈ keys, ∀ o, report k = some o →
      ∀ f ∈ ["clicks", "blocked"], numberOrAbsent o f = true) :
    keys.foldl (fun agg k => (addReset agg (resetAddend report k)).1)
        { clicks := .num a, blocked := .num b } =
      { clicks :=
          .num (keys.foldl
            (fun acc k => addNumbers acc (fieldNum (contribution report k) "clicks")) a),
        blocked :=
          .num (keys.foldl
            (fun acc k => addNumbers acc (fieldNum (contribution report k) "blocked")) b) } := by
  induction keys generalizing a b with
  | nil => rfl
  | cons k rest ih =>
    rw [List.foldl_cons]
    have hrest := fun a b => ih a b (fun k' hk' => h k' (List.mem_cons_of_mem _ hk'))
    cases hr : report k with
    | none =>
      have : addReset { clicks := .num a, blocked := .num b } (resetAddend report k) =
          ({ clicks := .num (addNumbers a 0), blocked := .num (addNumbers b 0) }, .ok ()) := by
        simp only [resetAddend, hr, resetFallback]
        exact addReset_numbers a b _ (by decide)
      rw [this, hrest]
      simp only [List.foldl_cons, contribution, hr, Option.getD_none]
      rfl
    | some o =>
      have : addReset { clicks := .num a, blocked := .num b } (resetAddend report k) =
          ({ clicks := .num (addNumbers a (fieldNum o "clicks")),
             blocked := .num (addNumbers b (fieldNum o "blocked")) }, .ok ()) := by
        simp only [resetAddend, hr]
        exact addReset_numbers a b o (h k (List.mem_cons_self _ _) o hr)
      rw [this, hrest]
      simp only [List.foldl_cons, contribution, hr, Option.getD_some]

theorem fieldNum_isNegativeZero (o : List (String × JSON)) (k : String) :
    (fieldNum o k).isNegativeZero = false := by
  unfold fieldNum
  split
  · exact numberOrZero_isNegativeZero _
  · rfl

/-- The sessions whose remote call fails add nothing to the sum. -/
theorem sumField_remaining (report : String → Option (List (String × JSON)))
    (keys : List String) (f : String) :
    sumField (contribution report) keys f =
      sumField (contribution report) (keys.filter (fun k => (report k).isSome)) f := by
  unfold sumField
  refine foldl_addNumbers_filter keys (fun k => (report k).isSome)
    (fun k => fieldNum (contribution report k) f) (fun k _ hk => ?_) 0 rfl
  cases hr : report k with
  | none => simp only [contribution, hr, Option.getD_none]; rfl
  | some o => simp [hr] at hk

theorem totalField_remaining (report : String → Option (List (String × JSON)))
    (keys : List String) (f : String) :
    totalField (contribution report) (keys.filter (fun k => (report k).isSome)) f =
      totalField (contribution report) keys f := by
  unfold totalField
  induction keys with
  | nil => rfl
  | cons k rest ih =>
    cases hr : report k with
    | none =>
      rw [List.filter_cons_of_neg (by simp [hr]), ih, List.map_cons, List.sum_cons]
      simp [contribution, hr, fieldInt, lookupField]
    | some o =>
      rw [List.filter_cons_of_pos (by simp [hr]), List.map_cons, List.sum_cons, ih,
        List.map_cons, List.sum_cons]

/-- When the remote call of some registered sessions fails (the connection is
not open, no reply arrives before the timeout, or the remote expression throws)
and every other session reports an object whose `clicks` and `blocked` are
numbers or absent, `resetStats` returns the field-by-field sum, as `+=` adds it
up in the order of the registry, of what the other sessions report: it is the
sum over the remaining sessions alone, and equally the sum over all the
sessions with 0 for both fields of each failing one. -/
theorem resetStats_sum (parse : String → Option JSON) (peer : Peer) (s : State)
    (report : String → Option (List (String × JSON)))
    (hsessions : ∀ k conn, mapGet s.connections k = some conn →
      match report k with
      | some o =>
        socketOpen s conn.ws = true ∧ Reports parse peer conn.ws resetExpression o ∧
        ∀ f ∈ ["clicks", "blocked"], numberOrAbsent o f = true
      | none =>
        socketOpen s conn.ws = false ∨
        NeverAnswers parse peer conn.ws (wrapJson resetExpression) ∨
        AnswersWith parse peer conn.ws (wrapJson resetExpression) "") :
    (resetStats parse peer s).2 =
      .returned
        { clicks := .num (sumField (contribution report)
            ((s.connections.map Prod.fst).filter (fun k => (report k).isSome)) "clicks"),
          blocked := .num (sumField (contribution report)
            ((s.connections.map Prod.fst).filter (fun k => (report k).isSome)) "blocked") } ∧
    (resetStats parse peer s).2 =
      .returned
        { clicks := .num (sumField (contribution report) (s.connections.map Prod.fst) "clicks"),
          blocked :=
            .num (sumField (contribution report) (s.connections.map Prod.fst) "blocked") } := by
  have hall : (resetStats parse peer s).2 =
      .returned
        { clicks := .num (sumField (contribution report) (s.connections.map Prod.fst) "clicks"),
          blocked :=
            .num (sumField (contribution report) (s.connections.map Prod.fst) "blocked") } := by
    unfold resetStats
    rw [forEachSession_returned _ (fun k agg => (addReset agg (resetAddend report k)).1)
      (fun s' agg => s'.connections = s.connections ∧ s'.readyState = s.readyState ∧ agg.numeric)
      _ s zeroReset ⟨rfl, rfl, 0, 0, rfl⟩]
    · have hnum : ∀ k ∈ s.connections.map Prod.fst, ∀ o, report k = some o →
          ∀ f ∈ ["clicks", "blocked"], numberOrAbsent o f = true := by
        intro k hk o ho
        obtain ⟨conn, hconn⟩ := mapGet_of_mem_keys _ k hk
        have := hsessions k conn hconn
        rw [ho] at this
        exact this.2.2
      rw [zeroReset, foldl_addReset report (s.connections.map Prod.fst) 0 0 hnum]
      rfl
    · intro s' k agg ⟨hc, hr, hagg⟩ hk
      obtain ⟨conn, hconn⟩ := mapGet_of_mem_keys _ k hk
      have hs := hsessions k conn hconn
      have hf := evaluateJson_fields parse peer s' k resetExpression resetFallback
      have hj : (_evaluateJson parse peer s' k resetExpression resetFallback).2 =
          .returned (resetAddend report k) := by
        cases hrep : report k with
        | some o =>
          rw [hrep] at hs
          have ho : openConn s' k = some conn := by
            rw [openConn_congr s s' k hc hr]
            exact openConn_of_mapGet s k conn hconn hs.1
          simpa [resetAddend, hrep] using
            evaluateJson_reports parse peer s' k resetExpression resetFallback conn o ho hs.2.1
        | none =>
          rw [hrep] at hs
          have hget' : mapGet s'.connections k = some conn := by rw [hc]; exact hconn
          have hfail : socketOpen s' conn.ws = false ∨
              NeverAnswers parse peer conn.ws (wrapJson resetExpression) ∨
              AnswersWith parse peer conn.ws (wrapJson resetExpression) "" := by
            simpa [socketOpen, hr] using hs
          simpa [resetAddend, hrep] using
            evaluateJson_failing parse peer s' k resetExpression resetFallback conn hget' hfail
      have hadd : (addReset agg (resetAddend report k)).2 = .ok () ∧
          (addReset agg (resetAddend report k)).1.numeric := by
        cases hrep : report k with
        | some o =>
          rw [hrep] at hs
          simpa [resetAddend, hrep] using addReset_numeric agg o hagg hs.2.2
        | none =>
          simpa [resetAddend, hrep, resetFallback] using
            addReset_numeric agg [("clicks", .num 0), ("blocked", .num 0)] hagg (by decide)
      rcases hev : _evaluateJson parse peer s' k resetExpression resetFallback with ⟨s1, o⟩
      rw [hev] at hj hf
      simp only at hj hf
      subst hj
      rcases hst1 : addReset agg (resetAddend report k) with ⟨agg1, r⟩
      rw [hst1] at hadd
      simp only at hadd
      obtain ⟨hr1, hn1⟩ := hadd
      subst hr1
      simp only [hst1]
      exact ⟨trivial, hf.1.trans hc, hf.2.trans hr, hn1⟩
  refine ⟨?_, hall⟩
  rw [hall, sumField_remaining report _ "clicks", sumField_remaining report _ "blocked"]

/-- C9, as the code has it: when the remote call of some registered sessions
fails (the connection is not open, no reply arrives before the timeout, or the
remote expression throws) and every other session reports an object whose
`clicks` and `blocked` are integers or absent, the absolute values of each
field adding up to at most `2 ^ 53`, `resetStats` returns the field-by-field
sum of what the other sessions report.  A failing session contributes 0 to
both fields and takes nothing away from the rest: the sum over the remaining
sessions is the sum over all the sessions with 0 for each failing one. -/
theorem resetStats_isolates_failures (parse : String → Option JSON) (peer : Peer) (s : State)
    (report : String → Option (List (String × JSON)))
    (hsessions : ∀ k conn, mapGet s.connections k = some conn →
      match report k with
      | some o =>
        socketOpen s conn.ws = true ∧ Reports parse peer conn.ws resetExpression o ∧
        ∀ f ∈ ["clicks", "blocked"], integerOrAbsent o f = true
      | none =>
        socketOpen s conn.ws = false ∨
        NeverAnswers parse peer conn.ws (wrapJson resetExpression) ∨
        AnswersWith parse peer conn.ws (wrapJson resetExpression) "")
    (hbound : ∀ f ∈ ["clicks", "blocked"],
      absTotalField (contribution report) (s.connections.map Prod.fst) f ≤ 2 ^ 53) :
    (resetStats parse peer s).2 =
      .returned
        { clicks := .num (.ofInt (totalField (contribution report)
            ((s.connections.map Prod.fst).filter (fun k => (report k).isSome)) "clicks")),
          blocked := .num (.ofInt (totalField (contribution report)
            ((s.connections.map Prod.fst).filter (fun k => (report k).isSome)) "blocked")) } ∧
    (∀ f, totalField (contribution report)
        ((s.connections.map Prod.fst).filter (fun k => (report k).isSome)) f =
      totalField (contribution report) (s.connections.map Prod.fst) f) := by
  have hsum := (resetStats_sum parse peer s report (fun k conn hk => by
    have h := hsessions k conn hk
    cases hr : report k with
    | some o =>
      simp only [hr] at h ⊢
      exact ⟨h.1, h.2.1, fun f hf => numberOrAbsent_of_integerOrAbsent _ _ (h.2.2 f hf)⟩
    | none =>
      simp only [hr] at h ⊢
      exact h)).2
  have hint : ∀ k ∈ s.connections.map Prod.fst, ∀ f ∈ ["clicks", "blocked"],
      integerOrAbsent (contribution report k) f = true := by
    intro k hk f hf
    obtain ⟨conn, hconn⟩ := mapGet_of_mem_keys _ k hk
    have h := hsessions k conn hconn
    cases hr : report k with
    | some o =>
      simp only [hr] at h
      simpa [contribution, hr] using h.2.2 f hf
    | none => simp [contribution, hr, integerOrAbsent, fieldInt, lookupField]
  refine ⟨?_, fun f => totalField_remaining report _ f⟩
  rw [hsum, totalField_remaining report _ "clicks", totalField_remaining report _ "blocked",
    sumField_of_integers (contribution report) _ "clicks"
      (fun k hk => hint k hk _ (by simp)) (hbound _ (by simp)),
    sumField_of_integers (contribution report) _ "blocked"
      (fun k hk => hint k hk _ (by simp)) (hbound _ (by simp))]

theorem failingPeer_sessions (k : String) (conn : Conn)
    (h : mapGet threeSessions.connections k = some conn) :
    match failingReport k with
    | some o =>
      socketOpen threeSessions conn.ws = true ∧
      Reports (pageParse reportTable) failingPeer conn.ws resetExpression o ∧
      ∀ f ∈ ["clicks", "blocked"], integerOrAbsent o f = true
    | none =>
      socketOpen threeSessions conn.ws = false ∨
      NeverAnswers (pageParse reportTable) failingPeer conn.ws (wrapJson resetExpression) ∨
      AnswersWith (pageParse reportTable) failingPeer conn.ws (wrapJson resetExpression) "" := by
  simp only [threeSessions, mapGet] at h
  split at h
  next hk =>
    cases h; subst hk
    exact ⟨rfl, ⟨pageText 0, by decide, rfl, tickFrame_answers _ _ _ _ _ (fun _ => rfl)⟩,
      by decide⟩
  next =>
    split at h
    next hk =>
      cases h; subst hk
      exact Or.inr (Or.inl (fun _ => rfl))
    next =>
      split at h
      next hk =>
        cases h; subst hk
        exact Or.inr (Or.inr (tickFrame_answers _ _ _ _ _ (fun _ => rfl)))
      next => cases h

theorem resetStats_isolates_failures_witness :
    (resetStats (pageParse reportTable) failingPeer threeSessions).2 =
      .returned { clicks := .num 2, blocked := .num 0 } :=
  (resetStats_isolates_failures (pageParse reportTable) failingPeer threeSessions failingReport
    failingPeer_sessions (by decide)).1

/-- C9 fails as stated.  Of four sessions the second never answers and the
others report `2 ^ 53`, 1 and 1 clicks: `resetStats` returns `2 ^ 53` clicks,
which is not the sum of what the remaining sessions report, and `2 ^ 53 + 2`
when the registry holds the sessions in the reverse order.  With reports of
`2 ^ 52`, one half and one half it returns `2 ^ 52` in the first order and
`2 ^ 52 + 1` in the other: each `+=` rounds to the nearest double. -/
theorem resetStats_sum_depends_on_session_order :
    (resetStats (pageParse edgeTable) largeFailingPeer fourSessions).2 =
      .returned { clicks := .num 9007199254740992, blocked := .num 0 } ∧
    (resetStats (pageParse edgeTable) largeFailingPeer
        { fourSessions with connections := fourSessions.connections.reverse }).2 =
      .returned { clicks := .num 9007199254740994, blocked := .num 0 } ∧
    (resetStats (pageParse edgeTable) halfFailingPeer fourSessions).2 =
      .returned { clicks := .num 4503599627370496, blocked := .num 0 } ∧
    (resetStats (pageParse edgeTable) halfFailingPeer
        { fourSessions with connections := fourSessions.connections.reverse }).2 =
      .returned { clicks := .num 4503599627370497, blocked := .num 0 } ∧
    (9007199254740992 : JSNumber) ≠ 9007199254740994 ∧
    (4503599627370496 : JSNumber) ≠ 4503599627370497 :=
  ⟨rfl, rfl, rfl, rfl, by decide, by decide⟩

/-- C10 at a failing input: one session whose getters return `null`.  The text
`null` deserializes to `null`, reading `s.clicks` throws, and only `getStats`
catches it: `getSessionSummary` and `resetStats` reject with the `TypeError`. -/
theorem summary_and_reset_raise_on_null :
    (getSessionSummary (pageParse reportTable) nullPeer oneSession).2 = .threw .typeError ∧
    (resetStats (pageParse reportTable) nullPeer oneSession).2 = .threw .typeError ∧
    (getStats (pageParse reportTable) nullPeer oneSession).2 = .returned zeroStats ∧
    (getAwayActions (pageParse reportTable) (fun _ => none) nullPeer oneSession).2 =
      .returned 0 :=
  ⟨rfl, rfl, rfl, rfl⟩

/-! ### Discovery never fails -/

theorem filterPages_error_of_mem (pages : List JSON) (p : JSON) (e : JSError)
    (hp : p ∈ pages) (he : workbenchFilter p = .error e) :
    ∃ e', filterPages pages = .error e' := by
  induction pages with
  | nil => simp at hp
  | cons q rest ih =>
    simp only [List.mem_cons] at hp
    rcases hp with rfl | hp
    · exact ⟨e, by simp [filterPages, he]⟩
    · obtain ⟨e', he'⟩ := ih hp
      cases hq : workbenchFilter q with
      | error e'' => exact ⟨e'', by simp [filterPages, hq]⟩
      | ok keep => exact ⟨e', by simp [filterPages, hq, he']⟩

/-- C15: `_getPages` never fails.  Whatever the request ends with, it resolves
with a list: the filtered list when the `try` block completes, the empty list
otherwise.  It resolves with the empty list when the body is not valid JSON,
when it parses to a value that is not a list, when it parses to a list with an
entry on which the filter throws (`null` is such an entry), on a network error
and on a request timeout. -/
theorem getPages_never_fails (parse : String → Option JSON) :
    (∀ r, _getPages parse r = [] ∨
      ∃ body filtered, r = .response body ∧ parseAndFilter parse body = .ok filtered ∧
        _getPages parse r = filtered) ∧
    (∀ body, parse body = none → _getPages parse (.response body) = []) ∧
    (∀ body v, parse body = some v → (∀ pages, v ≠ .arr pages) →
      _getPages parse (.response body) = []) ∧
    (∀ body pages p e, parse body = some (.arr pages) → p ∈ pages →
      workbenchFilter p = .error e → _getPages parse (.response body) = []) ∧
    (∀ body pages, parse body = some (.arr pages) → JSON.null ∈ pages →
      _getPages parse (.response body) = []) ∧
    _getPages parse .error = [] ∧
    _getPages parse .timeout = [] := by
  have hthrow : ∀ body pages p e, parse body = some (.arr pages) → p ∈ pages →
      workbenchFilter p = .error e → _getPages parse (.response body) = [] := by
    intro body pages p e hparse hp he
    obtain ⟨e', he'⟩ := filterPages_error_of_mem pages p e hp he
    simp [_getPages, parseAndFilter, hparse, he']
  refine ⟨?_, ?_, ?_, hthrow, ?_, rfl, rfl⟩
  · intro r
    cases r with
    | response body =>
      cases h : parseAndFilter parse body with
      | error e => exact Or.inl (by simp [_getPages, h])
      | ok filtered => exact Or.inr ⟨body, filtered, rfl, h, by simp [_getPages, h]⟩
    | error => exact Or.inl rfl
    | timeout => exact Or.inl rfl
  · intro body hparse
    simp [_getPages, parseAndFilter, hparse]
  · intro body v hparse hv
    cases v with
    | arr pages => exact absurd rfl (hv pages)
    | _ => simp [_getPages, parseAndFilter, hparse]
  · intro body pages hparse hnull
    exact hthrow body pages .null .typeError hparse hnull rfl

theorem getPages_never_fails_witness :
    _getPages worldParse (.response "not json") = [] ∧
    _getPages worldParse (.response "\x7b\x7d") = [] ∧
    _getPages worldParse (.response "[null]") = [] :=
  ⟨(getPages_never_fails worldParse).2.1 "not json" rfl,
   (getPages_never_fails worldParse).2.2.1 "\x7b\x7d" (.obj []) rfl (fun _ h => by cases h),
   (getPages_never_fails worldParse).2.2.2.2.1 "[null]" [.null] rfl (List.mem_singleton.2 rfl)⟩

/-! ### Starting and stopping on the example pages -/

set_option maxRecDepth 100000 in
/-- C12 at a failing input: port 9000 lists the pages `X` and `B`, port 9001
the page `C`, and `new WebSocket` throws on the debugger URL of `X`.  The throw
leaves the inner loop through the `catch` of the port: `B` is never connected,
no socket is created for it, and only `C` of the next port is registered.  When
the attempt on `X` ends with an `error` event instead, `B` and `C` are both
connected and injected. -/
theorem start_skips_targets_after_raising_connect :
    _getPages worldParse (httpXBC 9000) = [pageX, pageB] ∧
    (start worldParse pagePeer raisingDial sampleScript "null" httpXBC World.new).2 =
      .returned () ∧
    (start worldParse pagePeer raisingDial sampleScript "null" httpXBC
        World.new).1.handler.connections =
      [("9001:C", { ws := 0, injected := true })] ∧
    (start worldParse pagePeer raisingDial sampleScript "null" httpXBC World.new).1.socketKey =
      ["9001:C"] ∧
    mapGet (start worldParse pagePeer raisingDial sampleScript "null" httpXBC
        World.new).1.handler.connections "9000:B" = none ∧
    (start worldParse pagePeer failingDial sampleScript "null" httpXBC
        World.new).1.handler.connections =
      [("9000:B", { ws := 1, injected := true }), ("9001:C", { ws := 2, injected := true })] := by
  refine ⟨rfl, rfl, ?_, ?_, ?_, ?_⟩ <;> decide

/-- C13 at a failing input: one registered session on an open socket whose page
never answers.  The stop notification times out, the `catch` block is entered
before `conn.ws.close()` is reached, and `stop` returns with the registry empty
and the flag cleared while the socket is still open.  When the page answers,
the socket is closing after `stop`. -/
theorem stop_skips_close_after_timeout :
    (stop worldParse silentPeer oneSession).2 = .returned () ∧
    (stop worldParse silentPeer oneSession).1.sent =
      [{ ws := 0, id := 1, expression := stopExpression }] ∧
    (stop worldParse silentPeer oneSession).1.connections = [] ∧
    (stop worldParse silentPeer oneSession).1.isEnabled = false ∧
    (stop worldParse silentPeer oneSession).1.readyState = [.OPEN] ∧
    (stop worldParse pagePeer oneSession).1.readyState = [.CLOSING] := by
  refine ⟨rfl, ?_, ?_, ?_, ?_, ?_⟩ <;> decide

/-- C14 at two failing inputs, both reached from a new handler.  After a
`start` that registers the page `A` and a `stop` whose notification times out,
socket 0 is open and the registry is empty.  After a `start`, a `stop` that is
answered, a second `start` and then the `close` event of the first socket,
socket 1 is open and the registry is empty. -/
theorem open_connection_without_registry_entry :
    (stopWorld worldParse silentPeer
        (start worldParse silentPeer openDial sampleScript "null" httpA
          World.new).1).1.handler.readyState = [.OPEN] ∧
    (stopWorld worldParse silentPeer
        (start worldParse silentPeer openDial sampleScript "null" httpA
          World.new).1).1.handler.connections = [] ∧
    (socketCloses 0
        (start worldParse pagePeer openDial sampleScript "null" httpA
          (stopWorld worldParse pagePeer
            (start worldParse pagePeer openDial sampleScript "null" httpA
              World.new).1).1).1).handler.readyState = [.CLOSED, .OPEN] ∧
    (socketCloses 0
        (start worldParse pagePeer openDial sampleScript "null" httpA
          (stopWorld worldParse pagePeer
            (start worldParse pagePeer openDial sampleScript "null" httpA
              World.new).1).1).1).handler.connections = [] := by
  refine ⟨?_, ?_, ?_, ?_⟩ <;> decide

/-- C16 at a failing input: a registered session whose socket is closing.
`_evaluate` returns through its guard, `_inject` takes that for a delivery and
sets the flag, and no request was sent.  The state is reached from a new
handler: a `start` whose script evaluation times out registers the session
without the flag, the page starts closing the socket, and the next `start`
sets the flag without sending anything. -/
theorem inject_sets_flag_without_sending :
    mapGet closingSession.connections "9000:A" = some { ws := 0, injected := false } ∧
    socketOpen closingSession 0 = false ∧
    (_inject worldParse pagePeer sampleScript closingSession "9000:A" "null").1.sent = [] ∧
    mapGet (_inject worldParse pagePeer sampleScript closingSession "9000:A"
        "null").1.connections "9000:A" = some { ws := 0, injected := true } ∧
    (start worldParse silentPeer openDial sampleScript "null" httpA
        World.new).1.handler.connections = [("9000:A", { ws := 0, injected := false })] ∧
    (start worldParse pagePeer openDial sampleScript "null" httpA
        (peerCloses 0 (start worldParse silentPeer openDial sampleScript "null" httpA
          World.new).1)).1.handler.connections = [("9000:A", { ws := 0, injected := true })] ∧
    (start worldParse pagePeer openDial sampleScript "null" httpA
        (peerCloses 0 (start worldParse silentPeer openDial sampleScript "null" httpA
          World.new).1)).1.handler.sent =
      (start worldParse silentPeer openDial sampleScript "null" httpA
        World.new).1.handler.sent := by
  refine ⟨?_, ?_, ?_, ?_, ?_, ?_, ?_⟩ <;> decide

/-- C17 at a failing input: `start` registers the page `A` on socket 0, `stop`
closes socket 0 and empties the registry, a second `start` registers `A` on
the new socket 1, and then the `close` event of socket 0 arrives.  Its handler
deletes the key `9000:A`: the newer session is removed although its socket is
open. -/
theorem close_of_old_socket_removes_new_session :
    (stopWorld worldParse pagePeer
        (start worldParse pagePeer openDial sampleScript "null" httpA
          World.new).1).1.handler.readyState = [.CLOSING] ∧
    (start worldParse pagePeer openDial sampleScript "null" httpA
        (stopWorld worldParse pagePeer
          (start worldParse pagePeer openDial sampleScript "null" httpA
            World.new).1).1).1.handler.connections =
      [("9000:A", { ws := 1, injected := true })] ∧
    (start worldParse pagePeer openDial sampleScript "null" httpA
        (stopWorld worldParse pagePeer
          (start worldParse pagePeer openDial sampleScript "null" httpA
            World.new).1).1).1.socketKey = ["9000:A", "9000:A"] ∧
    (socketCloses 0
        (start worldParse pagePeer openDial sampleScript "null" httpA
          (stopWorld worldParse pagePeer
            (start worldParse pagePeer openDial sampleScript "null" httpA
              World.new).1).1).1).handler.connections = [] ∧
    (socketCloses 0
        (start worldParse pagePeer openDial sampleScript "null" httpA
          (stopWorld worldParse pagePeer
            (start worldParse pagePeer openDial sampleScript "null" httpA
              World.new).1).1).1).handler.readyState = [.CLOSED, .OPEN] := by
  refine ⟨?_, ?_, ?_, ?_, ?_⟩ <;> decide

/-! ### `start` -/

/-- An answered `_evaluate` returns, whether or not the guard let it send. -/
theorem evaluate_returns_of_answersAll (parse : String → Option JSON) (peer : Peer) (s : State)
    (id e : String) (hpeer : AnswersAll parse peer) :
    ∃ res, (_evaluate parse peer s id e).2 = .returned res := by
  cases h : openConn s id with
  | none => exact ⟨none, by rw [evaluate_of_not_open parse peer s id e h]⟩
  | some conn =>
    obtain ⟨d, hd, hwf⟩ := hpeer conn.ws s.msgId e
    exact ⟨_, by rw [(evaluate_of_open parse peer s id conn e h).1,
      awaitedOutcome_answered parse _ _ d hd hwf]⟩

theorem inject_outcome_injected (parse : String → Option JSON) (peer : Peer) (script : String)
    (s : State) (id : String) (conn : Conn) (config : String)
    (hget : mapGet s.connections id = some conn) (hinj : conn.injected = true)
    (hpeer : AnswersAll parse peer) :
    (_inject parse peer script s id config).2 = .returned () ∧
    (_inject parse peer script s id config).1.connections = s.connections ∧
    (_inject parse peer script s id config).1.readyState = s.readyState := by
  have hf := evaluate_fields parse peer s id (startExpression config)
  obtain ⟨res, hres⟩ := evaluate_returns_of_answersAll parse peer s id (startExpression config)
    hpeer
  rw [inject_injected parse peer script s id conn config hget hinj]
  refine ⟨?_, hf.1, hf.2.1⟩
  simp only [_inject, hget, hinj, if_true]
  rcases h : _evaluate parse peer s id (startExpression config) with ⟨s1, o⟩
  rw [h] at hres
  simp only at hres
  subst hres
  rfl

theorem inject_outcome_fresh (parse : String → Option JSON) (peer : Peer) (script : String)
    (s : State) (id : String) (conn : Conn) (config : String)
    (hget : mapGet s.connections id = some conn) (hinj : conn.injected = false)
    (hpeer : AnswersAll parse peer) :
    (_inject parse peer script s id config).2 = .returned () ∧
    (_inject parse peer script s id config).1.connections =
      markInjected s.connections id conn.ws ∧
    (_inject parse peer script s id config).1.readyState = s.readyState := by
  obtain ⟨res, hres⟩ := evaluate_returns_of_answersAll parse peer s id script hpeer
  have hf1 := evaluate_fields parse peer s id script
  have hfirst := inject_fresh_answered parse peer script s id conn config res hget hinj hres
  have hf2 := evaluate_fields parse peer
    { (_evaluate parse peer s id script).1 with
      connections := markInjected (_evaluate parse peer s id script).1.connections id conn.ws }
    id (startExpression config)
  obtain ⟨res2, hres2⟩ := evaluate_returns_of_answersAll parse peer
    { (_evaluate parse peer s id script).1 with
      connections := markInjected (_evaluate parse peer s id script).1.connections id conn.ws }
    id (startExpression config) hpeer
  refine ⟨?_, ?_, ?_⟩
  · simp only [_inject, hget, hinj]
    rcases h : _evaluate parse peer s id script with ⟨s1, o⟩
    rw [h] at hres hres2
    simp only at hres hres2
    subst hres
    simp only [Bool.false_eq_true, if_false]
    rcases h2 : _evaluate parse peer
      { s1 with connections := markInjected s1.connections id conn.ws } id
      (startExpression config) with ⟨s2, o2⟩
    rw [h2] at hres2
    simp only at hres2
    subst hres2
    rfl
  · rw [hfirst, hf2.1, hf1.1]
  · rw [hfirst, hf2.2.1, hf1.2.1]

theorem inject_readyState (parse : String → Option JSON) (peer : Peer) (script : String)
    (s : State) (id : String) (config : String) :
    (_inject parse peer script s id config).1.readyState = s.readyState := by
  unfold _inject
  cases hget : mapGet s.connections id with
  | none => rfl
  | some conn =>
    simp only
    cases hinj : conn.injected with
    | true =>
      simp only [if_true]
      have hf := evaluate_fields parse peer s id (startExpression config)
      rcases h : _evaluate parse peer s id (startExpression config) with ⟨s1, o⟩
      rw [h] at hf
      cases o <;> exact hf.2.1
    | false =>
      simp only [Bool.false_eq_true, if_false]
      have hf := evaluate_fields parse peer s id script
      rcases h : _evaluate parse peer s id script with ⟨s1, o⟩
      rw [h] at hf
      cases o with
      | pending => exact hf.2.1
      | threw e => exact hf.2.1
      | returned res =>
        simp only
        have hf2 := evaluate_fields parse peer
          { s1 with connections := markInjected s1.connections id conn.ws } id
          (startExpression config)
        rcases h2 : _evaluate parse peer
          { s1 with connections := markInjected s1.connections id conn.ws } id
          (startExpression config) with ⟨s2, o2⟩
        rw [h2] at hf2
        cases o2 <;> exact hf2.2.1.trans hf.2.1

theorem startPort_no_pages (parse : String → Option JSON) (peer : Peer) (dial : Dialer)
    (script config : String) (http : Nat → HttpResult) (w : World) (port : Nat)
    (h : _getPages parse (http port) = []) :
    startPort parse peer dial script config http w port = (w, .returned ()) := by
  simp [startPort, h, startPages]

theorem startPort_one_page (parse : String → Option JSON) (peer : Peer) (dial : Dialer)
    (script config : String) (http : Nat → HttpResult) (w w1 : World) (port : Nat) (page : JSON)
    (h : _getPages parse (http port) = [page])
    (ht : startTarget parse peer dial script config port w page = (w1, .returned ())) :
    startPort parse peer dial script config http w port = (w1, .returned ()) := by
  simp [startPort, h, startPages, ht]

theorem scanPorts_eq : scanPorts = [8997, 8998, 8999, 9000, 9001, 9002, 9003] := by
  decide

/-- A pass of `start` in which only port 9000 lists a page. -/
theorem start_one_page (parse : String → Option JSON) (peer : Peer) (dial : Dialer)
    (script config : String) (http : Nat → HttpResult) (w w1 : World) (page : JSON)
    (hother : ∀ p, p ≠ 9000 → _getPages parse (http p) = [])
    (hpage : _getPages parse (http 9000) = [page])
    (ht : startTarget parse peer dial script config 9000
      { w with handler := { w.handler with isEnabled := true } } page = (w1, .returned ())) :
    start parse peer dial script config http w = (w1, .returned ()) := by
  have hp := fun (w' : World) (p : Nat) (hne : p ≠ 9000) =>
    startPort_no_pages parse peer dial script config http w' p (hother p hne)
  have h9 := startPort_one_page parse peer dial script config http _ w1 9000 page hpage ht
  unfold start
  rw [scanPorts_eq]
  simp only [startPorts]
  rw [hp _ 8997 (by decide)]
  simp only
  rw [hp _ 8998 (by decide)]
  simp only
  rw [hp _ 8999 (by decide)]
  simp only
  rw [h9]
  simp only
  rw [hp _ 9001 (by decide)]
  simp only
  rw [hp _ 9002 (by decide)]
  simp only
  rw [hp _ 9003 (by decide)]

theorem startTarget_registered (parse : String → Option JSON) (peer : Peer) (dial : Dialer)
    (script config : String) (port : Nat) (w : World) (page : JSON) (id : String) (conn : Conn)
    (hkey : targetKey port page = .ok id) (hget : mapGet w.handler.connections id = some conn) :
    startTarget parse peer dial script config port w page =
      ({ w with handler := (_inject parse peer script w.handler id config).1 },
        (_inject parse peer script w.handler id config).2) := by
  simp [startTarget, hkey, hget]

theorem startTarget_absent (parse : String → Option JSON) (peer : Peer) (dial : Dialer)
    (script config : String) (port : Nat) (w : World) (page : JSON) (id : String)
    (hkey : targetKey port page = .ok id) (hget : mapGet w.handler.connections id = none)
    (hdial : dial id (field page "webSocketDebuggerUrl") w.handler.readyState.length ≠ .raises) :
    startTarget parse peer dial script config port w page =
      ({ (_connect dial w id (field page "webSocketDebuggerUrl")).1 with
          handler := (_inject parse peer script
            (_connect dial w id (field page "webSocketDebuggerUrl")).1.handler id config).1 },
        (_inject parse peer script
          (_connect dial w id (field page "webSocketDebuggerUrl")).1.handler id config).2) ∧
    (_connect dial w id (field page "webSocketDebuggerUrl")).1.socketKey = w.socketKey ++ [id] ∧
    (_connect dial w id (field page "webSocketDebuggerUrl")).1.handler.readyState.length =
      w.handler.readyState.length + 1 := by
  simp only [startTarget, hkey, hget, _connect]
  cases hd : dial id (field page "webSocketDebuggerUrl") w.handler.readyState.length with
  | raises => exact absurd hd hdial
  | opens => simp
  | fails => simp
  | timesOut => simp

theorem startTarget_raises (parse : String → Option JSON) (peer : Peer) (dial : Dialer)
    (script config : String) (port : Nat) (w : World) (page : JSON) (id : String)
    (hkey : targetKey port page = .ok id) (hget : mapGet w.handler.connections id = none)
    (hdial : dial id (field page "webSocketDebuggerUrl") w.handler.readyState.length = .raises) :
    startTarget parse peer dial script config port w page = (w, .threw .syntaxError) := by
  simp [startTarget, hkey, hget, _connect, hdial]

/-- A pass of `start` over an empty registry when only port 9000 lists a page,
the connection to it opens and the page answers. -/
theorem start_fresh (parse : String → Option JSON) (peer : Peer) (dial : Dialer)
    (script config : String) (http : Nat → HttpResult) (w : World) (page : JSON) (id : String)
    (hempty : w.handler.connections = [])
    (hother : ∀ p, p ≠ 9000 → _getPages parse (http p) = [])
    (hpage : _getPages parse (http 9000) = [page])
    (hkey : targetKey 9000 page = .ok id)
    (hdial : ∀ n, dial id (field page "webSocketDebuggerUrl") n = .opens)
    (hpeer : AnswersAll parse peer) :
    ∃ h1 : State,
      start parse peer dial script config http w =
        ({ handler := h1, socketKey := w.socketKey ++ [id] }, .returned ()) ∧
      h1.connections = [(id, { ws := w.handler.readyState.length, injected := true })] ∧
      h1.readyState = w.handler.readyState ++ [.OPEN] := by
  have hinj := inject_outcome_fresh parse peer script
    { w.handler with
      isEnabled := true
      readyState := w.handler.readyState ++ [.OPEN]
      connections := [(id, { ws := w.handler.readyState.length, injected := false })] }
    id { ws := w.handler.readyState.length, injected := false } config
    (by simp [mapGet]) rfl hpeer
  refine ⟨_, start_one_page parse peer dial script config http w _ page hother hpage ?_,
    ?_, hinj.2.2⟩
  · have ha := (startTarget_absent parse peer dial script config 9000
      { w with handler := { w.handler with isEnabled := true } } page id hkey
      (by simp [hempty, mapGet]) (by rw [hdial]; decide)).1
    rw [ha]
    simp only [_connect, hdial, hempty, mapSet]
    rw [hinj.1]
  · rw [hinj.2.1]
    simp [markInjected]

/-- A pass of `start` over a registry that holds the injected session of the
only page listed. -/
theorem start_registered (parse : String → Option JSON) (peer : Peer) (dial : Dialer)
    (script config : String) (http : Nat → HttpResult) (w : World) (page : JSON) (id : String)
    (ws : Nat)
    (hconn : w.handler.connections = [(id, { ws := ws, injected := true })])
    (hother : ∀ p, p ≠ 9000 → _getPages parse (http p) = [])
    (hpage : _getPages parse (http 9000) = [page])
    (hkey : targetKey 9000 page = .ok id)
    (hpeer : AnswersAll parse peer) :
    ∃ h1 : State,
      start parse peer dial script config http w =
        ({ handler := h1, socketKey := w.socketKey }, .returned ()) ∧
      h1.connections = w.handler.connections ∧
      h1.readyState = w.handler.readyState := by
  have hinj := inject_outcome_injected parse peer script
    { w.handler with isEnabled := true } id { ws := ws, injected := true } config
    (by simp [hconn, mapGet]) rfl hpeer
  refine ⟨_, start_one_page parse peer dial script config http w _ page hother hpage ?_,
    hinj.2.1, hinj.2.2⟩
  rw [startTarget_registered parse peer dial script config 9000
    { w with handler := { w.handler with isEnabled := true } } page id
    { ws := ws, injected := true } hkey (by simp [hconn, mapGet])]
  rw [hinj.1]

/-- What `start` does for a target that its inner loop reaches: no socket is
created for a registered key, one is created for an absent key when the
connection attempt does not raise, and `_inject` is invoked in both cases.
When only port 9000 lists a target, the connection to it opens and the page
answers every request, a `start` over an empty registry leaves exactly the
session of that target, with `injected = true` and `getConnectionCount() = 1`,
and a second `start` creates no socket and leaves the same registry. -/
theorem start_connects_absent_target_and_injects (parse : String → Option JSON)
    (peer : Peer) (dial : Dialer) (script : String) :
    (∀ (config : String) (port : Nat) (w : World) (page : JSON) (id : String),
      targetKey port page = .ok id →
      (∀ conn, mapGet w.handler.connections id = some conn →
        (startTarget parse peer dial script config port w page).1.socketKey = w.socketKey ∧
        (startTarget parse peer dial script config port w page).1.handler.readyState =
          w.handler.readyState ∧
        (startTarget parse peer dial script config port w page).1.handler =
          (_inject parse peer script w.handler id config).1 ∧
        (startTarget parse peer dial script config port w page).2 =
          (_inject parse peer script w.handler id config).2) ∧
      (mapGet w.handler.connections id = none →
        dial id (field page "webSocketDebuggerUrl") w.handler.readyState.length ≠ .raises →
        (startTarget parse peer dial script config port w page).1.socketKey =
          w.socketKey ++ [id] ∧
        (startTarget parse peer dial script config port w page).1.handler.readyState.length =
          w.handler.readyState.length + 1 ∧
        (startTarget parse peer dial script config port w page).1.handler =
          (_inject parse peer script
            (_connect dial w id (field page "webSocketDebuggerUrl")).1.handler id config).1 ∧
        (startTarget parse peer dial script config port w page).2 =
          (_inject parse peer script
            (_connect dial w id (field page "webSocketDebuggerUrl")).1.handler id config).2)) ∧
    (∀ (config config2 : String) (http : Nat → HttpResult) (w : World) (page : JSON)
      (id : String),
      w.handler.connections = [] →
      (∀ p, p ≠ 9000 → _getPages parse (http p) = []) →
      _getPages parse (http 9000) = [page] →
      targetKey 9000 page = .ok id →
      (∀ n, dial id (field page "webSocketDebuggerUrl") n = .opens) →
      AnswersAll parse peer →
      (start parse peer dial script config http w).2 = .returned () ∧
      (start parse peer dial script config http w).1.handler.connections =
        [(id, { ws := w.handler.readyState.length, injected := true })] ∧
      getConnectionCount (start parse peer dial script config http w).1.handler = 1 ∧
      (start parse peer dial script config2 http
        (start parse peer dial script config http w).1).2 = .returned () ∧
      (start parse peer dial script config2 http
        (start parse peer dial script config http w).1).1.handler.connections =
        [(id, { ws := w.handler.readyState.length, injected := true })] ∧
      (start parse peer dial script config2 http
        (start parse peer dial script config http w).1).1.socketKey =
        (start parse peer dial script config http w).1.socketKey ∧
      (start parse peer dial script config2 http
        (start parse peer dial script config http w).1).1.handler.readyState =
        (start parse peer dial script config http w).1.handler.readyState ∧
      getConnectionCount (start parse peer dial script config2 http
        (start parse peer dial script config http w).1).1.handler = 1) := by
  refine ⟨fun config port w page id hkey => ⟨fun conn hget => ?_, fun hget hdial => ?_⟩,
    fun config config2 http w page id hempty hother hpage hkey hdial hpeer => ?_⟩
  · rw [startTarget_registered parse peer dial script config port w page id conn hkey hget]
    exact ⟨rfl, inject_readyState parse peer script w.handler id config, rfl, rfl⟩
  · obtain ⟨ht, hkeys, hlen⟩ :=
      startTarget_absent parse peer dial script config port w page id hkey hget hdial
    rw [ht]
    refine ⟨hkeys, ?_, rfl, rfl⟩
    simp only
    rw [inject_readyState, hlen]
  · obtain ⟨h1, hs1, hc1, hr1⟩ := start_fresh parse peer dial script config http w page id
      hempty hother hpage hkey hdial hpeer
    obtain ⟨h2, hs2, hc2, hr2⟩ := start_registered parse peer dial script config2 http
      { handler := h1, socketKey := w.socketKey ++ [id] } page id w.handler.readyState.length
      hc1 hother hpage hkey hpeer
    rw [hs1]
    simp only
    rw [hs2]
    simp only at hc2 hr2
    exact ⟨trivial, hc1, by simp [getConnectionCount, hc1], rfl, hc2.trans hc1, rfl, hr2,
      by simp [getConnectionCount, hc2, hc1]⟩

theorem answersAll_pagePeer : AnswersAll worldParse pagePeer := by
  intro ws n e
  refine ⟨tickFrame n (pageText ws), ?_, ?_⟩
  · simp [pagePeer, isReplyTo, worldParse, pageParse_tickFrame, stringReply, lookupField,
      strictEqNum, JSNumber.strictEq_ofNat_self]
  · exact logEvaluationError_ok _ (by
      simp [replyResult, worldParse, pageParse_tickFrame, stringReply, field, lookupField,
        exceptionTextIsString, optChain])

theorem getPages_httpA :
    (∀ p, p ≠ 9000 → _getPages worldParse (httpA p) = []) ∧
    _getPages worldParse (httpA 9000) = [pageA] := by
  refine ⟨fun p hp => ?_, rfl⟩
  simp [httpA, hp, _getPages]

theorem start_connects_absent_target_and_injects_witness :
    (start worldParse pagePeer openDial sampleScript "null" httpA World.new).1.handler.connections =
      [("9000:A", { ws := 0, injected := true })] ∧
    getConnectionCount
      (start worldParse pagePeer openDial sampleScript "null" httpA World.new).1.handler = 1 ∧
    (start worldParse pagePeer openDial sampleScript "null" httpA
      (start worldParse pagePeer openDial sampleScript "null" httpA World.new).1).1.socketKey =
      (start worldParse pagePeer openDial sampleScript "null" httpA World.new).1.socketKey ∧
    getConnectionCount
      (start worldParse pagePeer openDial sampleScript "null" httpA
        (start worldParse pagePeer openDial sampleScript "null" httpA World.new).1).1.handler =
      1 :=
  ⟨((start_connects_absent_target_and_injects worldParse pagePeer openDial sampleScript).2
      "null" "null" httpA World.new pageA "9000:A" rfl getPages_httpA.1 getPages_httpA.2 rfl
      (fun _ => rfl) answersAll_pagePeer).2.1,
   ((start_connects_absent_target_and_injects worldParse pagePeer openDial sampleScript).2
      "null" "null" httpA World.new pageA "9000:A" rfl getPages_httpA.1 getPages_httpA.2 rfl
      (fun _ => rfl) answersAll_pagePeer).2.2.1,
   ((start_connects_absent_target_and_injects worldParse pagePeer openDial sampleScript).2
      "null" "null" httpA World.new pageA "9000:A" rfl getPages_httpA.1 getPages_httpA.2 rfl
      (fun _ => rfl) answersAll_pagePeer).2.2.2.2.2.1,
   ((start_connects_absent_target_and_injects worldParse pagePeer openDial sampleScript).2
      "null" "null" httpA World.new pageA "9000:A" rfl getPages_httpA.1 getPages_httpA.2 rfl
      (fun _ => rfl) answersAll_pagePeer).2.2.2.2.2.2.2⟩

set_option maxRecDepth 100000 in
/-- C11 at a failing input: port 9000 lists the pages `X` and `B`, and
`new WebSocket` throws on the debugger URL of `X`.  The page `B` is a
discovered target whose key is not in the registry, yet `start` opens no
connection for it and does not invoke `_inject` for it: no socket is created
and no request is sent.  When `B` is registered already (by an earlier `start`
in which the attempt on `X` ended with an `error` event), the `start` in which
the attempt on `X` raises sends it no reconfigure call. -/
theorem start_leaves_discovered_target_untouched :
    _getPages worldParse (httpXB 9000) = [pageX, pageB] ∧
    targetKey 9000 pageB = .ok "9000:B" ∧
    mapGet World.new.handler.connections "9000:B" = none ∧
    (start worldParse pagePeer raisingDial sampleScript "null" httpXB World.new).2 =
      .returned () ∧
    (start worldParse pagePeer raisingDial sampleScript "null" httpXB
        World.new).1.handler.connections = [] ∧
    (start worldParse pagePeer raisingDial sampleScript "null" httpXB World.new).1.socketKey =
      [] ∧
    (start worldParse pagePeer raisingDial sampleScript "null" httpXB World.new).1.handler.sent =
      [] ∧
    mapGet (start worldParse pagePeer failingDial sampleScript "null" httpXB
        World.new).1.handler.connections "9000:B" = some { ws := 1, injected := true } ∧
    (start worldParse pagePeer raisingDial sampleScript "null" httpXB
        (start worldParse pagePeer failingDial sampleScript "null" httpXB
          World.new).1).1.handler.sent =
      (start worldParse pagePeer failingDial sampleScript "null" httpXB
        World.new).1.handler.sent := by
  refine ⟨rfl, rfl, rfl, rfl, ?_, ?_, ?_, ?_, ?_⟩ <;> decide

/-! ### What the registry satisfies in every reachable world -/

theorem Tame.refl (s : State) : Tame s s :=
  ⟨List.Sublist.refl _, rfl, fun _ h => h⟩

theorem Tame.trans {s s' s'' : State} (h : Tame s s') (h' : Tame s' s'') : Tame s s'' :=
  ⟨h'.1.trans h.1, h'.2.1.trans h.2.1, fun ws hws => h'.2.2 ws (h.2.2 ws hws)⟩

theorem tame_of_fields (s s' : State) (hc : sessions s'.connections = sessions s.connections)
    (hr : s'.readyState = s.readyState) : Tame s s' :=
  ⟨by rw [hc], by rw [hr], fun ws h => by rw [hr]; exact h⟩

theorem evaluate_tame (parse : String → Option JSON) (peer : Peer) (s : State)
    (id e : String) : Tame s (_evaluate parse peer s id e).1 :=
  tame_of_fields _ _ (by rw [(evaluate_fields parse peer s id e).1])
    (evaluate_fields parse peer s id e).2.1

theorem sessions_markInjected (m : List (String × Conn)) (id : String) (ws : Nat) :
    sessions (markInjected m id ws) = sessions m := by
  induction m with
  | nil => rfl
  | cons e rest ih =>
    simp only [markInjected, sessions, List.map_cons, List.map_map] at ih ⊢
    refine congrArg₂ _ ?_ ih
    by_cases h : (e.1 == id && e.2.ws == ws) = true <;> simp [h]

theorem inject_sessions (parse : String → Option JSON) (peer : Peer) (script : String)
    (s : State) (id : String) (config : String) :
    sessions (_inject parse peer script s id config).1.connections = sessions s.connections := by
  unfold _inject
  cases hget : mapGet s.connections id with
  | none => rfl
  | some conn =>
    simp only
    cases hinj : conn.injected with
    | true =>
      simp only [if_true]
      have hf := evaluate_fields parse peer s id (startExpression config)
      rcases h : _evaluate parse peer s id (startExpression config) with ⟨s1, o⟩
      rw [h] at hf
      simp only at hf
      cases o <;> simp only [hf.1]
    | false =>
      simp only [Bool.false_eq_true, if_false]
      have hf := evaluate_fields parse peer s id script
      rcases h : _evaluate parse peer s id script with ⟨s1, o⟩
      rw [h] at hf
      simp only at hf
      cases o with
      | pending => simp only [hf.1]
      | threw e => simp only [hf.1]
      | returned res =>
        simp only
        have hf2 := evaluate_fields parse peer
          { s1 with connections := markInjected s1.connections id conn.ws } id
          (startExpression config)
        rcases h2 : _evaluate parse peer
          { s1 with connections := markInjected s1.connections id conn.ws } id
          (startExpression config) with ⟨s2, o2⟩
        rw [h2] at hf2
        simp only at hf2
        cases o2 <;> simp only [hf2.1, sessions_markInjected, hf.1]

theorem inject_tame (parse : String → Option JSON) (peer : Peer) (script : String)
    (s : State) (id : String) (config : String) :
    Tame s (_inject parse peer script s id config).1 :=
  tame_of_fields _ _ (inject_sessions parse peer script s id config)
    (inject_readyState parse peer script s id config)

theorem getElem?_set_alive (r : List ReadyState) (i ws : Nat)
    (h : r[ws]? = some .OPEN ∨ r[ws]? = some .CLOSING) :
    (r.set i .CLOSING)[ws]? = some .OPEN ∨ (r.set i .CLOSING)[ws]? = some .CLOSING := by
  by_cases hi : i = ws
  · subst hi
    have hlt : i < r.length := by
      rcases h with h | h <;> exact (List.getElem?_eq_some_iff.1 h).1
    right
    simp [List.getElem?_set, hlt]
  · rw [List.getElem?_set_ne hi]
    exact h

theorem wsClose_tame (ws : Nat) (s : State) : Tame s (wsClose ws s) := by
  unfold wsClose
  split
  · exact ⟨List.Sublist.refl _, by simp, fun i h => getElem?_set_alive _ _ _ h⟩
  · exact ⟨List.Sublist.refl _, by simp, fun i h => getElem?_set_alive _ _ _ h⟩
  · exact Tame.refl s

theorem stopLoop_tame (parse : String → Option JSON) (peer : Peer)
    (entries : List (String × Conn)) (s : State) :
    Tame s (stopLoop parse peer entries s).1 := by
  induction entries generalizing s with
  | nil => exact Tame.refl s
  | cons e rest ih =>
    obtain ⟨id, conn⟩ := e
    have he := evaluate_tame parse peer s id stopExpression
    simp only [stopLoop]
    rcases h : _evaluate parse peer s id stopExpression with ⟨s1, o⟩
    rw [h] at he
    cases o with
    | returned res => exact (he.trans (wsClose_tame conn.ws s1)).trans (ih _)
    | threw e => exact he.trans (ih _)
    | pending => exact he

theorem stop_tame (parse : String → Option JSON) (peer : Peer) (s : State) :
    Tame s (stop parse peer s).1 := by
  have h0 : Tame s { s with isEnabled := false } := ⟨List.Sublist.refl _, rfl, fun _ h => h⟩
  have hl := stopLoop_tame parse peer s.connections { s with isEnabled := false }
  unfold stop
  rcases h : stopLoop parse peer s.connections { s with isEnabled := false } with ⟨s1, o⟩
  rw [h] at hl
  cases o with
  | returned u =>
    exact h0.trans (hl.trans ⟨by simp [sessions], rfl, fun _ h => h⟩)
  | threw e => exact h0.trans hl
  | pending => exact h0.trans hl

theorem RegistryInv.tame {w : World} {h' : State} (hinv : RegistryInv w)
    (ht : Tame w.handler h') : RegistryInv { w with handler := h' } := by
  obtain ⟨hnd, hlen, hent⟩ := hinv
  obtain ⟨hsub, hrl, halive⟩ := ht
  refine ⟨?_, hlen.trans hrl.symm, fun k c hkc => ?_⟩
  · have hk : (h'.connections.map Prod.fst) = (sessions h'.connections).map Prod.fst := by
      simp [sessions, Function.comp]
    have hk0 : (w.handler.connections.map Prod.fst) =
        (sessions w.handler.connections).map Prod.fst := by
      simp [sessions, Function.comp]
    simp only
    rw [hk]
    rw [hk0] at hnd
    exact hnd.sublist (hsub.map _)
  · have hmem : (k, c.ws) ∈ sessions h'.connections :=
      List.mem_map.2 ⟨(k, c), hkc, rfl⟩
    obtain ⟨⟨k0, c0⟩, hc0, heq⟩ := List.mem_map.1 (hsub.subset hmem)
    simp only [Prod.mk.injEq] at heq
    obtain ⟨hk, hws⟩ := heq
    subst hk
    have := hent k0 c0 hc0
    rw [hws] at this
    exact ⟨this.1, halive _ this.2⟩

theorem mem_mapSet (m : List (String × Conn)) (id : String) (c0 : Conn) (k : String)
    (c : Conn) (h : (k, c) ∈ mapSet m id c0) : (k, c) = (id, c0) ∨ (k, c) ∈ m := by
  induction m with
  | nil =>
    simp only [mapSet, List.mem_singleton] at h
    exact Or.inl h
  | cons e rest ih =>
    obtain ⟨k', v⟩ := e
    by_cases hk : k' = id
    · simp only [mapSet, hk, if_true, List.mem_cons] at h
      rcases h with h | h
      · exact Or.inl h
      · exact Or.inr (List.mem_cons_of_mem _ h)
    · simp only [mapSet, hk, if_false, List.mem_cons] at h
      rcases h with h | h
      · exact Or.inr (by rw [h]; exact List.mem_cons_self _ _)
      · rcases ih h with h' | h'
        · exact Or.inl h'
        · exact Or.inr (List.mem_cons_of_mem _ h')

theorem keys_mapSet (m : List (String × Conn)) (id : String) (c0 : Conn) :
    (mapSet m id c0).map Prod.fst =
      if id ∈ m.map Prod.fst then m.map Prod.fst else m.map Prod.fst ++ [id] := by
  induction m with
  | nil => simp [mapSet]
  | cons e rest ih =>
    obtain ⟨k', v⟩ := e
    by_cases hk : k' = id
    · simp [mapSet, hk]
    · have hk' : ¬ id = k' := fun h => hk h.symm
      simp only [mapSet, hk, if_false, List.map_cons, ih, List.mem_cons, hk', false_or]
      split <;> simp

theorem nodup_keys_mapSet (m : List (String × Conn)) (id : String) (c0 : Conn)
    (h : (m.map Prod.fst).Nodup) : ((mapSet m id c0).map Prod.fst).Nodup := by
  rw [keys_mapSet]
  split
  · exact h
  next hnot =>
    rw [List.nodup_append]
    refine ⟨h, List.nodup_singleton _, ?_⟩
    intro a ha hb
    simp only [List.mem_singleton] at hb
    subst hb
    exact hnot ha

theorem getElem?_append_some {α : Type} (l l' : List α) (i : Nat) (x : α)
    (h : l[i]? = some x) : (l ++ l')[i]? = some x := by
  have hlt : i < l.length := (List.getElem?_eq_some_iff.1 h).1
  rw [List.getElem?_append_left hlt]
  exact h

theorem RegistryInv.append {w : World} (hinv : RegistryInv w) (id : String)
    (st : ReadyState) :
    RegistryInv
      { handler := { w.handler with readyState := w.handler.readyState ++ [st] }
        socketKey := w.socketKey ++ [id] } := by
  obtain ⟨hnd, hlen, hent⟩ := hinv
  refine ⟨hnd, by simp [hlen], fun k c hkc => ?_⟩
  obtain ⟨h1, h2⟩ := hent k c hkc
  refine ⟨getElem?_append_some _ _ _ _ h1, ?_⟩
  rcases h2 with h2 | h2
  · exact Or.inl (getElem?_append_some _ _ _ _ h2)
  · exact Or.inr (getElem?_append_some _ _ _ _ h2)

theorem connect_inv (dial : Dialer) (w : World) (id : String) (url : Option JSON)
    (hinv : RegistryInv w) : RegistryInv (_connect dial w id url).1 := by
  unfold _connect
  cases dial id url w.handler.readyState.length with
  | raises => exact hinv
  | fails => exact hinv.append id .CLOSING
  | timesOut => exact hinv.append id .CLOSING
  | opens =>
    have happ := hinv.append id .OPEN
    obtain ⟨hnd, hlen, hent⟩ := happ
    simp only at hnd hlen hent
    refine ⟨nodup_keys_mapSet _ _ _ hnd, hlen, fun k c hkc => ?_⟩
    rcases mem_mapSet _ _ _ _ _ hkc with heq | hmem
    · simp only [Prod.mk.injEq] at heq
      obtain ⟨hk, hc⟩ := heq
      subst hk hc
      simp only
      have hl : w.socketKey.length = w.handler.readyState.length := hinv.2.1
      refine ⟨?_, Or.inl ?_⟩
      · rw [← hl, List.getElem?_append_right (le_refl _)]
        simp
      · rw [List.getElem?_append_right (le_refl _)]
        simp
    · exact hent k c hmem

theorem peerCloses_inv (ws : Nat) (w : World) (hinv : RegistryInv w) :
    RegistryInv (peerCloses ws w) := by
  unfold peerCloses
  split
  · exact hinv.tame ⟨List.Sublist.refl _, by simp, fun i h => getElem?_set_alive _ _ _ h⟩
  · exact hinv

theorem socketCloses_inv (ws : Nat) (w : World) (hinv : RegistryInv w) :
    RegistryInv (socketCloses ws w) := by
  unfold socketCloses
  split
  · exact hinv
  next id st _ hkey _ =>
    obtain ⟨hnd, hlen, hent⟩ := hinv
    refine ⟨?_, by simpa [onClose] using hlen, fun k c hkc => ?_⟩
    · have : ((mapDelete w.handler.connections id).map Prod.fst).Sublist
          (w.handler.connections.map Prod.fst) :=
        (List.filter_sublist _).map _
      exact hnd.sublist this
    · simp only [onClose, mapDelete, List.mem_filter, Bool.not_eq_true', beq_eq_false_iff_ne,
        ne_eq] at hkc
      obtain ⟨hmem, hk⟩ := hkc
      obtain ⟨h1, h2⟩ := hent k c hmem
      have hws : ws ≠ c.ws := by
        intro heq
        rw [← heq, hkey] at h1
        exact hk (Option.some.inj h1).symm
      simp only [onClose]
      rw [List.getElem?_set_ne hws]
      exact ⟨h1, h2⟩
  · exact hinv

theorem startTarget_inv (parse : String → Option JSON) (peer : Peer) (dial : Dialer)
    (script config : String) (port : Nat) (w : World) (page : JSON) (hinv : RegistryInv w) :
    RegistryInv (startTarget parse peer dial script config port w page).1 := by
  unfold startTarget
  cases targetKey port page with
  | error e => exact hinv
  | ok id =>
    simp only
    cases mapGet w.handler.connections id with
    | some conn => exact hinv.tame (inject_tame parse peer script w.handler id config)
    | none =>
      simp only
      have hc := connect_inv dial w id (field page "webSocketDebuggerUrl") hinv
      rcases h : _connect dial w id (field page "webSocketDebuggerUrl") with ⟨w1, o⟩
      rw [h] at hc
      cases o with
      | threw e => exact hc
      | pending => exact hc
      | returned b => exact hc.tame (inject_tame parse peer script w1.handler id config)

theorem startPages_inv (parse : String → Option JSON) (peer : Peer) (dial : Dialer)
    (script config : String) (port : Nat) (pages : List JSON) (w : World)
    (hinv : RegistryInv w) :
    RegistryInv (startPages parse peer dial script config port pages w).1 := by
  induction pages generalizing w with
  | nil => exact hinv
  | cons page rest ih =>
    have ht := startTarget_inv parse peer dial script config port w page hinv
    simp only [startPages]
    rcases h : startTarget parse peer dial script config port w page with ⟨w1, o⟩
    rw [h] at ht
    cases o with
    | returned u => exact ih w1 ht
    | threw e => exact ht
    | pending => exact ht

theorem startPort_inv (parse : String → Option JSON) (peer : Peer) (dial : Dialer)
    (script config : String) (http : Nat → HttpResult) (w : World) (port : Nat)
    (hinv : RegistryInv w) :
    RegistryInv (startPort parse peer dial script config http w port).1 := by
  have hp := startPages_inv parse peer dial script config port (_getPages parse (http port)) w
    hinv
  unfold startPort
  rcases h : startPages parse peer dial script config port (_getPages parse (http port)) w
    with ⟨w1, o⟩
  rw [h] at hp
  cases o <;> exact hp

theorem startPorts_inv (parse : String → Option JSON) (peer : Peer) (dial : Dialer)
    (script config : String) (http : Nat → HttpResult) (ports : List Nat) (w : World)
    (hinv : RegistryInv w) :
    RegistryInv (startPorts parse peer dial script config http ports w).1 := by
  induction ports generalizing w with
  | nil => exact hinv
  | cons port rest ih =>
    have ht := startPort_inv parse peer dial script config http w port hinv
    simp only [startPorts]
    rcases h : startPort parse peer dial script config http w port with ⟨w1, o⟩
    rw [h] at ht
    cases o with
    | returned u => exact ih w1 ht
    | threw e => exact ht
    | pending => exact ht

theorem start_inv (parse : String → Option JSON) (peer : Peer) (dial : Dialer)
    (script config : String) (http : Nat → HttpResult) (w : World) (hinv : RegistryInv w) :
    RegistryInv (start parse peer dial script config http w).1 :=
  startPorts_inv parse peer dial script config http scanPorts _
    (hinv.tame ⟨List.Sublist.refl _, rfl, fun _ h => h⟩)

/-- In every reachable world the registry holds each key once, and every
session it holds is on the socket that was created for its key and that has not
closed: the socket is open or closing. -/
theorem reachable_registry_inv (w : World) (h : Reachable w) : RegistryInv w := by
  induction h with
  | init => exact ⟨List.nodup_nil, rfl, fun k c hkc => by simp [World.new, CDPHandler.new] at hkc⟩
  | byConnect w dial id url _ ih => exact connect_inv dial w id url ih
  | byClose w ws _ ih => exact socketCloses_inv ws w ih
  | byPeerClose w ws _ ih => exact peerCloses_inv ws w ih
  | byEvaluate w parse peer id e _ ih => exact ih.tame (evaluate_tame parse peer w.handler id e)
  | byInject w parse peer script id config _ ih =>
    exact ih.tame (inject_tame parse peer script w.handler id config)
  | byStart w parse peer dial script config http _ ih =>
    exact start_inv parse peer dial script config http w ih
  | byStop w parse peer _ ih => exact ih.tame (stop_tame parse peer w.handler)

/-! ### What `stop` does keep -/

theorem evaluate_isEnabled (parse : String → Option JSON) (peer : Peer) (s : State)
    (id e : String) : (_evaluate parse peer s id e).1.isEnabled = s.isEnabled := by
  cases h : openConn s id with
  | none => rw [evaluate_of_not_open parse peer s id e h]
  | some conn =>
    have hf := deliverAll_fields parse conn.ws (peer conn.ws s.msgId e) (sendEvaluate s conn e)
    simp only [_evaluate, h, fireTimeout]
    exact hf.2.2.2.2

theorem stopLoop_isEnabled (parse : String → Option JSON) (peer : Peer)
    (entries : List (String × Conn)) (s : State) :
    (stopLoop parse peer entries s).1.isEnabled = s.isEnabled ∧
    ∀ e, (stopLoop parse peer entries s).2 ≠ .threw e := by
  induction entries generalizing s with
  | nil => exact ⟨rfl, fun e h => (by cases h)⟩
  | cons entry rest ih =>
    obtain ⟨id, conn⟩ := entry
    have he := evaluate_isEnabled parse peer s id stopExpression
    simp only [stopLoop]
    rcases h : _evaluate parse peer s id stopExpression with ⟨s1, o⟩
    rw [h] at he
    simp only at he
    cases o with
    | returned res =>
      have := ih (wsClose conn.ws s1)
      refine ⟨this.1.trans ?_, this.2⟩
      rw [← he]
      unfold wsClose
      split <;> rfl
    | threw e =>
      have := ih s1
      exact ⟨this.1.trans he, this.2⟩
    | pending => exact ⟨he, fun e h => (by cases h)⟩

/-- What `stop` does achieve: it never raises, and when it returns the registry
is empty and the enabled flag is false. -/
theorem stop_clears_registry (parse : String → Option JSON) (peer : Peer) (s : State) :
    (∀ e, (stop parse peer s).2 ≠ .threw e) ∧
    ((stop parse peer s).2 = .returned () →
      (stop parse peer s).1.connections = [] ∧ (stop parse peer s).1.isEnabled = false) := by
  have hl := stopLoop_isEnabled parse peer s.connections { s with isEnabled := false }
  unfold stop
  rcases h : stopLoop parse peer s.connections { s with isEnabled := false } with ⟨s1, o⟩
  rw [h] at hl
  simp only at hl
  cases o with
  | returned u => exact ⟨fun e he => (by cases he), fun _ => ⟨rfl, hl.1⟩⟩
  | threw e => exact absurd rfl (hl.2 e)
  | pending => exact ⟨fun e he => (by cases he), fun he => (by cases he)⟩

/-! ### Where `start` does isolate failures -/

theorem inject_never_throws (parse : String → Option JSON) (peer : Peer) (script : String)
    (s : State) (id : String) (config : String) (e : JSError) :
    (_inject parse peer script s id config).2 ≠ .threw e := by
  unfold _inject
  cases mapGet s.connections id with
  | none => exact fun h => by cases h
  | some conn =>
    simp only
    cases conn.injected with
    | true =>
      simp only [if_true]
      rcases _evaluate parse peer s id (startExpression config) with ⟨s1, o⟩
      cases o <;> exact fun h => by cases h
    | false =>
      simp only [Bool.false_eq_true, if_false]
      rcases _evaluate parse peer s id script with ⟨s1, o⟩
      cases o with
      | pending => exact fun h => by cases h
      | threw e' => exact fun h => by cases h
      | returned res =>
        simp only
        rcases _evaluate parse peer
          { s1 with connections := markInjected s1.connections id conn.ws } id
          (startExpression config) with ⟨s2, o2⟩
        cases o2 <;> exact fun h => by cases h

/-- The body of the inner loop of `start` raises only when the key cannot be
built or the connection attempt raises: a connection that ends with an `error`
event or the timeout, and every failure of the injection, leave the loop
running. -/
theorem startTarget_isolates (parse : String → Option JSON) (peer : Peer) (dial : Dialer)
    (script config : String) (port : Nat) (w : World) (page : JSON) (id : String)
    (hkey : targetKey port page = .ok id)
    (hdial : dial id (field page "webSocketDebuggerUrl") w.handler.readyState.length ≠ .raises)
    (e : JSError) :
    (startTarget parse peer dial script config port w page).2 ≠ .threw e := by
  cases hget : mapGet w.handler.connections id with
  | some conn =>
    rw [startTarget_registered parse peer dial script config port w page id conn hkey hget]
    exact inject_never_throws parse peer script _ id config e
  | none =>
    rw [(startTarget_absent parse peer dial script config port w page id hkey hget hdial).1]
    exact inject_never_throws parse peer script _ id config e

end CDPHandler

end AutoAccept
